import Mathlib

/-!
Skirmish AI bookkeeping of the Spring engine.

A shallow embedding of

* `rts/ExternalAI/SkirmishAIHandler.h` (class `CSkirmishAIHandler`), and
* `rts/Game/UnsyncedGameCommands.cpp` (`_local_strSpaceTokenize`,
  `AIKillReloadActionExecutor::Execute`, `AIControlActionExecutor::Execute`,
  `AIListActionExecutor::Execute`, `SaveActionExecutor::Execute`).

Conventions.

* `std::string` is `String`, one `Char` for each `char`; `std::vector<T>` and
  `std::array<T, N>` are `List T` (an array additionally has length `N`, see
  `CSkirmishAIHandler.WellFormed`); `spring::unordered_set` and `spring::unordered_map`
  are lists of elements and of key-value pairs.
* A pointer result is an `Option`, `none` being the null pointer.
* `size_t` values are `Nat`, `int` values are `Int`, `uint8_t` values are `Nat`
  reduced `% 256` where the code does arithmetic on them; the result of `atoi` is reduced
  to the 32 bits of the `int` that receives it.
* `MAX_AIS` is declared in `Sim/Misc/GlobalConstants.h`, which is not part of the
  sources at hand; it is a parameter of everything that depends on it.
* An executor is modelled by the trace of what it does to its collaborators (log lines,
  network messages, calls into the handler), see `Effect` and `Trace`.
* The member functions of `CSkirmishAIHandler` that are only declared in the header
  (their bodies live in `SkirmishAIHandler.cpp`) are modelled from the specification;
  each such definition says so in its doc comment.  Member functions with an inline
  body in the header are translated from that body.
* `spaceTokensSpec` states in the words of the specification what `_local_strSpaceTokenize`
  returns; the function itself is translated from its loop.
-/

namespace Spring

/-! ## Data model -/

/-- The fields of `SkirmishAIData` that the sources read or write
(`UnsyncedGameCommands.cpp`, lines 810-821 and 865-879). -/
structure SkirmishAIData where
  name : String
  team : Int
  hostPlayer : Int
  shortName : String
  version : String
  optionKeys : List String
  options : List (String × String)
  isLuaAI : Bool
deriving DecidableEq, Repr

/-- Modelled from the spec: the content of an unoccupied slot of the instance table
(`SkirmishAIData.h` is missing).  Only its empty `shortName`, which "marks an
invalid/incomplete record", is ever relied upon. -/
def SkirmishAIData.empty : SkirmishAIData :=
  { name := "", team := -1, hostPlayer := -1, shortName := "", version := "",
    optionKeys := [], options := [], isLuaAI := false }

/-- The data members of `CSkirmishAIHandler` (header lines 183-202).
`aiLibraryKeys` is left out: no modelled operation reads it. -/
structure CSkirmishAIHandler where
  /-- id -> AI instance -/
  aiInstanceData : List SkirmishAIData
  /-- temporarily stores detailed info of local Skirmish AIs waiting for initialization -/
  localTeamAIs : List SkirmishAIData
  /-- temporarily stores reason for killing a Skirmish AI -/
  aiKillFlags : List Int
  skirmishAIDataMap : List (Nat × SkirmishAIData)
  luaAIShortNames : List String
  /-- the current local AI ID that is executing, MAX_AIS if none -/
  currentAIId : Nat
  numSkirmishAIs : Nat
  gameInitialized : Bool
deriving DecidableEq, Repr

/-- The three `std::array<_, MAX_AIS>` members have exactly `MAX_AIS` elements. -/
def CSkirmishAIHandler.WellFormed (MAX_AIS : Nat) (h : CSkirmishAIHandler) : Prop :=
  h.aiInstanceData.length = MAX_AIS ∧ h.localTeamAIs.length = MAX_AIS ∧
    h.aiKillFlags.length = MAX_AIS

instance (MAX_AIS : Nat) (h : CSkirmishAIHandler) : Decidable (h.WellFormed MAX_AIS) := by
  unfold CSkirmishAIHandler.WellFormed; infer_instance

/-! ## `CSkirmishAIHandler`: functions with an inline body in the header -/

/-- Header line 175:
`static bool IsValidSkirmishAI(const SkirmishAIData& aiData) { return (!aiData.shortName.empty()); }` -/
def IsValidSkirmishAI (aiData : SkirmishAIData) : Bool :=
  decide (aiData.shortName ≠ "")

/-- Header line 104: `size_t GetNumSkirmishAIs() const { return numSkirmishAIs; }` -/
def GetNumSkirmishAIs (h : CSkirmishAIHandler) : Nat :=
  h.numSkirmishAIs

/-- Header line 153:
`int GetLocalKillFlag(const size_t skirmishAIId) const { return aiKillFlags[skirmishAIId]; }`.
The array access is unchecked; `none` stands for the out-of-bounds read. -/
def GetLocalKillFlag (h : CSkirmishAIHandler) (skirmishAIId : Nat) : Option Int :=
  h.aiKillFlags[skirmishAIId]?

/-- Header line 160:
`bool HasLocalKillFlag(const size_t skirmishAIId) const { return (GetLocalKillFlag(skirmishAIId) != -1); }` -/
def HasLocalKillFlag (h : CSkirmishAIHandler) (skirmishAIId : Nat) : Option Bool :=
  (GetLocalKillFlag h skirmishAIId).map (fun flag => decide (flag ≠ -1))

/-- Header line 168: `GetLuaAIImplShortNames() const { return luaAIShortNames; }` -/
def GetLuaAIImplShortNames (h : CSkirmishAIHandler) : List String :=
  h.luaAIShortNames

/-- Header line 177: `IsLuaAI(aiData)` is membership of `aiData.shortName` in
`luaAIShortNames`. -/
def IsLuaAI (h : CSkirmishAIHandler) (aiData : SkirmishAIData) : Bool :=
  decide (aiData.shortName ∈ h.luaAIShortNames)

/-- Header line 170: `uint8_t GetCurrentAIID() { return currentAIId; }` -/
def GetCurrentAIID (h : CSkirmishAIHandler) : Nat :=
  h.currentAIId

/-- Header line 171: `void SetCurrentAIID(uint8_t id) { currentAIId = id; }` -/
def SetCurrentAIID (h : CSkirmishAIHandler) (id : Nat) : CSkirmishAIHandler :=
  { h with currentAIId := id % 256 }

/-! ## `CSkirmishAIHandler`: functions declared in the header only -/

/-- Modelled from the spec: `ResetState` (body missing).  Every slot of the instance table
and of the local creation tracker is unoccupied, every kill flag is the "none" sentinel
`-1`, the derived index and the Lua registry are empty; the scalar members take the
default member initialisers of header lines 199-202. -/
def ResetState (MAX_AIS : Nat) : CSkirmishAIHandler :=
  { aiInstanceData := List.replicate MAX_AIS SkirmishAIData.empty
    localTeamAIs := List.replicate MAX_AIS SkirmishAIData.empty
    aiKillFlags := List.replicate MAX_AIS (-1)
    skirmishAIDataMap := []
    luaAIShortNames := []
    currentAIId := MAX_AIS % 256
    numSkirmishAIs := 0
    gameInitialized := false }

/-- Modelled from the spec: `IsActiveSkirmishAI` (body missing).  "Returns true if data
for a Skirmish AI with the specified id is stored": the id lies in `[0, MAX_AIS)` and its
slot holds a record that is not marked invalid by an empty `shortName`; an out-of-range id
is "treated as not-found". -/
def IsActiveSkirmishAI (MAX_AIS : Nat) (h : CSkirmishAIHandler) (skirmishAIId : Nat) : Bool :=
  decide (skirmishAIId < MAX_AIS) &&
    IsValidSkirmishAI (h.aiInstanceData.getD skirmishAIId SkirmishAIData.empty)

/-- Modelled from the spec: `GetSkirmishAI(size_t)` (body missing).  "Returns the record or
not found; never throws for out-of-range id"; `none` is the null pointer. -/
def GetSkirmishAI (MAX_AIS : Nat) (h : CSkirmishAIHandler) (skirmishAIId : Nat) :
    Option SkirmishAIData :=
  if IsActiveSkirmishAI MAX_AIS h skirmishAIId then h.aiInstanceData[skirmishAIId]? else none

/-- Modelled from the spec: the loop of `GetSkirmishAIsInTeam` (body missing) over the ids
`ids`, pushing every active id whose team matches and which passes the optional host
filter onto `out`. -/
def GetSkirmishAIsInTeam.loop (MAX_AIS : Nat) (h : CSkirmishAIHandler) (teamId hostPlayerId : Int) :
    List Nat → List Nat → List Nat
  | [], out => out
  | id :: ids, out =>
    match GetSkirmishAI MAX_AIS h id with
    | some aiData =>
      if aiData.team = teamId ∧ (hostPlayerId = -1 ∨ aiData.hostPlayer = hostPlayerId) then
        GetSkirmishAIsInTeam.loop MAX_AIS h teamId hostPlayerId ids (out ++ [id])
      else
        GetSkirmishAIsInTeam.loop MAX_AIS h teamId hostPlayerId ids out
    | none => GetSkirmishAIsInTeam.loop MAX_AIS h teamId hostPlayerId ids out

/-- Modelled from the spec: `GetSkirmishAIsInTeam` (body missing).  "Produces the ordered
sequence of ids whose team matches, optionally filtered by hostParticipant; must reflect
only currently-active instances and recompute every call".  The header gives the host
filter the default `-1`, which stands for "no filter"; a call without the second argument
is a call with `-1`. -/
def GetSkirmishAIsInTeam (MAX_AIS : Nat) (h : CSkirmishAIHandler) (teamId : Int)
    (hostPlayerId : Int) : List Nat :=
  GetSkirmishAIsInTeam.loop MAX_AIS h teamId hostPlayerId (List.range MAX_AIS) []

/-- Header lines 100-102: `HasSkirmishAIsInTeam` compares the result of
`GetSkirmishAIsInTeam` with the empty vector. -/
def HasSkirmishAIsInTeam (MAX_AIS : Nat) (h : CSkirmishAIHandler) (teamId : Int)
    (hostPlayerId : Int) : Bool :=
  decide (GetSkirmishAIsInTeam MAX_AIS h teamId hostPlayerId ≠ [])

/-- Modelled from the spec: `AddSkirmishAI` (body missing).  "Fails if id is already
occupied, if the table is at capacity, or if record is malformed (empty implementation
key); otherwise commits the record, updates all derived indices, and increments the active
count."  The table has the `MAX_AIS` slots `0 .. MAX_AIS-1`, so it is at capacity for an
id that has no slot as well as when `MAX_AIS` instances are counted.  The count is a
`uint8_t`. -/
def AddSkirmishAI (MAX_AIS : Nat) (h : CSkirmishAIHandler) (data : SkirmishAIData)
    (skirmishAIId : Nat) : Bool × CSkirmishAIHandler :=
  if IsActiveSkirmishAI MAX_AIS h skirmishAIId then (false, h)
  else if MAX_AIS ≤ skirmishAIId ∨ MAX_AIS ≤ h.numSkirmishAIs then (false, h)
  else if !IsValidSkirmishAI data then (false, h)
  else
    (true,
      { h with
        aiInstanceData := h.aiInstanceData.set skirmishAIId data
        skirmishAIDataMap :=
          (skirmishAIId, data) :: h.skirmishAIDataMap.filter (fun p => p.1 ≠ skirmishAIId)
        numSkirmishAIs := (h.numSkirmishAIs + 1) % 256 })

/-- Modelled from the spec: `RemoveSkirmishAI` (body missing).  "Fails (no-op, reports
not-found) if id is not active; otherwise evicts the record and updates indices"; the
authoritative removal also "clears the Kill-Flag entry for that id".  The count is a
`uint8_t`. -/
def RemoveSkirmishAI (MAX_AIS : Nat) (h : CSkirmishAIHandler) (skirmishAIId : Nat) :
    Bool × CSkirmishAIHandler :=
  if !IsActiveSkirmishAI MAX_AIS h skirmishAIId then (false, h)
  else
    (true,
      { h with
        aiInstanceData := h.aiInstanceData.set skirmishAIId SkirmishAIData.empty
        aiKillFlags := h.aiKillFlags.set skirmishAIId (-1)
        skirmishAIDataMap := h.skirmishAIDataMap.filter (fun p => p.1 ≠ skirmishAIId)
        numSkirmishAIs := (h.numSkirmishAIs + 255) % 256 })

/-- Modelled from the spec: `IsLocalSkirmishAI(size_t)` (body missing).  A local instance
is an active instance "hosted by this peer"; `myPlayerNum` is `gu->myPlayerNum`. -/
def IsLocalSkirmishAI (MAX_AIS : Nat) (myPlayerNum : Int) (h : CSkirmishAIHandler)
    (skirmishAIId : Nat) : Bool :=
  match GetSkirmishAI MAX_AIS h skirmishAIId with
  | some aiData => decide (aiData.hostPlayer = myPlayerNum)
  | none => false

/-- The removal request that `SetLocalKillFlag` sends to the server. -/
structure RemovalRequest where
  skirmishAIId : Nat
  reason : Int
deriving DecidableEq, Repr

/-- Modelled from the spec: `SetLocalKillFlag` (body missing).  "Valid only if id is a
local instance.  Immediately records reason in the Kill-Flag Table and sends a removal
request to the coordinator."  `none` is a call that violates the precondition ("This may
only be called for local AIs", header line 137). -/
def SetLocalKillFlag (MAX_AIS : Nat) (myPlayerNum : Int) (h : CSkirmishAIHandler)
    (skirmishAIId : Nat) (reason : Int) : Option (CSkirmishAIHandler × RemovalRequest) :=
  if IsLocalSkirmishAI MAX_AIS myPlayerNum h skirmishAIId then
    some ({ h with aiKillFlags := h.aiKillFlags.set skirmishAIId reason },
          { skirmishAIId := skirmishAIId, reason := reason })
  else none

/-- The number of active instances: the ids of `[0, MAX_AIS)` that are active. -/
def numActive (MAX_AIS : Nat) (h : CSkirmishAIHandler) : Nat :=
  ((List.range MAX_AIS).filter (fun id => IsActiveSkirmishAI MAX_AIS h id)).length

/-- The states reachable from `ResetState` by `AddSkirmishAI` and `RemoveSkirmishAI`. -/
inductive Reachable (MAX_AIS : Nat) : CSkirmishAIHandler → Prop
  | reset : Reachable MAX_AIS (ResetState MAX_AIS)
  | add (h : CSkirmishAIHandler) (data : SkirmishAIData) (id : Nat) :
      Reachable MAX_AIS h → Reachable MAX_AIS (AddSkirmishAI MAX_AIS h data id).2
  | remove (h : CSkirmishAIHandler) (id : Nat) :
      Reachable MAX_AIS h → Reachable MAX_AIS (RemoveSkirmishAI MAX_AIS h id).2

/-! ## `UnsyncedGameCommands.cpp`: `_local_strSpaceTokenize` -/

/-- The value of `std::string::npos` for a 64-bit `size_type`. -/
def npos : Nat := 2 ^ 64 - 1

/-- Line 108: `SPACE_DELIMS = " \t"`. -/
def SPACE_DELIMS : List Char := [' ', '\t']

/-- The call `text.find_first_of(delims, pos)`: the first position at or after `pos` that
holds a character of `delims`, `npos` when there is none. -/
def find_first_of (text delims : List Char) (pos : Nat) : Nat :=
  if text.length ≤ pos then npos
  else
    let i := (text.drop pos).findIdx (fun c => delims.contains c)
    if i < text.length - pos then pos + i else npos

/-- The call `text.find_first_not_of(delims, pos)`: the first position at or after `pos`
that holds a character not in `delims`, `npos` when there is none. -/
def find_first_not_of (text delims : List Char) (pos : Nat) : Nat :=
  if text.length ≤ pos then npos
  else
    let i := (text.drop pos).findIdx (fun c => !delims.contains c)
    if i < text.length - pos then pos + i else npos

/-- The call `text.substr(pos, count)`; `none` is the `std::out_of_range` exception thrown
when `pos > text.size()`. -/
def substr (text : List Char) (pos count : Nat) : Option (List Char) :=
  if text.length < pos then none else some ((text.drop pos).take count)

/-- The `while` loop of lines 117-125.  `pos - lastPos` is computed in the unsigned 64-bit
`size_type`.  `none` is returned when the loop body is entered with no fuel left or when
`substr` throws. -/
def _local_strSpaceTokenize.loop (text : List Char) :
    Nat → Nat → Nat → List String → Option (List String)
  | fuel, lastPos, pos, tokens =>
    if npos ≠ pos ∨ npos ≠ lastPos then
      match fuel with
      | 0 => none
      | fuel + 1 =>
        match substr text lastPos ((pos + 2 ^ 64 - lastPos) % 2 ^ 64) with
        | none => none
        | some token =>
          let lastPos1 := find_first_not_of text SPACE_DELIMS pos
          let pos1 := find_first_of text SPACE_DELIMS lastPos1
          _local_strSpaceTokenize.loop text fuel lastPos1 pos1 (tokens ++ [String.mk token])
    else some tokens

/-- Lines 107-128: `_local_strSpaceTokenize(text)`.  The loop gets `text.size() + 1` units
of fuel. -/
def _local_strSpaceTokenize (text : String) : Option (List String) :=
  let lastPos := find_first_not_of text.data SPACE_DELIMS 0
  let pos := find_first_of text.data SPACE_DELIMS lastPos
  _local_strSpaceTokenize.loop text.data (text.data.length + 1) lastPos pos []

/-! ## `atoi` -/

/-- The characters for which `isspace` holds in the "C" locale. -/
def isspace (c : Char) : Bool :=
  c = ' ' || c = '\t' || c = '\n' || c = Char.ofNat 11 || c = Char.ofNat 12 || c = '\r'

/-- The value of the longest prefix of decimal digits, continuing from `acc`. -/
def atoi.digits : List Char → Nat → Nat
  | [], acc => acc
  | c :: cs, acc => if c.isDigit then atoi.digits cs (10 * acc + (c.toNat - 48)) else acc

/-- The C library function `strtol(s, NULL, 10)` for a 64-bit `long`: skip white space, read
an optional sign, read decimal digits; a value below `LONG_MIN` or above `LONG_MAX` is
replaced by that bound. -/
def strtol (s : String) : Int :=
  let value : Int :=
    match s.data.dropWhile isspace with
    | '-' :: cs => - (atoi.digits cs 0 : Int)
    | '+' :: cs => (atoi.digits cs 0 : Int)
    | cs => (atoi.digits cs 0 : Int)
  if value < -9223372036854775808 then -9223372036854775808
  else if 9223372036854775807 < value then 9223372036854775807
  else value

/-- The conversion of a `long` to the 32-bit `int`: the low 32 bits of the value, read in
two's complement (2147483648 is 2^31, 4294967296 is 2^32). -/
def longToInt (value : Int) : Int :=
  (value + 2147483648) % 4294967296 - 2147483648

/-- The C library function `atoi` as the GNU C library defines it:
`(int) strtol(s, NULL, 10)`.  C leaves the result undefined when the value does not fit an
`int`; the executors store what the library returns in an `int`, so that the numeral
"4294967297" is read as 1. -/
def atoi (s : String) : Int :=
  longToInt (strtol s)

/-! ## The collaborators of the command executors -/

/-- The members of `CPlayer` that the executors read. -/
structure CPlayer where
  name : String
  team : Int
deriving DecidableEq, Repr

/-- What the executors read of a `CTeam`: `GetLeader()`, `HasLeader()` and `isDead`. -/
structure CTeam where
  GetLeader : Int
  HasLeader : Bool
  isDead : Bool
deriving DecidableEq, Repr

/-- The pair `SkirmishAIKey(shortName, version)`. -/
structure SkirmishAIKey where
  shortName : String
  version : String
deriving DecidableEq, Repr

/-- What the executors read of a `CSkirmishAILibraryInfo`: `IsLuaAI()`. -/
structure CSkirmishAILibraryInfo where
  IsLuaAI : Bool
deriving DecidableEq, Repr

/-- Everything outside `UnsyncedGameCommands.cpp` that the two AI executors consult
(`gu`, `gs`, `playerHandler`, `teamHandler`, `skirmishAIHandler`, `aiLibManager`).  None of
these is defined in the sources at hand, so each is a parameter.  A pointer result is an
`Option`, `none` being the null pointer (for `GetSkirmishAIInfos`: the end iterator). -/
structure GameEnv where
  /-- gu->myPlayerNum -/
  myPlayerNum : Int
  /-- gs->cheatEnabled -/
  cheatEnabled : Bool
  /-- playerHandler.Player(i) -/
  Player : Int → Option CPlayer
  /-- playerHandler.ActivePlayers() -/
  ActivePlayers : Int
  /-- teamHandler.IsActiveTeam(i) -/
  IsActiveTeam : Int → Bool
  /-- teamHandler.Team(i) -/
  Team : Int → CTeam
  /-- teamHandler.AlliedTeams(a, b) -/
  AlliedTeams : Int → Int → Bool
  /-- skirmishAIHandler.GetSkirmishAIsInTeam(teamId, hostPlayerId) -/
  GetSkirmishAIsInTeam : Int → Int → List Nat
  /-- skirmishAIHandler.GetSkirmishAI(id) -/
  GetSkirmishAI : Nat → Option SkirmishAIData
  /-- skirmishAIHandler.IsLocalSkirmishAI(id) -/
  IsLocalSkirmishAI : Nat → Bool
  /-- skirmishAIHandler.GetLocalSkirmishAIInCreation(teamId) -/
  GetLocalSkirmishAIInCreation : Int → Option SkirmishAIData
  /-- skirmishAIHandler.GetLuaAIImplShortNames() -/
  GetLuaAIImplShortNames : List String
  /-- aiLibManager->ResolveSkirmishAIKey(key) -/
  ResolveSkirmishAIKey : SkirmishAIKey → SkirmishAIKey
  /-- SkirmishAIKey::IsUnspecified() -/
  IsUnspecified : SkirmishAIKey → Bool
  /-- aiLibManager->GetSkirmishAIInfos().find(key) -/
  GetSkirmishAIInfos : SkirmishAIKey → Option CSkirmishAILibraryInfo

/-- The log lines of the two AI executors, named after their text. -/
inductive LogLine
  /-- "Team to %s: not a valid team number" -/
  | teamToKillNotValid
  /-- "Team to receive units: not a valid team number" -/
  | teamToReceiveUnitsNotValid
  /-- "Team to %s: not a Skirmish AI team" -/
  | notASkirmishAITeam
  /-- "Team to %s: not a local Skirmish AI team" -/
  | notALocalSkirmishAITeam
  /-- "Team to %s: it is not yet supported to %s Lua AIs" -/
  | luaAINotSupported
  /-- "Team to %s: player %s is not allowed to %s Skirmish AI controlling team %i" -/
  | killNotAllowed
  /-- "Team to %s: is a dead team already" -/
  | teamToKillIsDead
  /-- "Skirmish AI controlling team %i is beeing %sed ..." -/
  | beeingKilledOrReloaded
  /-- "/%s: missing mandatory argument teamTo%s" -/
  | missingTeamToKill
  /-- "description: Kill a Skirmish AI ..." and "usage: /%s teamToKill [teamToReceiveUnits]" -/
  | usageKill
  /-- "description: Reload a Skirmish AI ..." and "usage: /%s teamToReload" -/
  | usageReload
  /-- "/%s: missing mandatory argument aiShortName" -/
  | missingAIShortName
  /-- "Team to control: not a valid team number" -/
  | teamToControlNotValid
  /-- "Team to control: player %s is not allowed to let a Skirmish AI take over control" -/
  | controlNotAllowed
  /-- "Team to control: is a dead team" -/
  | teamToControlIsDead
  /-- "Team to control: there is already an AI controlling this team" -/
  | alreadyControlled
  /-- "Team to control: there is already an AI beeing created for team" -/
  | alreadyInCreation
  /-- "Team to control: it is currently not supported to initialize Lua AIs mid-game" -/
  | luaAIMidGame
  /-- "Skirmish AI: not a valid Skirmish AI" -/
  | notAValidSkirmishAI
  /-- "/%s: missing mandatory arguments teamToControl and aiShortName" -/
  | missingTeamToControl
  /-- "description: Let a Skirmish AI take over control of a team.", "usage: ...", "example: ..." -/
  | usageControl
deriving DecidableEq, Repr

/-- What an executor does to the outside world, in the order in which it does it. -/
inductive Effect
  /-- `LOG` or `LOG_L(L_WARNING, ...)` -/
  | log (line : LogLine)
  /-- `clientNet->Send(SendGiveAwayEverything(player, giveToTeam, takeFromTeam))` -/
  | SendGiveAwayEverything (player giveToTeam takeFromTeam : Int)
  /-- `clientNet->Send(SendAIStateChanged(player, skirmishAIId, SKIRMAISTATE_RELOADING))` -/
  | SendAIStateChangedReloading (player : Int) (skirmishAIId : Nat)
  /-- `skirmishAIHandler.SetLocalKillFlag(skirmishAIId, reason)` -/
  | SetLocalKillFlag (skirmishAIId : Nat) (reason : Int)
  /-- `skirmishAIHandler.CreateLocalSkirmishAI(aiData)` -/
  | CreateLocalSkirmishAI (aiData : SkirmishAIData)
deriving DecidableEq, Repr

/-- Why a run of an executor leaves defined behaviour. -/
inductive Fault
  /-- a null pointer (or end iterator) is dereferenced -/
  | nullPointer
  /-- `_local_strSpaceTokenize` does not return -/
  | tokenizer
deriving DecidableEq, Repr

/-- A run of `Execute`: the effects of a complete run (the function then returns `true`),
or a fault together with the effects that precede it. -/
abbrev Trace := Except (Fault × List Effect) (List Effect)

/-- The effects of a run, complete or not. -/
def Trace.effects : Trace → List Effect
  | .ok effects => effects
  | .error (_, effects) => effects

/-! ## `AIKillReloadActionExecutor::Execute` (lines 610-716) -/

/-- The local variables of `AIKillReloadActionExecutor::Execute` inside `if (!args.empty())`,
together with the effects so far. -/
structure KillReloadLocals where
  badArgs : Bool
  skirmishAIId : Nat
  share : Bool
  teamToReceiveUnitsId : Int
  teamToKillId : Int
  teamToKill : Option CTeam
  teamToReceiveUnits : Option CTeam
  effects : List Effect
deriving DecidableEq, Repr

/-- Lines 623-656: the arguments are parsed, the two teams are looked up and the Skirmish AI
is chosen (`skirmishAIId = teamAIs[0]`).  `args` is not empty here. -/
def AIKillReloadActionExecutor.selectAI (kill : Bool) (env : GameEnv) (args : List String) :
    KillReloadLocals :=
  let teamToKillId := atoi (args.getD 0 "")
  let share := decide (2 ≤ args.length) && kill
  let teamToReceiveUnitsId := if share then atoi (args.getD 1 "") else -1
  let teamToKill := if env.IsActiveTeam teamToKillId then some (env.Team teamToKillId) else none
  let teamToReceiveUnits :=
    if env.IsActiveTeam teamToReceiveUnitsId then some (env.Team teamToReceiveUnitsId) else none
  -- lines 637-640
  let badArgs1 := teamToKill.isNone
  let effects1 := if teamToKill.isNone then [Effect.log .teamToKillNotValid] else []
  -- lines 641-644
  let badArgs2 := if share && teamToReceiveUnits.isNone then true else badArgs1
  let effects2 :=
    if share && teamToReceiveUnits.isNone then
      effects1 ++ [Effect.log .teamToReceiveUnitsNotValid]
    else effects1
  -- lines 645-656
  if !badArgs2 && (env.GetSkirmishAIsInTeam teamToKillId (-1)).length == 0 then
    { badArgs := true, skirmishAIId := 0, share := share,
      teamToReceiveUnitsId := teamToReceiveUnitsId, teamToKillId := teamToKillId,
      teamToKill := teamToKill, teamToReceiveUnits := teamToReceiveUnits,
      effects := effects2 ++ [Effect.log .notASkirmishAITeam] }
  else
    match env.GetSkirmishAIsInTeam teamToKillId env.myPlayerNum with
    | id :: _ =>
      { badArgs := badArgs2, skirmishAIId := id, share := share,
        teamToReceiveUnitsId := teamToReceiveUnitsId, teamToKillId := teamToKillId,
        teamToKill := teamToKill, teamToReceiveUnits := teamToReceiveUnits,
        effects := effects2 }
    | [] =>
      { badArgs := true, skirmishAIId := 0, share := share,
        teamToReceiveUnitsId := teamToReceiveUnitsId, teamToKillId := teamToKillId,
        teamToKill := teamToKill, teamToReceiveUnits := teamToReceiveUnits,
        effects := effects2 ++ [Effect.log .notALocalSkirmishAITeam] }

/-- Lines 657-660: `if (!badArgs && skirmishAIHandler.GetSkirmishAI(skirmishAIId)->isLuaAI)`. -/
def AIKillReloadActionExecutor.luaCheck (env : GameEnv) (v : KillReloadLocals) :
    Except (Fault × List Effect) KillReloadLocals :=
  if !v.badArgs then
    match env.GetSkirmishAI v.skirmishAIId with
    | none => .error (Fault.nullPointer, v.effects)
    | some aiData =>
      if aiData.isLuaAI then
        .ok { v with badArgs := true, effects := v.effects ++ [Effect.log .luaAINotSupported] }
      else .ok v
  else .ok v

/-- Lines 661-671: the permission check. -/
def AIKillReloadActionExecutor.permissionCheck (env : GameEnv) (fromPlayer : Option CPlayer)
    (fromTeamId : Int) (cheating singlePlayer : Bool) (v : KillReloadLocals) :
    Except (Fault × List Effect) KillReloadLocals :=
  if !v.badArgs then
    let weAreAllied := env.AlliedTeams fromTeamId v.teamToKillId
    match env.GetSkirmishAI v.skirmishAIId with
    | none => .error (Fault.nullPointer, v.effects)
    | some aiData =>
      let weAreAIHost := decide (aiData.hostPlayer = env.myPlayerNum)
      match v.teamToKill with
      | none => .error (Fault.nullPointer, v.effects)
      | some teamToKill =>
        let weAreLeader := decide (teamToKill.GetLeader = env.myPlayerNum)
        if !(weAreAIHost || weAreLeader || singlePlayer || (weAreAllied && cheating)) then
          match fromPlayer with
          | none => .error (Fault.nullPointer, v.effects)
          | some _ =>
            .ok { v with badArgs := true, effects := v.effects ++ [Effect.log .killNotAllowed] }
        else .ok v
  else .ok v

/-- Lines 672-675: `if (!badArgs && teamToKill->isDead)`. -/
def AIKillReloadActionExecutor.deadCheck (v : KillReloadLocals) :
    Except (Fault × List Effect) KillReloadLocals :=
  if !v.badArgs then
    match v.teamToKill with
    | none => .error (Fault.nullPointer, v.effects)
    | some teamToKill =>
      if teamToKill.isDead then
        .ok { v with badArgs := true, effects := v.effects ++ [Effect.log .teamToKillIsDead] }
      else .ok v
  else .ok v

/-- Lines 677-693: the command is carried out. -/
def AIKillReloadActionExecutor.act (kill : Bool) (env : GameEnv) (v : KillReloadLocals) :
    KillReloadLocals :=
  if !v.badArgs then
    let effects1 :=
      if kill then
        if v.share then
          v.effects ++
            [Effect.SendGiveAwayEverything env.myPlayerNum v.teamToReceiveUnitsId v.teamToKillId]
        else if env.IsLocalSkirmishAI v.skirmishAIId then
          v.effects ++ [Effect.SetLocalKillFlag v.skirmishAIId 3]
        else v.effects
      else
        v.effects ++ [Effect.SendAIStateChangedReloading env.myPlayerNum v.skirmishAIId]
    { v with effects := effects1 ++ [Effect.log .beeingKilledOrReloaded] }
  else v

/-- Lines 699-713: the description and usage printed when `badArgs` is set. -/
def AIKillReloadActionExecutor.usage (kill : Bool) (badArgs : Bool) : List Effect :=
  if badArgs then
    if kill then [Effect.log .usageKill] else [Effect.log .usageReload]
  else []

/-- Lines 610-716: `AIKillReloadActionExecutor::Execute`; `kill` is the member set by the
constructor, `actionArgs` is `action.GetArgs()`. -/
def AIKillReloadActionExecutor.Execute (kill : Bool) (env : GameEnv) (actionArgs : String) :
    Trace :=
  let fromPlayer := env.Player env.myPlayerNum
  let fromTeamId : Int := match fromPlayer with
    | some player => player.team
    | none => -1
  let cheating := env.cheatEnabled
  let singlePlayer := decide (env.ActivePlayers ≤ 1)
  match _local_strSpaceTokenize actionArgs with
  | none => .error (Fault.tokenizer, [])
  | some args =>
    if !args.isEmpty then do
      let v1 ← AIKillReloadActionExecutor.luaCheck env
        (AIKillReloadActionExecutor.selectAI kill env args)
      let v2 ← AIKillReloadActionExecutor.permissionCheck env fromPlayer fromTeamId cheating
        singlePlayer v1
      let v3 ← AIKillReloadActionExecutor.deadCheck v2
      let v4 := AIKillReloadActionExecutor.act kill env v3
      pure (v4.effects ++ AIKillReloadActionExecutor.usage kill v4.badArgs)
    else
      .ok ([Effect.log .missingTeamToKill] ++ AIKillReloadActionExecutor.usage kill true)

/-! ## `AIControlActionExecutor::Execute` (lines 732-838) -/

/-- The local variables of `AIControlActionExecutor::Execute` inside `if (!args.empty())`,
together with the effects so far. -/
structure ControlLocals where
  badArgs : Bool
  aiShortName : String
  aiVersion : String
  aiName : String
  aiOptions : List (String × String)
  teamToControlId : Int
  teamToControl : Option CTeam
  effects : List Effect
deriving DecidableEq, Repr

/-- Lines 744-768: the arguments are read and the team is looked up.  `aiOptions` is
declared and never filled.  `args` is not empty here. -/
def AIControlActionExecutor.readArgs (env : GameEnv) (args : List String) : ControlLocals :=
  let teamToControlId := atoi (args.getD 0 "")
  let teamToControl :=
    if env.IsActiveTeam teamToControlId then some (env.Team teamToControlId) else none
  let aiShortName := if 2 ≤ args.length then args.getD 1 "" else ""
  let effects0 := if 2 ≤ args.length then [] else [Effect.log .missingAIShortName]
  let aiVersion := if 3 ≤ args.length then args.getD 2 "" else ""
  let aiName := if 4 ≤ args.length then args.getD 3 "" else ""
  -- lines 765-768
  if teamToControl.isNone then
    { badArgs := true, aiShortName := aiShortName, aiVersion := aiVersion, aiName := aiName,
      aiOptions := [], teamToControlId := teamToControlId, teamToControl := teamToControl,
      effects := effects0 ++ [Effect.log .teamToControlNotValid] }
  else
    { badArgs := false, aiShortName := aiShortName, aiVersion := aiVersion, aiName := aiName,
      aiOptions := [], teamToControlId := teamToControlId, teamToControl := teamToControl,
      effects := effects0 }

/-- Lines 769-779: the permission check. -/
def AIControlActionExecutor.permissionCheck (env : GameEnv) (fromPlayer : Option CPlayer)
    (fromTeamId : Int) (cheating singlePlayer : Bool) (v : ControlLocals) :
    Except (Fault × List Effect) ControlLocals :=
  if !v.badArgs then
    let weAreAllied := env.AlliedTeams fromTeamId v.teamToControlId
    match v.teamToControl with
    | none => .error (Fault.nullPointer, v.effects)
    | some teamToControl =>
      let weAreLeader := decide (teamToControl.GetLeader = env.myPlayerNum)
      let noLeader := !teamToControl.HasLeader
      if !(weAreLeader || singlePlayer || (weAreAllied && (cheating || noLeader))) then
        match fromPlayer with
        | none => .error (Fault.nullPointer, v.effects)
        | some _ =>
          .ok { v with badArgs := true, effects := v.effects ++ [Effect.log .controlNotAllowed] }
      else .ok v
  else .ok v

/-- Lines 780-783: `if (!badArgs && teamToControl->isDead)`. -/
def AIControlActionExecutor.deadCheck (v : ControlLocals) :
    Except (Fault × List Effect) ControlLocals :=
  if !v.badArgs then
    match v.teamToControl with
    | none => .error (Fault.nullPointer, v.effects)
    | some teamToControl =>
      if teamToControl.isDead then
        .ok { v with badArgs := true, effects := v.effects ++ [Effect.log .teamToControlIsDead] }
      else .ok v
  else .ok v

/-- Lines 785-788: the team must not have an active Skirmish AI. -/
def AIControlActionExecutor.controlledCheck (env : GameEnv) (v : ControlLocals) : ControlLocals :=
  if !v.badArgs && !(env.GetSkirmishAIsInTeam v.teamToControlId (-1)).isEmpty then
    { v with badArgs := true, effects := v.effects ++ [Effect.log .alreadyControlled] }
  else v

/-- Lines 789-792: the team must not have a Skirmish AI in creation. -/
def AIControlActionExecutor.inCreationCheck (env : GameEnv) (v : ControlLocals) : ControlLocals :=
  if !v.badArgs && (env.GetLocalSkirmishAIInCreation v.teamToControlId).isSome then
    { v with badArgs := true, effects := v.effects ++ [Effect.log .alreadyInCreation] }
  else v

/-- Lines 793-799: Lua AIs cannot be initialised mid-game. -/
def AIControlActionExecutor.luaCheck (env : GameEnv) (v : ControlLocals) : ControlLocals :=
  if !v.badArgs then
    if env.GetLuaAIImplShortNames.contains v.aiShortName then
      { v with badArgs := true, effects := v.effects ++ [Effect.log .luaAIMidGame] }
    else v
  else v

/-- Lines 810-821: the record handed to `CreateLocalSkirmishAI`. -/
def AIControlActionExecutor.makeAIData (env : GameEnv) (v : ControlLocals)
    (aiLibInfo : CSkirmishAILibraryInfo) : SkirmishAIData :=
  { name := if v.aiName ≠ "" then v.aiName else v.aiShortName
    team := v.teamToControlId
    hostPlayer := env.myPlayerNum
    shortName := v.aiShortName
    version := v.aiVersion
    optionKeys := v.aiOptions.map (fun opt => opt.1)
    options := v.aiOptions
    isLuaAI := aiLibInfo.IsLuaAI }

/-- Lines 801-825: the key is resolved and the creation is started. -/
def AIControlActionExecutor.create (env : GameEnv) (v : ControlLocals) :
    Except (Fault × List Effect) ControlLocals :=
  if !v.badArgs then
    let aiKey := env.ResolveSkirmishAIKey { shortName := v.aiShortName, version := v.aiVersion }
    if env.IsUnspecified aiKey then
      .ok { v with badArgs := true, effects := v.effects ++ [Effect.log .notAValidSkirmishAI] }
    else
      match env.GetSkirmishAIInfos aiKey with
      | none => .error (Fault.nullPointer, v.effects)
      | some aiLibInfo =>
        .ok { v with
          badArgs := false
          effects := v.effects ++
            [Effect.CreateLocalSkirmishAI (AIControlActionExecutor.makeAIData env v aiLibInfo)] }
  else .ok v

/-- Lines 831-835: the description, usage and example printed when `badArgs` is set. -/
def AIControlActionExecutor.usage (badArgs : Bool) : List Effect :=
  if badArgs then [Effect.log .usageControl] else []

/-- Lines 732-838: `AIControlActionExecutor::Execute`; `actionArgs` is `action.GetArgs()`. -/
def AIControlActionExecutor.Execute (env : GameEnv) (actionArgs : String) : Trace :=
  let fromPlayer := env.Player env.myPlayerNum
  let fromTeamId : Int := match fromPlayer with
    | some player => player.team
    | none => -1
  let cheating := env.cheatEnabled
  let singlePlayer := decide (env.ActivePlayers ≤ 1)
  match _local_strSpaceTokenize actionArgs with
  | none => .error (Fault.tokenizer, [])
  | some args =>
    if !args.isEmpty then do
      let v1 ← AIControlActionExecutor.permissionCheck env fromPlayer fromTeamId cheating
        singlePlayer (AIControlActionExecutor.readArgs env args)
      let v2 ← AIControlActionExecutor.deadCheck v1
      let v3 := AIControlActionExecutor.controlledCheck env v2
      let v4 := AIControlActionExecutor.inCreationCheck env v3
      let v5 := AIControlActionExecutor.luaCheck env v4
      let v6 ← AIControlActionExecutor.create env v5
      pure (v6.effects ++ AIControlActionExecutor.usage v6.badArgs)
    else
      .ok ([Effect.log .missingTeamToControl] ++ AIControlActionExecutor.usage true)

/-! ## `AIListActionExecutor::Execute` (lines 848-884) -/

/-- Lines 865-872: whether the Skirmish AI is hosted locally, and the last column of its row.
`none` is the dereference of a null `playerHandler.Player(gu->myPlayerNum)`. -/
def AIListActionExecutor.lastPart (env : GameEnv) (p : Nat × SkirmishAIData) : Option String :=
  let isLocal := decide (p.2.hostPlayer = env.myPlayerNum)
  if isLocal then some ("(Key:)  " ++ p.2.shortName ++ " " ++ p.2.version)
  else
    match env.Player env.myPlayerNum with
    | some player => some ("(Host:) " ++ player.name)
    | none => none

/-- Lines 874-880: the row `"%i | %i | %s | %s | %s | %s"` of one Skirmish AI. -/
def AIListActionExecutor.row (env : GameEnv) (p : Nat × SkirmishAIData) : Option String :=
  let isLocal := decide (p.2.hostPlayer = env.myPlayerNum)
  match AIListActionExecutor.lastPart env p with
  | none => none
  | some lastPart =>
    some (toString p.1 ++ " | " ++ toString p.2.team ++ " | " ++
      (if isLocal then "yes" else "no ") ++ " | " ++ (if p.2.isLuaAI then "yes" else "no ") ++
      " | " ++ p.2.name ++ " | " ++ lastPart)

/-- The loop of lines 864-881 over the remaining entries of the map: the rows logged so far
are `out`. -/
def AIListActionExecutor.rows (env : GameEnv) :
    List (Nat × SkirmishAIData) → List String → Except (Fault × List String) (List String)
  | [], out => .ok out
  | p :: ps, out =>
    match AIListActionExecutor.row env p with
    | none => .error (Fault.nullPointer, out)
    | some line => AIListActionExecutor.rows env ps (out ++ [line])

/-- Lines 848-884: `AIListActionExecutor::Execute`.  `ais` is the content of
`skirmishAIHandler.GetAllSkirmishAIs()` in iteration order.  The result is the returned
value and the logged lines, or a fault with the lines logged before it. -/
def AIListActionExecutor.Execute (env : GameEnv) (ais : List (Nat × SkirmishAIData)) :
    Except (Fault × List String) (Bool × List String) :=
  if ais.isEmpty then .ok (false, ["<There are no active Skirmish AIs in this game>"])
  else
    match AIListActionExecutor.rows env ais
      ["ID | Team | Local | Lua | Name | (Hosting player name) or (Short name & Version)"] with
    | .error fault => .error fault
    | .ok lines => .ok (true, lines)

/-! ## `SaveActionExecutor::Execute` (lines 2913-2929) -/

/-- A call `game->SaveGame(path, overwrite, usecreg)`. -/
structure SaveGameCall where
  path : String
  overwrite : Bool
  usecreg : Bool
deriving DecidableEq, Repr

/-- Lines 2913-2929: `SaveActionExecutor::Execute`; `usecreg` is the member set by the
constructor (true for "Save", false for "LuaSave").  The result is the returned value and the
calls of `SaveGame`; `none` stands for a tokenizer that does not return. -/
def SaveActionExecutor.Execute (usecreg : Bool) (actionArgs : String) :
    Option (Bool × List SaveGameCall) :=
  match _local_strSpaceTokenize actionArgs with
  | none => none
  | some args =>
    match args with
    | [arg0] =>
      some (true,
        [{ path := "Saves/" ++ arg0 ++ (if usecreg then ".ssf" else ".slsf"),
           overwrite := false, usecreg := usecreg }])
    | [arg0, arg1] =>
      some (true,
        [{ path := "Saves/" ++ arg0 ++ (if usecreg then ".ssf" else ".slsf"),
           overwrite := decide (arg1 = "-y"), usecreg := usecreg }])
    | _ => some (false, [])

/-! ## Example records and states -/

/-- A well-formed record for the native AI "RAI" 0.601 on team `team`, hosted by player
`host`. -/
def exampleAI (team host : Int) : SkirmishAIData :=
  { name := "RAI", team := team, hostPlayer := host, shortName := "RAI", version := "0.601",
    optionKeys := [], options := [], isLuaAI := false }

/-- A table of capacity 2 with both ids occupied. -/
def fullTable2 : CSkirmishAIHandler :=
  (AddSkirmishAI 2 (AddSkirmishAI 2 (ResetState 2) (exampleAI 0 0) 0).2 (exampleAI 1 0) 1).2

/-- A game with one player (number 0, on team 0) and the two active teams 0 and 1; the
Skirmish AI handler is `h`, of capacity 2, and `pending` tells which teams have a local
creation pending; every key with a non-empty short name resolves to a native library. -/
def exampleEnv (h : CSkirmishAIHandler) (pending : Int → Option SkirmishAIData) : GameEnv :=
  { myPlayerNum := 0
    cheatEnabled := false
    Player := fun i => if i = 0 then some { name := "Player", team := 0 } else none
    ActivePlayers := 1
    IsActiveTeam := fun t => decide (0 ≤ t ∧ t < 2)
    Team := fun _ => { GetLeader := 0, HasLeader := true, isDead := false }
    AlliedTeams := fun a b => decide (a = b)
    GetSkirmishAIsInTeam := fun t p => GetSkirmishAIsInTeam 2 h t p
    GetSkirmishAI := fun id => GetSkirmishAI 2 h id
    IsLocalSkirmishAI := fun id => IsLocalSkirmishAI 2 0 h id
    GetLocalSkirmishAIInCreation := pending
    GetLuaAIImplShortNames := h.luaAIShortNames
    ResolveSkirmishAIKey := fun key => key
    IsUnspecified := fun key => decide (key.shortName = "")
    GetSkirmishAIInfos := fun _ => some { IsLuaAI := false } }

/-- The record that `/AIControl 1 RAI 0.601` hands to `CreateLocalSkirmishAI`. -/
def exampleCreated : SkirmishAIData :=
  { name := "RAI", team := 1, hostPlayer := 0, shortName := "RAI", version := "0.601",
    optionKeys := [], options := [], isLuaAI := false }

/-- The record of the Lua AI "LuaBot" on team 1, hosted by player 0. -/
def exampleLuaAI : SkirmishAIData :=
  { name := "LuaBot", team := 1, hostPlayer := 0, shortName := "LuaBot", version := "",
    optionKeys := [], options := [], isLuaAI := true }

/-- A table of capacity 2 whose id 0 is the Lua AI "LuaBot". -/
def luaTable2 : CSkirmishAIHandler :=
  (AddSkirmishAI 2 (ResetState 2) exampleLuaAI 0).2

/-- The reset handler of capacity 2 after `LoadPreGame` found the Lua AI "LuaBot". -/
def luaRegistry2 : CSkirmishAIHandler :=
  { ResetState 2 with luaAIShortNames := ["LuaBot"] }

/-- The game of `exampleEnv` with a library manager that resolves a key with an empty short
name to the default library "NullAI" 0.1; the resolved key is then specified. -/
def defaultingEnv (h : CSkirmishAIHandler) : GameEnv :=
  { exampleEnv h (fun _ => none) with
    ResolveSkirmishAIKey := fun key =>
      if key.shortName = "" then { shortName := "NullAI", version := "0.1" } else key }

/-- The record that `/AIControl 1` hands to `CreateLocalSkirmishAI` in `defaultingEnv`. -/
def exampleCreatedUnnamed : SkirmishAIData :=
  { name := "", team := 1, hostPlayer := 0, shortName := "", version := "",
    optionKeys := [], options := [], isLuaAI := false }

/-- The record that `/AIControl 1 RAI 0.601 my_RAI_Friend difficulty=2 aggressiveness=3`
hands to `CreateLocalSkirmishAI`. -/
def exampleCreatedFriend : SkirmishAIData :=
  { name := "my_RAI_Friend", team := 1, hostPlayer := 0, shortName := "RAI", version := "0.601",
    optionKeys := [], options := [], isLuaAI := false }

/-- The full table of capacity 2 with the kill flag of id 1 set to -2. -/
def negativeFlagTable2 : CSkirmishAIHandler :=
  { fullTable2 with aiKillFlags := [-1, -2] }

/-- A game of two players, "Alice" (number 0, the local player, on team 0) and "Bob"
(number 1, on team 1); the rest is as in `exampleEnv`. -/
def twoPlayerEnv (h : CSkirmishAIHandler) : GameEnv :=
  { exampleEnv h (fun _ => none) with
    Player := fun i =>
      if i = 0 then some { name := "Alice", team := 0 }
      else if i = 1 then some { name := "Bob", team := 1 }
      else none
    ActivePlayers := 2 }

/-- A game in which the lookup of the local player gives the null pointer and in which
another player, number 1, leads every team; two players are active; the rest is as in
`exampleEnv`. -/
def noPlayerEnv (h : CSkirmishAIHandler) : GameEnv :=
  { exampleEnv h (fun _ => none) with
    Player := fun _ => none
    ActivePlayers := 2
    Team := fun _ => { GetLeader := 1, HasLeader := true, isDead := false } }

/-- The record of the Lua AI "LuaBot" on team 0, hosted by player 0. -/
def exampleLuaAI0 : SkirmishAIData :=
  { exampleLuaAI with team := 0 }

/-- A table of capacity 2 whose id 0 is the Lua AI "LuaBot" on team 0 and whose id 1 is the
native AI "RAI" on team 1, both hosted by player 0. -/
def mixedTable2 : CSkirmishAIHandler :=
  (AddSkirmishAI 2 (AddSkirmishAI 2 (ResetState 2) exampleLuaAI0 0).2 (exampleAI 1 0) 1).2

/-- The predicate that the loop of `GetSkirmishAIsInTeam` tests on an id. -/
def inTeamPred (MAX_AIS : Nat) (h : CSkirmishAIHandler) (teamId hostPlayerId : Int)
    (id : Nat) : Bool :=
  match GetSkirmishAI MAX_AIS h id with
  | some aiData =>
    decide (aiData.team = teamId ∧ (hostPlayerId = -1 ∨ aiData.hostPlayer = hostPlayerId))
  | none => false

/-- The invariant of the instance table: the arrays have `MAX_AIS` elements and the counter
equals the number of slots holding a valid record. -/
def TableInv (MAX_AIS : Nat) (h : CSkirmishAIHandler) : Prop :=
  h.WellFormed MAX_AIS ∧ h.numSkirmishAIs = h.aiInstanceData.countP IsValidSkirmishAI

/-- One validation step of `AIControlActionExecutor::Execute`: the team stays, `badArgs` is
never cleared, a step that leaves `badArgs` clear adds no effect, and every added effect is
a log line. -/
def ControlStep (v w : ControlLocals) : Prop :=
  w.teamToControlId = v.teamToControlId ∧
    (w.badArgs = false → v.badArgs = false ∧ w.effects = v.effects) ∧
    (∀ e ∈ w.effects, e ∈ v.effects ∨ ∃ line, e = Effect.log line)

/-- Every effect of the list is a log line. -/
def OnlyLogs (effects : List Effect) : Prop :=
  ∀ e ∈ effects, ∃ line, e = Effect.log line

/-- Whether an effect is a log line. -/
def Effect.isLog : Effect → Bool
  | .log _ => true
  | _ => false

/-- The invariant of the loop of `_local_strSpaceTokenize`: either both positions are `npos`,
or `lastPos` is a position of the text and `pos` is `npos` or a later position. -/
def TokenizeInv (text : List Char) (lastPos pos : Nat) : Prop :=
  (lastPos = npos ∧ pos = npos) ∨
    (lastPos < text.length ∧ (pos = npos ∨ (lastPos < pos ∧ pos < text.length)))

/-- The team of the local player as the executors compute it (lines 613-614 and 735-736):
`(fromPlayer != nullptr) ? fromPlayer->team : -1`. -/
def GameEnv.fromTeamId (env : GameEnv) : Int :=
  match env.Player env.myPlayerNum with
  | some player => player.team
  | none => -1

/-- One check of `AIKillReloadActionExecutor::Execute` (lines 657-675): it leaves the locals
as they are, or it sets `badArgs` and logs one line. -/
def KillReloadStep (v w : KillReloadLocals) : Prop :=
  w = v ∨ ∃ line, w = { v with badArgs := true, effects := v.effects ++ [Effect.log line] }

/-- All checks of lines 623-675 pass for the arguments `args`: the block of lines 677-693 is
reached with `badArgs` clear. -/
def AIKillReloadActionExecutor.Validated (kill : Bool) (env : GameEnv) (args : List String) :
    Prop :=
  args ≠ [] ∧ (AIKillReloadActionExecutor.selectAI kill env args).badArgs = false ∧
    ∃ aiData teamToKill,
      env.GetSkirmishAI (AIKillReloadActionExecutor.selectAI kill env args).skirmishAIId
        = some aiData ∧
      aiData.isLuaAI = false ∧
      (AIKillReloadActionExecutor.selectAI kill env args).teamToKill = some teamToKill ∧
      (decide (aiData.hostPlayer = env.myPlayerNum) ||
        decide (teamToKill.GetLeader = env.myPlayerNum) || decide (env.ActivePlayers ≤ 1) ||
        (env.AlliedTeams env.fromTeamId
          (AIKillReloadActionExecutor.selectAI kill env args).teamToKillId &&
          env.cheatEnabled)) = true ∧
      teamToKill.isDead = false

/-- One check of `AIControlActionExecutor::Execute` (lines 769-799): it leaves the locals as
they are, or it sets `badArgs` and logs one line. -/
def ControlCheck (v w : ControlLocals) : Prop :=
  w = v ∨ ∃ line, w = { v with badArgs := true, effects := v.effects ++ [Effect.log line] }

/-- All checks of lines 765-808 pass for the arguments `args`, and `aiLibInfo` is the library
info found for the resolved key: line 823 is reached. -/
def AIControlActionExecutor.Accepted (env : GameEnv) (args : List String)
    (aiLibInfo : CSkirmishAILibraryInfo) : Prop :=
  args ≠ [] ∧ (AIControlActionExecutor.readArgs env args).badArgs = false ∧
    ∃ teamToControl,
      (AIControlActionExecutor.readArgs env args).teamToControl = some teamToControl ∧
      (decide (teamToControl.GetLeader = env.myPlayerNum) || decide (env.ActivePlayers ≤ 1) ||
        (env.AlliedTeams env.fromTeamId (AIControlActionExecutor.readArgs env args).teamToControlId
          && (env.cheatEnabled || !teamToControl.HasLeader))) = true ∧
      teamToControl.isDead = false ∧
      env.GetSkirmishAIsInTeam (AIControlActionExecutor.readArgs env args).teamToControlId (-1)
        = [] ∧
      env.GetLocalSkirmishAIInCreation (AIControlActionExecutor.readArgs env args).teamToControlId
        = none ∧
      env.GetLuaAIImplShortNames.contains (AIControlActionExecutor.readArgs env args).aiShortName
        = false ∧
      env.IsUnspecified (env.ResolveSkirmishAIKey
        { shortName := (AIControlActionExecutor.readArgs env args).aiShortName
          version := (AIControlActionExecutor.readArgs env args).aiVersion }) = false ∧
      env.GetSkirmishAIInfos (env.ResolveSkirmishAIKey
        { shortName := (AIControlActionExecutor.readArgs env args).aiShortName
          version := (AIControlActionExecutor.readArgs env args).aiVersion }) = some aiLibInfo

/-- The lookups of the handler are consistent: what `GetSkirmishAIsInTeam(team, myPlayerNum)`
lists, `GetSkirmishAI` finds, and it is hosted by the local player. -/
def SoundLookup (env : GameEnv) : Prop :=
  ∀ team id, id ∈ env.GetSkirmishAIsInTeam team env.myPlayerNum →
    ∃ aiData, env.GetSkirmishAI id = some aiData ∧ aiData.hostPlayer = env.myPlayerNum

/-! ## The specification of `_local_strSpaceTokenize` and the record of its loop -/

/-- Whether a character is a space or a tab. -/
def isSpaceOrTab (c : Char) : Bool := c == ' ' || c == '\t'

/-- The tokens as the specification words them: the text split at every space and tab, the
empty pieces dropped. -/
def spaceTokensSpec (text : List Char) : List (List Char) :=
  (text.splitOnP isSpaceOrTab).filter (fun piece => !piece.isEmpty)

/-- One execution of the body of the loop of `_local_strSpaceTokenize` (lines 119-124): the
values of `lastPos` and `pos` on entry, the token pushed at line 119, and the values that
lines 122 and 124 assign. -/
structure TokenizeIteration where
  lastPos : Nat
  pos : Nat
  token : List Char
  newLastPos : Nat
  newPos : Nat
deriving DecidableEq, Repr

/-- The loop of lines 117-125 as `_local_strSpaceTokenize.loop` runs it, keeping next to the
tokens a record of every execution of the body. -/
def _local_strSpaceTokenize.loggedLoop (text : List Char) :
    Nat → Nat → Nat → List String → List TokenizeIteration →
      Option (List String × List TokenizeIteration)
  | fuel, lastPos, pos, tokens, log =>
    if npos ≠ pos ∨ npos ≠ lastPos then
      match fuel with
      | 0 => none
      | fuel + 1 =>
        match substr text lastPos ((pos + 2 ^ 64 - lastPos) % 2 ^ 64) with
        | none => none
        | some token =>
          let lastPos1 := find_first_not_of text SPACE_DELIMS pos
          let pos1 := find_first_of text SPACE_DELIMS lastPos1
          _local_strSpaceTokenize.loggedLoop text fuel lastPos1 pos1
            (tokens ++ [String.mk token]) (log ++ [⟨lastPos, pos, token, lastPos1, pos1⟩])
    else some (tokens, log)

/-- The function `_local_strSpaceTokenize` with the record of the executions of its loop
body. -/
def _local_strSpaceTokenize.logged (text : String) :
    Option (List String × List TokenizeIteration) :=
  let lastPos := find_first_not_of text.data SPACE_DELIMS 0
  let pos := find_first_of text.data SPACE_DELIMS lastPos
  _local_strSpaceTokenize.loggedLoop text.data (text.data.length + 1) lastPos pos [] []

/-- What an execution of the loop body achieves: both positions become `npos`, or `lastPos`
moves beyond the end of the token pushed. -/
def TokenizeProgress (it : TokenizeIteration) : Prop :=
  (it.newLastPos = npos ∧ it.newPos = npos) ∨
    (it.lastPos < it.newLastPos ∧ it.lastPos + it.token.length < it.newLastPos)

/-! ## Helper lemmas on the instance table -/

theorem isActive_iff (MAX_AIS : Nat) (h : CSkirmishAIHandler) (id : Nat) :
    IsActiveSkirmishAI MAX_AIS h id = true ↔
      id < MAX_AIS ∧ (h.aiInstanceData.getD id SkirmishAIData.empty).shortName ≠ "" := by
  simp [IsActiveSkirmishAI, IsValidSkirmishAI]

theorem isActive_lt {MAX_AIS : Nat} {h : CSkirmishAIHandler} {id : Nat}
    (hact : IsActiveSkirmishAI MAX_AIS h id = true) : id < MAX_AIS :=
  ((isActive_iff MAX_AIS h id).1 hact).1

theorem getD_set_self {α : Type} (l : List α) (i : Nat) (a d : α) (hi : i < l.length) :
    (l.set i a).getD i d = a := by
  simp [List.getD, List.getElem?_set, hi]

theorem getD_set_other {α : Type} (l : List α) (i j : Nat) (a d : α) (hij : i ≠ j) :
    (l.set i a).getD j d = l.getD j d := by
  simp [List.getD, List.getElem?_set, hij]

theorem getD_set_default {α : Type} (l : List α) (i : Nat) (d : α) :
    (l.set i d).getD i d = d := by
  by_cases hi : i < l.length
  · exact getD_set_self l i d d hi
  · simp [List.getD, List.getElem?_set, hi]

theorem isActive_congr (MAX_AIS : Nat) (h h1 : CSkirmishAIHandler)
    (htab : h1.aiInstanceData = h.aiInstanceData) (id : Nat) :
    IsActiveSkirmishAI MAX_AIS h1 id = IsActiveSkirmishAI MAX_AIS h id := by
  simp [IsActiveSkirmishAI, htab]

theorem getSkirmishAI_congr (MAX_AIS : Nat) (h h1 : CSkirmishAIHandler)
    (htab : h1.aiInstanceData = h.aiInstanceData) (id : Nat) :
    GetSkirmishAI MAX_AIS h1 id = GetSkirmishAI MAX_AIS h id := by
  simp [GetSkirmishAI, isActive_congr MAX_AIS h h1 htab, htab]

theorem getSkirmishAIsInTeam_loop_congr (MAX_AIS : Nat) (h h1 : CSkirmishAIHandler)
    (htab : h1.aiInstanceData = h.aiInstanceData) (teamId hostPlayerId : Int) :
    ∀ (ids out : List Nat),
      GetSkirmishAIsInTeam.loop MAX_AIS h1 teamId hostPlayerId ids out =
        GetSkirmishAIsInTeam.loop MAX_AIS h teamId hostPlayerId ids out
  | [], out => rfl
  | id :: ids, out => by
    simp only [GetSkirmishAIsInTeam.loop, getSkirmishAI_congr MAX_AIS h h1 htab id]
    cases GetSkirmishAI MAX_AIS h id with
    | none => exact getSkirmishAIsInTeam_loop_congr MAX_AIS h h1 htab teamId hostPlayerId ids out
    | some aiData =>
      simp only [getSkirmishAIsInTeam_loop_congr MAX_AIS h h1 htab teamId hostPlayerId ids]

/-- The record of an active id is the content of its slot. -/
theorem getSkirmishAI_eq_some_iff (MAX_AIS : Nat) (h : CSkirmishAIHandler) (id : Nat)
    (aiData : SkirmishAIData) :
    GetSkirmishAI MAX_AIS h id = some aiData ↔
      IsActiveSkirmishAI MAX_AIS h id = true ∧ h.aiInstanceData[id]? = some aiData := by
  unfold GetSkirmishAI
  by_cases hact : IsActiveSkirmishAI MAX_AIS h id = true <;> simp [hact]

theorem getSkirmishAIsInTeam_loop_eq (MAX_AIS : Nat) (h : CSkirmishAIHandler)
    (teamId hostPlayerId : Int) :
    ∀ (ids out : List Nat),
      GetSkirmishAIsInTeam.loop MAX_AIS h teamId hostPlayerId ids out =
        out ++ ids.filter (inTeamPred MAX_AIS h teamId hostPlayerId)
  | [], out => by simp [GetSkirmishAIsInTeam.loop]
  | id :: ids, out => by
    have ih := getSkirmishAIsInTeam_loop_eq MAX_AIS h teamId hostPlayerId ids
    rcases hget : GetSkirmishAI MAX_AIS h id with _ | aiData
    · have hp : inTeamPred MAX_AIS h teamId hostPlayerId id = false := by
        simp [inTeamPred, hget]
      simp only [GetSkirmishAIsInTeam.loop, hget, List.filter_cons, hp, Bool.false_eq_true,
        if_false]
      exact ih out
    · by_cases hc : aiData.team = teamId ∧ (hostPlayerId = -1 ∨ aiData.hostPlayer = hostPlayerId)
      · have hp : inTeamPred MAX_AIS h teamId hostPlayerId id = true := by
          simp only [inTeamPred, hget]
          exact decide_eq_true hc
        simp only [GetSkirmishAIsInTeam.loop, hget, List.filter_cons, hp, if_true, if_pos hc]
        rw [ih (out ++ [id])]
        simp
      · have hp : inTeamPred MAX_AIS h teamId hostPlayerId id = false := by
          simp only [inTeamPred, hget]
          exact decide_eq_false hc
        simp only [GetSkirmishAIsInTeam.loop, hget, List.filter_cons, hp, Bool.false_eq_true,
          if_false, if_neg hc]
        exact ih out

theorem getSkirmishAIsInTeam_eq_filter (MAX_AIS : Nat) (h : CSkirmishAIHandler)
    (teamId hostPlayerId : Int) :
    GetSkirmishAIsInTeam MAX_AIS h teamId hostPlayerId =
      (List.range MAX_AIS).filter (inTeamPred MAX_AIS h teamId hostPlayerId) := by
  simp [GetSkirmishAIsInTeam, getSkirmishAIsInTeam_loop_eq]

/-- After `RemoveSkirmishAI(id)`, successful or not, id is not active. -/
theorem isActive_remove_self (MAX_AIS : Nat) (h : CSkirmishAIHandler) (id : Nat) :
    IsActiveSkirmishAI MAX_AIS (RemoveSkirmishAI MAX_AIS h id).2 id = false := by
  by_cases hact : IsActiveSkirmishAI MAX_AIS h id = true
  · have hrem : (RemoveSkirmishAI MAX_AIS h id).2.aiInstanceData =
        h.aiInstanceData.set id SkirmishAIData.empty := by
      simp [RemoveSkirmishAI, hact]
    unfold IsActiveSkirmishAI
    rw [hrem, getD_set_default]
    simp [IsValidSkirmishAI, SkirmishAIData.empty]
  · have hact' : IsActiveSkirmishAI MAX_AIS h id = false := by simpa using hact
    have hrem : RemoveSkirmishAI MAX_AIS h id = (false, h) := by
      simp [RemoveSkirmishAI, hact']
    rw [hrem]
    exact hact'

/-- A successful `AddSkirmishAI` stores the record in the slot of the id. -/
theorem getSkirmishAI_add_self (MAX_AIS : Nat) (h : CSkirmishAIHandler)
    (hwf : h.WellFormed MAX_AIS) (data : SkirmishAIData) (id : Nat)
    (hok : (AddSkirmishAI MAX_AIS h data id).1 = true) :
    GetSkirmishAI MAX_AIS (AddSkirmishAI MAX_AIS h data id).2 id = some data := by
  unfold AddSkirmishAI at hok ⊢
  by_cases hact : IsActiveSkirmishAI MAX_AIS h id = true
  · simp [hact] at hok
  · by_cases hcap : MAX_AIS ≤ id ∨ MAX_AIS ≤ h.numSkirmishAIs
    · simp [hact, hcap] at hok
    · by_cases hvalid : IsValidSkirmishAI data = true
      · have hid : id < MAX_AIS := by omega
        have hlen : id < h.aiInstanceData.length := by rw [hwf.1]; exact hid
        simp only [hact, hcap, hvalid, Bool.not_true, if_false, Bool.false_eq_true]
        rw [getSkirmishAI_eq_some_iff]
        constructor
        · rw [isActive_iff]
          refine ⟨hid, ?_⟩
          show ((h.aiInstanceData.set id data).getD id SkirmishAIData.empty).shortName ≠ ""
          rw [getD_set_self _ _ _ _ hlen]
          simpa [IsValidSkirmishAI] using hvalid
        · simp [List.getElem?_set, hlen]
      · simp [hact, hcap, hvalid] at hok

theorem isLocal_unfold (MAX_AIS : Nat) (myPlayerNum : Int) (h : CSkirmishAIHandler) (id : Nat)
    (hlocal : IsLocalSkirmishAI MAX_AIS myPlayerNum h id = true) :
    IsActiveSkirmishAI MAX_AIS h id = true ∧
      ∃ aiData, GetSkirmishAI MAX_AIS h id = some aiData ∧ aiData.hostPlayer = myPlayerNum := by
  unfold IsLocalSkirmishAI at hlocal
  rcases hget : GetSkirmishAI MAX_AIS h id with _ | aiData
  · simp [hget] at hlocal
  · rw [hget] at hlocal
    exact ⟨((getSkirmishAI_eq_some_iff MAX_AIS h id aiData).1 hget).1, aiData, rfl,
      by simpa using hlocal⟩

theorem inTeamPred_iff (MAX_AIS : Nat) (h : CSkirmishAIHandler) (teamId hostPlayerId : Int)
    (id : Nat) :
    inTeamPred MAX_AIS h teamId hostPlayerId id = true ↔
      ∃ aiData, GetSkirmishAI MAX_AIS h id = some aiData ∧ aiData.team = teamId ∧
        (hostPlayerId ≠ -1 → aiData.hostPlayer = hostPlayerId) := by
  unfold inTeamPred
  rcases hget : GetSkirmishAI MAX_AIS h id with _ | aiData
  · simp
  · simp only [decide_eq_true_eq, Option.some.injEq, exists_eq_left']
    constructor
    · rintro ⟨ht, hh⟩
      exact ⟨ht, fun hne => hh.resolve_left hne⟩
    · rintro ⟨ht, hh⟩
      refine ⟨ht, ?_⟩
      by_cases hne : hostPlayerId = -1
      · exact Or.inl hne
      · exact Or.inr (hh hne)

theorem mem_getSkirmishAIsInTeam (MAX_AIS : Nat) (h : CSkirmishAIHandler)
    (teamId hostPlayerId : Int) (id : Nat) :
    id ∈ GetSkirmishAIsInTeam MAX_AIS h teamId hostPlayerId ↔
      ∃ aiData, GetSkirmishAI MAX_AIS h id = some aiData ∧ aiData.team = teamId ∧
        (hostPlayerId ≠ -1 → aiData.hostPlayer = hostPlayerId) := by
  rw [getSkirmishAIsInTeam_eq_filter, List.mem_filter, inTeamPred_iff, List.mem_range]
  constructor
  · exact fun hx => hx.2
  · rintro ⟨aiData, hget, hrest⟩
    exact ⟨isActive_lt ((getSkirmishAI_eq_some_iff MAX_AIS h id aiData).1 hget).1,
      aiData, hget, hrest⟩

theorem pairwise_lt_range (n : Nat) : (List.range n).Pairwise (fun a b => a < b) := by
  induction n with
  | zero => simp
  | succ n ih =>
    rw [List.range_succ, List.pairwise_append]
    refine ⟨ih, by simp, ?_⟩
    intro a ha b hb
    rw [List.mem_singleton] at hb
    rw [hb]
    exact List.mem_range.1 ha

theorem countP_set_add {α : Type} (p : α → Bool) (d a : α) :
    ∀ (l : List α) (i : Nat), i < l.length →
      (l.set i a).countP p + (if p (l.getD i d) then 1 else 0) =
        l.countP p + (if p a then 1 else 0)
  | [], i, hi => by simp at hi
  | x :: xs, 0, _ => by
    simp [List.countP_cons]
    omega
  | x :: xs, i + 1, hi => by
    have ih := countP_set_add p d a xs i (by simpa using hi)
    simp [List.countP_cons] at ih ⊢
    omega

theorem filter_range_length_eq_countP {α : Type} (p : α → Bool) (d : α) (l : List α) :
    ((List.range l.length).filter (fun id => decide (id < l.length) && p (l.getD id d))).length =
      l.countP p := by
  induction l using List.reverseRecOn with
  | nil => simp
  | append_singleton xs x ih =>
    rw [List.length_append, List.length_singleton, List.range_succ, List.filter_append,
      List.length_append, List.countP_append]
    have h1 : (List.range xs.length).filter
          (fun id => decide (id < xs.length + 1) && p ((xs ++ [x]).getD id d)) =
        (List.range xs.length).filter (fun id => decide (id < xs.length) && p (xs.getD id d)) := by
      apply List.filter_congr
      intro id hid
      have hlt : id < xs.length := List.mem_range.1 hid
      have hget : (xs ++ [x]).getD id d = xs.getD id d := by
        simp [List.getD, List.getElem?_append_left hlt]
      rw [hget]
      simp [hlt, Nat.lt_succ_of_lt hlt]
    have h2 : (xs ++ [x]).getD xs.length d = x := by
      simp [List.getD]
    rw [h1, ih]
    simp only [List.filter_cons, List.filter_nil, h2, List.countP_cons, List.countP_nil]
    by_cases hp : p x = true <;> simp [hp]

/-- In a well-formed handler the number of active ids is the number of slots that hold a
valid record. -/
theorem numActive_eq_countP (MAX_AIS : Nat) (h : CSkirmishAIHandler)
    (hwf : h.WellFormed MAX_AIS) :
    numActive MAX_AIS h = h.aiInstanceData.countP IsValidSkirmishAI := by
  have key := filter_range_length_eq_countP IsValidSkirmishAI SkirmishAIData.empty
    h.aiInstanceData
  rw [hwf.1] at key
  exact key

theorem numActive_le (MAX_AIS : Nat) (h : CSkirmishAIHandler) : numActive MAX_AIS h ≤ MAX_AIS := by
  unfold numActive
  calc ((List.range MAX_AIS).filter (fun id => IsActiveSkirmishAI MAX_AIS h id)).length
      ≤ (List.range MAX_AIS).length := List.length_filter_le _ _
    _ = MAX_AIS := List.length_range _

theorem tableInv_reset (MAX_AIS : Nat) : TableInv MAX_AIS (ResetState MAX_AIS) := by
  refine ⟨⟨by simp [ResetState], by simp [ResetState], by simp [ResetState]⟩, ?_⟩
  symm
  simp only [ResetState]
  rw [List.countP_eq_zero]
  intro a ha
  rw [List.eq_of_mem_replicate ha]
  decide

theorem tableInv_add (MAX_AIS : Nat) (hmax : MAX_AIS ≤ 255) (h : CSkirmishAIHandler)
    (data : SkirmishAIData) (id : Nat) (hinv : TableInv MAX_AIS h) :
    TableInv MAX_AIS (AddSkirmishAI MAX_AIS h data id).2 := by
  unfold AddSkirmishAI
  by_cases hact : IsActiveSkirmishAI MAX_AIS h id = true
  · simpa [hact] using hinv
  · by_cases hcap : MAX_AIS ≤ id ∨ MAX_AIS ≤ h.numSkirmishAIs
    · simpa [hact, hcap] using hinv
    · by_cases hvalid : IsValidSkirmishAI data = true
      · simp only [hact, hcap, hvalid, Bool.not_true, if_false, Bool.false_eq_true]
        obtain ⟨hwf, hnum⟩ := hinv
        have hid : id < MAX_AIS := by omega
        have hlen : id < h.aiInstanceData.length := by rw [hwf.1]; exact hid
        have hold : IsValidSkirmishAI (h.aiInstanceData.getD id SkirmishAIData.empty) = false := by
          simpa [IsActiveSkirmishAI, hid] using hact
        have hcount := countP_set_add IsValidSkirmishAI SkirmishAIData.empty data
          h.aiInstanceData id hlen
        rw [hold, hvalid] at hcount
        simp only [Bool.false_eq_true, if_false, if_true, Nat.add_zero] at hcount
        refine ⟨⟨by simp [hwf.1], hwf.2.1, hwf.2.2⟩, ?_⟩
        show (h.numSkirmishAIs + 1) % 256 =
          (h.aiInstanceData.set id data).countP IsValidSkirmishAI
        rw [hcount, ← hnum]
        omega
      · simpa [hact, hcap, hvalid] using hinv

theorem tableInv_remove (MAX_AIS : Nat) (hmax : MAX_AIS ≤ 255) (h : CSkirmishAIHandler)
    (id : Nat) (hinv : TableInv MAX_AIS h) :
    TableInv MAX_AIS (RemoveSkirmishAI MAX_AIS h id).2 := by
  unfold RemoveSkirmishAI
  by_cases hact : IsActiveSkirmishAI MAX_AIS h id = true
  · simp only [hact, Bool.not_true, if_false, Bool.false_eq_true]
    obtain ⟨hwf, hnum⟩ := hinv
    have hid : id < MAX_AIS := isActive_lt hact
    have hlen : id < h.aiInstanceData.length := by rw [hwf.1]; exact hid
    have hold : IsValidSkirmishAI (h.aiInstanceData.getD id SkirmishAIData.empty) = true := by
      simpa [IsActiveSkirmishAI, hid] using hact
    have hcount := countP_set_add IsValidSkirmishAI SkirmishAIData.empty SkirmishAIData.empty
      h.aiInstanceData id hlen
    rw [hold] at hcount
    have hemp : IsValidSkirmishAI SkirmishAIData.empty = false := by decide
    rw [hemp] at hcount
    simp only [Bool.false_eq_true, if_false, if_true, Nat.add_zero] at hcount
    have hle : h.aiInstanceData.countP IsValidSkirmishAI ≤ h.aiInstanceData.length :=
      List.countP_le_length _
    rw [hwf.1] at hle
    refine ⟨⟨by simp [hwf.1], hwf.2.1, by simp [hwf.2.2]⟩, ?_⟩
    show (h.numSkirmishAIs + 255) % 256 =
      (h.aiInstanceData.set id SkirmishAIData.empty).countP IsValidSkirmishAI
    omega
  · simpa [hact] using hinv

theorem tableInv_of_reachable (MAX_AIS : Nat) (hmax : MAX_AIS ≤ 255) (h : CSkirmishAIHandler)
    (hr : Reachable MAX_AIS h) : TableInv MAX_AIS h := by
  induction hr with
  | reset => exact tableInv_reset MAX_AIS
  | add h data id _ ih => exact tableInv_add MAX_AIS hmax h data id ih
  | remove h id _ ih => exact tableInv_remove MAX_AIS hmax h id ih

/-- `AddSkirmishAI` and `RemoveSkirmishAI` leave `currentAIId` alone, so it keeps the value
of its default member initialiser. -/
theorem currentAIId_of_reachable (MAX_AIS : Nat) (hmax : MAX_AIS ≤ 255) (h : CSkirmishAIHandler)
    (hr : Reachable MAX_AIS h) : GetCurrentAIID h = MAX_AIS := by
  induction hr with
  | reset => simp only [GetCurrentAIID, ResetState]; omega
  | add h data id _ ih =>
    simp only [GetCurrentAIID] at ih ⊢
    unfold AddSkirmishAI
    split_ifs <;> exact ih
  | remove h id _ ih =>
    simp only [GetCurrentAIID] at ih ⊢
    unfold RemoveSkirmishAI
    split_ifs <;> exact ih

/-! ## Helper lemmas on the executors -/

theorem ControlStep.refl (v : ControlLocals) : ControlStep v v :=
  ⟨rfl, fun hb => ⟨hb, rfl⟩, fun _ he => Or.inl he⟩

theorem ControlStep.trans {u v w : ControlLocals} (h1 : ControlStep u v) (h2 : ControlStep v w) :
    ControlStep u w := by
  obtain ⟨ht1, hb1, he1⟩ := h1
  obtain ⟨ht2, hb2, he2⟩ := h2
  refine ⟨ht2.trans ht1, fun hb => ?_, fun e he => ?_⟩
  · obtain ⟨hbv, hev⟩ := hb2 hb
    obtain ⟨hbu, heu⟩ := hb1 hbv
    exact ⟨hbu, hev.trans heu⟩
  · rcases he2 e he with hv | hl
    · exact he1 e hv
    · exact Or.inr hl

theorem controlStep_bad (v : ControlLocals) (line : LogLine) :
    ControlStep v { v with badArgs := true, effects := v.effects ++ [Effect.log line] } := by
  refine ⟨rfl, fun hb => by simp at hb, fun e he => ?_⟩
  rcases List.mem_append.1 he with h | h
  · exact Or.inl h
  · exact Or.inr ⟨line, by simpa using h⟩

theorem control_permissionCheck_ok (env : GameEnv) (fromPlayer : Option CPlayer)
    (fromTeamId : Int) (cheating singlePlayer : Bool) (v w : ControlLocals)
    (h : AIControlActionExecutor.permissionCheck env fromPlayer fromTeamId cheating singlePlayer v
      = .ok w) : ControlStep v w := by
  simp only [AIControlActionExecutor.permissionCheck] at h
  split at h
  · split at h
    · simp at h
    · split at h
      · split at h
        · simp at h
        · injection h with h; subst h; exact controlStep_bad v _
      · injection h with h; subst h; exact ControlStep.refl v
  · injection h with h; subst h; exact ControlStep.refl v

theorem control_permissionCheck_error (env : GameEnv) (fromPlayer : Option CPlayer)
    (fromTeamId : Int) (cheating singlePlayer : Bool) (v : ControlLocals) (fault : Fault)
    (effects : List Effect)
    (h : AIControlActionExecutor.permissionCheck env fromPlayer fromTeamId cheating singlePlayer v
      = .error (fault, effects)) : effects = v.effects := by
  simp only [AIControlActionExecutor.permissionCheck] at h
  split at h
  · split at h
    · injection h with h; injection h with _ h; exact h.symm
    · split at h
      · split at h
        · injection h with h; injection h with _ h; exact h.symm
        · simp at h
      · simp at h
  · simp at h

theorem control_deadCheck_ok (v w : ControlLocals)
    (h : AIControlActionExecutor.deadCheck v = .ok w) : ControlStep v w := by
  simp only [AIControlActionExecutor.deadCheck] at h
  split at h
  · split at h
    · simp at h
    · split at h
      · injection h with h; subst h; exact controlStep_bad v _
      · injection h with h; subst h; exact ControlStep.refl v
  · injection h with h; subst h; exact ControlStep.refl v

theorem control_deadCheck_error (v : ControlLocals) (fault : Fault) (effects : List Effect)
    (h : AIControlActionExecutor.deadCheck v = .error (fault, effects)) :
    effects = v.effects := by
  simp only [AIControlActionExecutor.deadCheck] at h
  split at h
  · split at h
    · injection h with h; injection h with _ h; exact h.symm
    · split at h <;> simp at h
  · simp at h

theorem control_controlledCheck (env : GameEnv) (v : ControlLocals) :
    ControlStep v (AIControlActionExecutor.controlledCheck env v) ∧
      ((AIControlActionExecutor.controlledCheck env v).badArgs = false →
        env.GetSkirmishAIsInTeam v.teamToControlId (-1) = []) := by
  unfold AIControlActionExecutor.controlledCheck
  split
  · exact ⟨controlStep_bad v _, fun hb => by simp at hb⟩
  · rename_i hc
    refine ⟨ControlStep.refl v, fun hb => ?_⟩
    simpa [hb, List.isEmpty_iff] using hc

theorem control_inCreationCheck (env : GameEnv) (v : ControlLocals) :
    ControlStep v (AIControlActionExecutor.inCreationCheck env v) ∧
      ((AIControlActionExecutor.inCreationCheck env v).badArgs = false →
        env.GetLocalSkirmishAIInCreation v.teamToControlId = none) := by
  unfold AIControlActionExecutor.inCreationCheck
  split
  · exact ⟨controlStep_bad v _, fun hb => by simp at hb⟩
  · rename_i hc
    refine ⟨ControlStep.refl v, fun hb => ?_⟩
    simpa [hb] using hc

theorem control_luaCheck (env : GameEnv) (v : ControlLocals) :
    ControlStep v (AIControlActionExecutor.luaCheck env v) := by
  unfold AIControlActionExecutor.luaCheck
  split
  · split
    · exact controlStep_bad v _
    · exact ControlStep.refl v
  · exact ControlStep.refl v

theorem onlyLogs_nil : OnlyLogs [] := fun _ he => by simp at he

theorem onlyLogs_append_log (effects : List Effect) (line : LogLine) (h : OnlyLogs effects) :
    OnlyLogs (effects ++ [Effect.log line]) := by
  intro e he
  rcases List.mem_append.1 he with h1 | h1
  · exact h e h1
  · exact ⟨line, by simpa using h1⟩

theorem readArgs_effects (env : GameEnv) (args : List String) :
    (AIControlActionExecutor.readArgs env args).teamToControlId = atoi (args.getD 0 "") ∧
      OnlyLogs (AIControlActionExecutor.readArgs env args).effects := by
  have h0 : OnlyLogs (if 2 ≤ args.length then [] else [Effect.log LogLine.missingAIShortName]) := by
    split
    · exact onlyLogs_nil
    · exact onlyLogs_append_log [] _ onlyLogs_nil
  simp only [AIControlActionExecutor.readArgs]
  constructor
  · split <;> rfl
  · by_cases hact : env.IsActiveTeam (atoi (args.getD 0 "")) = true
    · simp only [hact, if_true, Option.isNone_some, Bool.false_eq_true, if_false]
      exact h0
    · simp only [hact, if_false, Option.isNone_none, if_true]
      exact onlyLogs_append_log _ _ h0

theorem mem_usage_control (badArgs : Bool) : OnlyLogs (AIControlActionExecutor.usage badArgs) := by
  unfold AIControlActionExecutor.usage
  split
  · exact onlyLogs_append_log [] _ onlyLogs_nil
  · exact onlyLogs_nil

theorem control_create_ok (env : GameEnv) (v w : ControlLocals)
    (h : AIControlActionExecutor.create env v = .ok w) :
    ∀ e ∈ w.effects, e ∈ v.effects ∨ (∃ line, e = Effect.log line) ∨
      (v.badArgs = false ∧
        ∃ aiLibInfo, e = Effect.CreateLocalSkirmishAI
          (AIControlActionExecutor.makeAIData env v aiLibInfo)) := by
  simp only [AIControlActionExecutor.create] at h
  split at h
  · rename_i hb
    split at h
    · injection h with h; subst h
      intro e he
      rcases List.mem_append.1 he with h1 | h1
      · exact Or.inl h1
      · exact Or.inr (Or.inl ⟨_, by simpa using h1⟩)
    · split at h
      · simp at h
      · rename_i aiLibInfo _
        injection h with h; subst h
        intro e he
        rcases List.mem_append.1 he with h1 | h1
        · exact Or.inl h1
        · exact Or.inr (Or.inr ⟨by simpa using hb, aiLibInfo, by simpa using h1⟩)
  · injection h with h; subst h
    exact fun e he => Or.inl he

theorem control_create_error (env : GameEnv) (v : ControlLocals) (fault : Fault)
    (effects : List Effect)
    (h : AIControlActionExecutor.create env v = .error (fault, effects)) :
    effects = v.effects := by
  simp only [AIControlActionExecutor.create] at h
  split at h
  · split at h
    · simp at h
    · split at h
      · injection h with h; injection h with _ h; exact h.symm
      · simp at h
  · simp at h

/-- The checks of lines 769-799 in a row, as `Execute` runs them. -/
theorem control_checks (env : GameEnv) (fromPlayer : Option CPlayer) (fromTeamId : Int)
    (cheating singlePlayer : Bool) (v0 v1 v2 : ControlLocals)
    (h1 : AIControlActionExecutor.permissionCheck env fromPlayer fromTeamId cheating singlePlayer v0
      = .ok v1)
    (h2 : AIControlActionExecutor.deadCheck v1 = .ok v2) :
    ControlStep v0 (AIControlActionExecutor.luaCheck env
      (AIControlActionExecutor.inCreationCheck env
        (AIControlActionExecutor.controlledCheck env v2))) ∧
    ((AIControlActionExecutor.luaCheck env
      (AIControlActionExecutor.inCreationCheck env
        (AIControlActionExecutor.controlledCheck env v2))).badArgs = false →
      env.GetSkirmishAIsInTeam v0.teamToControlId (-1) = [] ∧
        env.GetLocalSkirmishAIInCreation v0.teamToControlId = none) := by
  have s1 := control_permissionCheck_ok env fromPlayer fromTeamId cheating singlePlayer v0 v1 h1
  have s2 := control_deadCheck_ok v1 v2 h2
  obtain ⟨s3, c3⟩ := control_controlledCheck env v2
  obtain ⟨s4, c4⟩ := control_inCreationCheck env (AIControlActionExecutor.controlledCheck env v2)
  have s5 := control_luaCheck env
    (AIControlActionExecutor.inCreationCheck env (AIControlActionExecutor.controlledCheck env v2))
  refine ⟨(((s1.trans s2).trans s3).trans s4).trans s5, fun hb => ?_⟩
  have hb4 := (s5.2.1 hb).1
  have hb3 := (s4.2.1 hb4).1
  have ht02 : v2.teamToControlId = v0.teamToControlId := (s1.trans s2).1
  have ht03 : (AIControlActionExecutor.controlledCheck env v2).teamToControlId =
      v0.teamToControlId := ((s1.trans s2).trans s3).1
  refine ⟨?_, ?_⟩
  · rw [← ht02]; exact c3 hb3
  · rw [← ht03]; exact c4 hb4

theorem onlyLogs_of_all (effects : List Effect) (h : effects.all Effect.isLog = true) :
    OnlyLogs effects := by
  intro e he
  have hlog := List.all_eq_true.1 h e he
  cases e with
  | log line => exact ⟨line, rfl⟩
  | _ => simp [Effect.isLog] at hlog

theorem all_isLog_of_onlyLogs (effects : List Effect) (h : OnlyLogs effects) :
    effects.all Effect.isLog = true := by
  rw [List.all_eq_true]
  intro e he
  obtain ⟨line, hline⟩ := h e he
  rw [hline]
  rfl

theorem selectAI_onlyLogs (kill : Bool) (env : GameEnv) (args : List String) :
    OnlyLogs (AIKillReloadActionExecutor.selectAI kill env args).effects := by
  apply onlyLogs_of_all
  simp only [AIKillReloadActionExecutor.selectAI]
  rcases env.GetSkirmishAIsInTeam (atoi (args.getD 0 "")) env.myPlayerNum with _ | ⟨id, rest⟩ <;>
    split_ifs <;> simp [Effect.isLog]

theorem killReload_after_bad (kill : Bool) (env : GameEnv) (fromPlayer : Option CPlayer)
    (fromTeamId : Int) (cheating singlePlayer : Bool) (v : KillReloadLocals)
    (hb : v.badArgs = true) :
    AIKillReloadActionExecutor.permissionCheck env fromPlayer fromTeamId cheating singlePlayer v
        = .ok v ∧
      AIKillReloadActionExecutor.deadCheck v = .ok v ∧
      AIKillReloadActionExecutor.act kill env v = v := by
  simp [AIKillReloadActionExecutor.permissionCheck, AIKillReloadActionExecutor.deadCheck,
    AIKillReloadActionExecutor.act, hb]

/-! ## Helper lemmas on `atoi` -/

theorem longToInt_range (value : Int) :
    -2147483648 ≤ longToInt value ∧ longToInt value < 2147483648 := by
  simp only [longToInt]
  omega

/-- A value in the range of `int` is kept by the conversion. -/
theorem longToInt_of_int (value : Int) (hlow : -2147483648 ≤ value)
    (hhigh : value < 2147483648) : longToInt value = value := by
  simp only [longToInt]
  omega

/-- The result of `atoi` is an `int`. -/
theorem atoi_range (s : String) : -2147483648 ≤ atoi s ∧ atoi s < 2147483648 :=
  longToInt_range (strtol s)

/-- The value of `atoi` on some numerals: in the range of `int` the value is exact, beyond it
the low 32 bits of the `long` are kept, and beyond the range of `long` those of its bound. -/
theorem atoi_examples :
    atoi "1" = 1 ∧ atoi "-1" = -1 ∧ atoi " \n+12abc" = 12 ∧ atoi "" = 0 ∧ atoi "RAI" = 0 ∧
      atoi "2147483647" = 2147483647 ∧ atoi "2147483648" = -2147483648 ∧
      atoi "4294967297" = 1 ∧ atoi "-4294967297" = -1 ∧
      atoi "99999999999999999999" = -1 ∧ atoi "-99999999999999999999" = 0 := by
  decide

/-! ## Helper lemmas on `_local_strSpaceTokenize` -/

theorem find_first_of_range (text delims : List Char) (pos : Nat) :
    find_first_of text delims pos = npos ∨
      (pos ≤ find_first_of text delims pos ∧ find_first_of text delims pos < text.length) := by
  simp only [find_first_of]
  split_ifs with h1 h2
  · exact Or.inl rfl
  · exact Or.inr ⟨Nat.le_add_right _ _, by omega⟩
  · exact Or.inl rfl

theorem find_first_not_of_range (text delims : List Char) (pos : Nat) :
    find_first_not_of text delims pos = npos ∨
      (pos ≤ find_first_not_of text delims pos ∧
        find_first_not_of text delims pos < text.length) := by
  simp only [find_first_not_of]
  split_ifs with h1 h2
  · exact Or.inl rfl
  · exact Or.inr ⟨Nat.le_add_right _ _, by omega⟩
  · exact Or.inl rfl

/-- A position found by `find_first_not_of` holds no delimiter. -/
theorem find_first_not_of_hit (text delims : List Char) (pos : Nat)
    (hsize : text.length < npos)
    (hlt : find_first_not_of text delims pos < text.length) :
    ∃ c, text[find_first_not_of text delims pos]? = some c ∧ delims.contains c = false := by
  simp only [find_first_not_of] at hlt ⊢
  split_ifs at hlt ⊢ with h1 h2
  · omega
  · have hidx : (text.drop pos).findIdx (fun c => !delims.contains c) <
        (text.drop pos).length := by simpa using h2
    have hp := List.findIdx_getElem (w := hidx)
    refine ⟨(text.drop pos)[(text.drop pos).findIdx (fun c => !delims.contains c)], ?_, ?_⟩
    · rw [List.getElem_drop]
      exact List.getElem?_eq_getElem _
    · simpa using hp
  · omega

/-- Searching a delimiter from a position that holds none finds a later position. -/
theorem find_first_of_after (text delims : List Char) (pos : Nat) (c : Char)
    (hc : text[pos]? = some c) (hnot : delims.contains c = false) :
    find_first_of text delims pos = npos ∨
      (pos < find_first_of text delims pos ∧ find_first_of text delims pos < text.length) := by
  have hpos : pos < text.length := by
    rcases Nat.lt_or_ge pos text.length with h | h
    · exact h
    · rw [List.getElem?_eq_none h] at hc; cases hc
  simp only [find_first_of]
  split_ifs with h1 h2
  · exact Or.inl rfl
  · right
    have hidx : (text.drop pos).findIdx (fun c => delims.contains c) < (text.drop pos).length := by
      simpa using h2
    have hp := List.findIdx_getElem (w := hidx)
    have hne : (text.drop pos).findIdx (fun c => delims.contains c) ≠ 0 := by
      intro h0
      simp only [h0, List.getElem_drop, Nat.add_zero] at hp
      rw [List.getElem?_eq_getElem hpos] at hc
      injection hc with hc
      rw [hc, hnot] at hp
      cases hp
    omega
  · exact Or.inl rfl

theorem tokenizeInv_next (text : List Char) (hsize : text.length < npos) (pos : Nat) :
    TokenizeInv text (find_first_not_of text SPACE_DELIMS pos)
      (find_first_of text SPACE_DELIMS (find_first_not_of text SPACE_DELIMS pos)) := by
  rcases find_first_not_of_range text SPACE_DELIMS pos with h | ⟨-, h⟩
  · left
    refine ⟨h, ?_⟩
    rw [h]
    simp only [find_first_of]
    rw [if_pos (Nat.le_of_lt hsize)]
  · right
    refine ⟨h, ?_⟩
    obtain ⟨c, hc, hnot⟩ := find_first_not_of_hit text SPACE_DELIMS pos hsize h
    exact find_first_of_after text SPACE_DELIMS _ c hc hnot

theorem tokenize_loop_isSome (text : List Char) (hsize : text.length < npos) :
    ∀ (fuel lastPos pos : Nat) (tokens : List String), TokenizeInv text lastPos pos →
      (lastPos < text.length → text.length - lastPos ≤ fuel) →
      ∃ result, _local_strSpaceTokenize.loop text fuel lastPos pos tokens = some result := by
  intro fuel
  induction fuel with
  | zero =>
    intro lastPos pos tokens hinv hfuel
    rcases hinv with ⟨h1, h2⟩ | ⟨h1, -⟩
    · exact ⟨tokens, by simp [_local_strSpaceTokenize.loop, h1, h2]⟩
    · have := hfuel h1
      omega
  | succ fuel ih =>
    intro lastPos pos tokens hinv hfuel
    rcases hinv with ⟨h1, h2⟩ | ⟨h1, h2⟩
    · exact ⟨tokens, by simp [_local_strSpaceTokenize.loop, h1, h2]⟩
    · have hcond : npos ≠ pos ∨ npos ≠ lastPos := Or.inr (by omega)
      have hsub : substr text lastPos ((pos + 2 ^ 64 - lastPos) % 2 ^ 64) =
          some ((text.drop lastPos).take ((pos + 2 ^ 64 - lastPos) % 2 ^ 64)) := by
        simp [substr, Nat.not_lt.2 (Nat.le_of_lt h1)]
      have hnext := tokenizeInv_next text hsize pos
      have hfuel1 : find_first_not_of text SPACE_DELIMS pos < text.length →
          text.length - find_first_not_of text SPACE_DELIMS pos ≤ fuel := by
        intro hlt
        have hle := hfuel h1
        rcases h2 with h2 | ⟨h2, -⟩
        · rw [h2] at hlt
          simp only [find_first_not_of] at hlt
          rw [if_pos (Nat.le_of_lt hsize)] at hlt
          omega
        · rcases find_first_not_of_range text SPACE_DELIMS pos with h | ⟨h, -⟩
          · omega
          · omega
      obtain ⟨result, hres⟩ := ih _ _ (tokens ++ [String.mk
        ((text.drop lastPos).take ((pos + 2 ^ 64 - lastPos) % 2 ^ 64))]) hnext hfuel1
      refine ⟨result, ?_⟩
      rw [_local_strSpaceTokenize.loop]
      simp only [hcond, if_true, hsub]
      exact hres

/-- `_local_strSpaceTokenize` returns for every string that a `std::string` can hold. -/
theorem tokenize_isSome (text : String) (hsize : text.data.length < npos) :
    ∃ args, _local_strSpaceTokenize text = some args := by
  simp only [_local_strSpaceTokenize]
  exact tokenize_loop_isSome text.data hsize _ _ _ [] (tokenizeInv_next text.data hsize 0)
    (fun _ => by omega)

/-! ## `_local_strSpaceTokenize` against its specification -/

theorem splitOnP_unfold (p : Char → Bool) (l : List Char) :
    l.splitOnP p = l.takeWhile (fun c => !p c) ::
      (match l.dropWhile (fun c => !p c) with
        | [] => []
        | _ :: rest => rest.splitOnP p) := by
  induction l with
  | nil => simp [List.splitOnP_nil]
  | cons x xs ih =>
    rw [List.splitOnP_cons]
    by_cases hx : p x = true
    · simp [hx]
    · simp only [hx, if_false]
      rw [ih]
      simp [List.modifyHead, hx]

theorem spaceTokensSpec_unfold (l : List Char) :
    spaceTokensSpec l =
      (if l.takeWhile (fun c => !isSpaceOrTab c) = [] then []
        else [l.takeWhile (fun c => !isSpaceOrTab c)]) ++
      (match l.dropWhile (fun c => !isSpaceOrTab c) with
        | [] => []
        | _ :: rest => spaceTokensSpec rest) := by
  rw [spaceTokensSpec, splitOnP_unfold]
  rw [List.filter_cons]
  cases hd : l.dropWhile (fun c => !isSpaceOrTab c) with
  | nil =>
    by_cases ht : l.takeWhile (fun c => !isSpaceOrTab c) = []
    · simp [ht]
    · simp [ht, List.isEmpty_iff]
  | cons d rest =>
    by_cases ht : l.takeWhile (fun c => !isSpaceOrTab c) = []
    · simp [ht, spaceTokensSpec]
    · simp [ht, List.isEmpty_iff, spaceTokensSpec]

theorem spaceTokensSpec_nil : spaceTokensSpec [] = [] := by
  simp [spaceTokensSpec, List.splitOnP_nil]

theorem spaceTokensSpec_cons_delim (c : Char) (l : List Char) (hc : isSpaceOrTab c = true) :
    spaceTokensSpec (c :: l) = spaceTokensSpec l := by
  rw [spaceTokensSpec_unfold]
  simp [hc]

theorem spaceTokensSpec_dropWhile (l : List Char) :
    spaceTokensSpec (l.dropWhile isSpaceOrTab) = spaceTokensSpec l := by
  induction l with
  | nil => rfl
  | cons x xs ih =>
    by_cases hx : isSpaceOrTab x = true
    · rw [List.dropWhile_cons_of_pos hx, ih, spaceTokensSpec_cons_delim x xs hx]
    · rw [List.dropWhile_cons_of_neg hx]

theorem spaceTokensSpec_of_all_delims (l : List Char) (h : ∀ c ∈ l, isSpaceOrTab c = true) :
    spaceTokensSpec l = [] := by
  induction l with
  | nil => exact spaceTokensSpec_nil
  | cons x xs ih =>
    rw [spaceTokensSpec_cons_delim x xs (h x (List.mem_cons_self _ _))]
    exact ih (fun c hc => h c (List.mem_cons_of_mem _ hc))

/-- A text that starts with a character other than space and tab: its first token is its
longest delimiter-free prefix, the other tokens are those of what follows. -/
theorem spaceTokensSpec_token (l : List Char) (c : Char) (hhead : l.head? = some c)
    (hc : isSpaceOrTab c = false) :
    spaceTokensSpec l = l.takeWhile (fun c => !isSpaceOrTab c) ::
      spaceTokensSpec (l.dropWhile (fun c => !isSpaceOrTab c)) := by
  rw [spaceTokensSpec_unfold]
  cases l with
  | nil => cases hhead
  | cons x xs =>
    simp only [List.head?_cons, Option.some.injEq] at hhead
    subst hhead
    have hne : (x :: xs).takeWhile (fun c => !isSpaceOrTab c) ≠ [] := by
      simp [List.takeWhile_cons, hc]
    rw [if_neg hne]
    cases hd : (x :: xs).dropWhile (fun c => !isSpaceOrTab c) with
    | nil => simp [spaceTokensSpec_nil]
    | cons d rest =>
      have hdelim : isSpaceOrTab d = true := by
        have := List.head_dropWhile_not (fun c => !isSpaceOrTab c) (x :: xs) (by rw [hd]; simp)
        simpa [hd] using this
      simp [spaceTokensSpec_cons_delim d rest hdelim]

theorem contains_spaceDelims (c : Char) : SPACE_DELIMS.contains c = isSpaceOrTab c := by
  simp only [SPACE_DELIMS, isSpaceOrTab, List.contains, List.elem]
  cases (c == ' ') <;> cases (c == '\t') <;> rfl

theorem find_first_of_npos (text delims : List Char) (hsize : text.length < npos) :
    find_first_of text delims npos = npos := by
  simp only [find_first_of]
  rw [if_pos (Nat.le_of_lt hsize)]

theorem find_first_not_of_npos (text delims : List Char) (hsize : text.length < npos) :
    find_first_not_of text delims npos = npos := by
  simp only [find_first_not_of]
  rw [if_pos (Nat.le_of_lt hsize)]

/-- When `find_first_not_of` finds nothing, the text from `pos` on is all spaces and tabs. -/
theorem find_first_not_of_none (text : List Char) (pos : Nat) (hsize : text.length < npos)
    (h : find_first_not_of text SPACE_DELIMS pos = npos) :
    ∀ c ∈ text.drop pos, isSpaceOrTab c = true := by
  simp only [find_first_not_of] at h
  split_ifs at h with h1 h2
  · intro c hc
    rw [List.drop_eq_nil_of_le h1] at hc
    cases hc
  · omega
  · have hlen : (text.drop pos).findIdx (fun c => !SPACE_DELIMS.contains c) =
        (text.drop pos).length := by
      have := @List.findIdx_le_length _ (fun c => !SPACE_DELIMS.contains c) (text.drop pos)
      simp only [List.length_drop] at this ⊢
      omega
    rw [List.findIdx_eq_length] at hlen
    intro c hc
    have := hlen c hc
    rw [contains_spaceDelims] at this
    simpa using this

/-- When `find_first_not_of` finds a position, the text from there on is the text from `pos`
on without its leading spaces and tabs. -/
theorem find_first_not_of_some (text : List Char) (pos : Nat) (hsize : text.length < npos)
    (h : find_first_not_of text SPACE_DELIMS pos < text.length) :
    text.drop (find_first_not_of text SPACE_DELIMS pos) =
      (text.drop pos).dropWhile isSpaceOrTab := by
  simp only [find_first_not_of] at h ⊢
  split_ifs at h ⊢ with h1 h2
  · omega
  · rw [List.dropWhile_eq_drop_findIdx_not, List.drop_drop]
    have hfun : (fun c => !SPACE_DELIMS.contains c) = (fun c => !isSpaceOrTab c) := by
      funext c
      rw [contains_spaceDelims]
    rw [hfun, Nat.add_comm]
  · omega

theorem findIdx_spaceDelims (l : List Char) :
    l.findIdx (fun c => SPACE_DELIMS.contains c) =
      l.findIdx (fun a => !(fun c => !isSpaceOrTab c) a) := by
  congr 1
  funext c
  show SPACE_DELIMS.contains c = !!isSpaceOrTab c
  rw [Bool.not_not, contains_spaceDelims]

/-- The token that the loop body cuts out at `lastPos` is the longest prefix without space
and tab of the text from `lastPos` on. -/
theorem find_first_of_token (text : List Char) (lastPos : Nat) (hsize : text.length < npos) :
    (text.drop lastPos).take
        ((find_first_of text SPACE_DELIMS lastPos + 2 ^ 64 - lastPos) % 2 ^ 64) =
      (text.drop lastPos).takeWhile (fun c => !isSpaceOrTab c) := by
  rw [List.takeWhile_eq_take_findIdx_not, ← findIdx_spaceDelims]
  simp only [find_first_of]
  split_ifs with h1 h2
  · rw [List.drop_eq_nil_of_le h1]
    simp
  · have hmod : (lastPos + (text.drop lastPos).findIdx (fun c => SPACE_DELIMS.contains c) +
        2 ^ 64 - lastPos) % 2 ^ 64 =
        (text.drop lastPos).findIdx (fun c => SPACE_DELIMS.contains c) := by
      have hlt : (text.drop lastPos).findIdx (fun c => SPACE_DELIMS.contains c) < 2 ^ 64 := by
        simp only [npos] at hsize
        omega
      omega
    rw [hmod]
  · have hlen : (text.drop lastPos).findIdx (fun c => SPACE_DELIMS.contains c) =
        (text.drop lastPos).length := by
      have := @List.findIdx_le_length _ (fun c => SPACE_DELIMS.contains c) (text.drop lastPos)
      simp only [List.length_drop] at this ⊢
      omega
    rw [hlen, List.take_length]
    apply List.take_of_length_le
    simp only [List.length_drop, npos] at hsize ⊢
    omega

/-- The text from the position found by `find_first_of` on is what follows the token. -/
theorem find_first_of_rest (text : List Char) (lastPos : Nat) (hsize : text.length < npos) :
    text.drop (find_first_of text SPACE_DELIMS lastPos) =
      (text.drop lastPos).dropWhile (fun c => !isSpaceOrTab c) := by
  rw [List.dropWhile_eq_drop_findIdx_not, ← findIdx_spaceDelims]
  simp only [find_first_of]
  split_ifs with h1 h2
  · rw [List.drop_eq_nil_of_le h1, List.drop_eq_nil_of_le (Nat.le_of_lt hsize)]
    simp
  · rw [List.drop_drop, Nat.add_comm]
  · have hlen : (text.drop lastPos).findIdx (fun c => SPACE_DELIMS.contains c) =
        (text.drop lastPos).length := by
      have := @List.findIdx_le_length _ (fun c => SPACE_DELIMS.contains c) (text.drop lastPos)
      simp only [List.length_drop] at this ⊢
      omega
    rw [hlen, List.drop_length, List.drop_eq_nil_of_le (Nat.le_of_lt hsize)]

/-- The loop of `_local_strSpaceTokenize`, entered at the positions computed from `start`,
appends the specified tokens of the text from `start` on. -/
theorem tokenize_loop_eq_spec (text : List Char) (hsize : text.length < npos) :
    ∀ (fuel start : Nat) (tokens : List String), text.length - start ≤ fuel →
      _local_strSpaceTokenize.loop text fuel (find_first_not_of text SPACE_DELIMS start)
          (find_first_of text SPACE_DELIMS (find_first_not_of text SPACE_DELIMS start)) tokens =
        some (tokens ++ (spaceTokensSpec (text.drop start)).map String.mk) := by
  intro fuel
  induction fuel with
  | zero =>
    intro start tokens hfuel
    have hle : text.length ≤ start := by omega
    have h1 : find_first_not_of text SPACE_DELIMS start = npos := by
      simp only [find_first_not_of]
      rw [if_pos hle]
    rw [h1, find_first_of_npos text _ hsize, List.drop_eq_nil_of_le hle, spaceTokensSpec_nil]
    simp [_local_strSpaceTokenize.loop]
  | succ fuel ih =>
    intro start tokens hfuel
    rcases find_first_not_of_range text SPACE_DELIMS start with h1 | ⟨hge, hlt⟩
    · rw [spaceTokensSpec_of_all_delims _ (find_first_not_of_none text start hsize h1)]
      rw [h1, find_first_of_npos text _ hsize]
      simp [_local_strSpaceTokenize.loop]
    · have hdrop := find_first_not_of_some text start hsize hlt
      obtain ⟨c, hc, hnot⟩ := find_first_not_of_hit text SPACE_DELIMS start hsize hlt
      rw [contains_spaceDelims] at hnot
      generalize find_first_not_of text SPACE_DELIMS start = lastPos at hge hlt hdrop hc ⊢
      have hhead : (text.drop lastPos).head? = some c := by
        rw [List.head?_drop]
        exact hc
      have hspec := spaceTokensSpec_token (text.drop lastPos) c hhead hnot
      rw [← spaceTokensSpec_dropWhile (text.drop start), ← hdrop, hspec]
      have hcond : npos ≠ find_first_of text SPACE_DELIMS lastPos ∨ npos ≠ lastPos :=
        Or.inr (by omega)
      have hsub : substr text lastPos
          ((find_first_of text SPACE_DELIMS lastPos + 2 ^ 64 - lastPos) % 2 ^ 64) =
          some ((text.drop lastPos).takeWhile (fun c => !isSpaceOrTab c)) := by
        simp only [substr]
        rw [if_neg (Nat.not_lt.2 (Nat.le_of_lt hlt)), find_first_of_token text lastPos hsize]
      have hfuel1 : text.length - find_first_of text SPACE_DELIMS lastPos ≤ fuel := by
        obtain ⟨c, hc, hnot⟩ : ∃ c, text[lastPos]? = some c ∧ SPACE_DELIMS.contains c = false :=
          ⟨c, hc, by rw [contains_spaceDelims]; exact hnot⟩
        rcases find_first_of_after text SPACE_DELIMS lastPos c hc hnot with h | ⟨h, -⟩
        · rw [h]
          omega
        · omega
      rw [_local_strSpaceTokenize.loop]
      simp only [hcond, if_true, hsub]
      rw [ih _ _ hfuel1, find_first_of_rest text lastPos hsize]
      simp

/-- On every text that a `std::string` can hold, `_local_strSpaceTokenize` returns the
specified tokens. -/
theorem tokenize_eq_spec (text : String) (hsize : text.data.length < npos) :
    _local_strSpaceTokenize text = some ((spaceTokensSpec text.data).map String.mk) := by
  simp only [_local_strSpaceTokenize]
  rw [tokenize_loop_eq_spec text.data hsize _ 0 [] (by omega)]
  simp

/-- Induction along the tokens: a property holds of every text when it holds of a text as soon
as it holds of what follows the delimiter that ends the first piece. -/
theorem spaceTokens_induction (P : List Char → Prop)
    (step : ∀ l, (∀ d rest, l.dropWhile (fun c => !isSpaceOrTab c) = d :: rest → P rest) → P l) :
    ∀ l, P l := by
  intro l
  generalize hn : l.length = n
  induction n using Nat.strong_induction_on generalizing l with
  | _ n ih =>
    subst hn
    apply step
    intro d rest hd
    have hlen : l.length =
        (l.takeWhile (fun c => !isSpaceOrTab c)).length + (d :: rest).length := by
      rw [← hd, ← List.length_append, List.takeWhile_append_dropWhile]
    exact ih rest.length (by simp only [List.length_cons] at hlen; omega) rest rfl

theorem head_dropWhile_isSpaceOrTab (l : List Char) (d : Char) (rest : List Char)
    (hd : l.dropWhile (fun c => !isSpaceOrTab c) = d :: rest) : isSpaceOrTab d = true := by
  have := List.head_dropWhile_not (fun c => !isSpaceOrTab c) l (by rw [hd]; simp)
  simpa [hd] using this

theorem takeWhile_not_isSpaceOrTab (l : List Char) :
    ∀ c ∈ l.takeWhile (fun c => !isSpaceOrTab c), isSpaceOrTab c = false := by
  intro c hc
  have := List.mem_takeWhile_imp hc
  simpa using this

/-- Every specified token is non-empty and holds neither a space nor a tab. -/
theorem spaceTokensSpec_token_shape (l : List Char) :
    ∀ token ∈ spaceTokensSpec l, token ≠ [] ∧ ∀ c ∈ token, isSpaceOrTab c = false := by
  induction l using spaceTokens_induction with
  | step l ih =>
    intro token hmem
    rw [spaceTokensSpec_unfold, List.mem_append] at hmem
    rcases hmem with hmem | hmem
    · split_ifs at hmem with ht
      · cases hmem
      · rw [List.mem_singleton] at hmem
        subst hmem
        exact ⟨ht, takeWhile_not_isSpaceOrTab l⟩
    · cases hd : l.dropWhile (fun c => !isSpaceOrTab c) with
      | nil => rw [hd] at hmem; cases hmem
      | cons d rest =>
        rw [hd] at hmem
        exact ih d rest hd token hmem

/-- No token is specified exactly for the texts made of spaces and tabs only. -/
theorem spaceTokensSpec_eq_nil_iff (l : List Char) :
    spaceTokensSpec l = [] ↔ ∀ c ∈ l, isSpaceOrTab c = true := by
  constructor
  · intro h
    induction l with
    | nil => intro c hc; cases hc
    | cons x xs ih =>
      cases hx : isSpaceOrTab x with
      | true =>
        rw [spaceTokensSpec_cons_delim x xs hx] at h
        intro c hc
        rcases List.mem_cons.1 hc with rfl | hc
        · exact hx
        · exact ih h c hc
      | false =>
        rw [spaceTokensSpec_token (x :: xs) x rfl hx] at h
        cases h
  · exact spaceTokensSpec_of_all_delims l

/-- The specified tokens, glued together, are the text without its spaces and tabs. -/
theorem spaceTokensSpec_flatten (l : List Char) :
    (spaceTokensSpec l).flatten = l.filter (fun c => !isSpaceOrTab c) := by
  induction l using spaceTokens_induction with
  | step l ih =>
    have hsplit := List.takeWhile_append_dropWhile (fun c => !isSpaceOrTab c) l
    have htake : (l.takeWhile (fun c => !isSpaceOrTab c)).filter (fun c => !isSpaceOrTab c) =
        l.takeWhile (fun c => !isSpaceOrTab c) := by
      rw [List.filter_eq_self]
      intro c hc
      simp [takeWhile_not_isSpaceOrTab l c hc]
    rw [spaceTokensSpec_unfold, List.flatten_append]
    have hfirst : (if l.takeWhile (fun c => !isSpaceOrTab c) = [] then []
        else [l.takeWhile (fun c => !isSpaceOrTab c)]).flatten =
        l.takeWhile (fun c => !isSpaceOrTab c) := by
      split_ifs with ht
      · rw [ht]; rfl
      · simp
    rw [hfirst]
    conv_rhs => rw [← hsplit, List.filter_append, htake]
    cases hd : l.dropWhile (fun c => !isSpaceOrTab c) with
    | nil => simp
    | cons d rest =>
      have hdelim := head_dropWhile_isSpaceOrTab l d rest hd
      simp only []
      rw [ih d rest hd, List.filter_cons]
      simp [hdelim]

/-- Every specified token is a maximal piece of the text: it lies in the text between a space
or tab, or the start of the text, and a space or tab, or the end of the text. -/
theorem spaceTokensSpec_maximal (l : List Char) :
    ∀ token ∈ spaceTokensSpec l, ∃ before after, l = before ++ token ++ after ∧
      (before = [] ∨ ∃ init d, before = init ++ [d] ∧ isSpaceOrTab d = true) ∧
      (after = [] ∨ ∃ d tail, after = d :: tail ∧ isSpaceOrTab d = true) := by
  induction l using spaceTokens_induction with
  | step l ih =>
    intro token hmem
    have hsplit := List.takeWhile_append_dropWhile (fun c => !isSpaceOrTab c) l
    rw [spaceTokensSpec_unfold, List.mem_append] at hmem
    rcases hmem with hmem | hmem
    · split_ifs at hmem with ht
      · cases hmem
      · rw [List.mem_singleton] at hmem
        subst hmem
        refine ⟨[], l.dropWhile (fun c => !isSpaceOrTab c), ?_, Or.inl rfl, ?_⟩
        · rw [List.nil_append, hsplit]
        · cases hd : l.dropWhile (fun c => !isSpaceOrTab c) with
          | nil => exact Or.inl rfl
          | cons d rest => exact Or.inr ⟨d, rest, rfl, head_dropWhile_isSpaceOrTab l d rest hd⟩
    · cases hd : l.dropWhile (fun c => !isSpaceOrTab c) with
      | nil => rw [hd] at hmem; cases hmem
      | cons d rest =>
        rw [hd] at hmem
        have hdelim := head_dropWhile_isSpaceOrTab l d rest hd
        obtain ⟨before, after, hrest, hbefore, hafter⟩ := ih d rest hd token hmem
        refine ⟨l.takeWhile (fun c => !isSpaceOrTab c) ++ d :: before, after, ?_, Or.inr ?_,
          hafter⟩
        · have hl : l = l.takeWhile (fun c => !isSpaceOrTab c) ++
              d :: (before ++ token ++ after) := by
            rw [← hrest, ← hd, hsplit]
          refine hl.trans ?_
          simp
        · rcases hbefore with hnil | ⟨init, e, hinit, he⟩
          · exact ⟨l.takeWhile (fun c => !isSpaceOrTab c), d, by rw [hnil], hdelim⟩
          · refine ⟨l.takeWhile (fun c => !isSpaceOrTab c) ++ d :: init, e, ?_, he⟩
            rw [hinit]
            simp

/-- The logged loop returns the tokens of the loop. -/
theorem loggedLoop_fst (text : List Char) :
    ∀ (fuel lastPos pos : Nat) (tokens : List String) (log : List TokenizeIteration),
      (_local_strSpaceTokenize.loggedLoop text fuel lastPos pos tokens log).map Prod.fst =
        _local_strSpaceTokenize.loop text fuel lastPos pos tokens := by
  intro fuel
  induction fuel with
  | zero =>
    intro lastPos pos tokens log
    rw [_local_strSpaceTokenize.loggedLoop, _local_strSpaceTokenize.loop]
    split_ifs <;> rfl
  | succ fuel ih =>
    intro lastPos pos tokens log
    rw [_local_strSpaceTokenize.loggedLoop, _local_strSpaceTokenize.loop]
    split_ifs
    · cases substr text lastPos ((pos + 2 ^ 64 - lastPos) % 2 ^ 64) with
      | none => rfl
      | some token => exact ih _ _ _ _
    · rfl

/-- A position found by `find_first_of` holds a delimiter. -/
theorem find_first_of_hit (text delims : List Char) (pos : Nat)
    (hsize : text.length < npos)
    (hlt : find_first_of text delims pos < text.length) :
    ∃ c, text[find_first_of text delims pos]? = some c ∧ delims.contains c = true := by
  simp only [find_first_of] at hlt ⊢
  split_ifs at hlt ⊢ with h1 h2
  · omega
  · have hidx : (text.drop pos).findIdx (fun c => delims.contains c) <
        (text.drop pos).length := by simpa using h2
    have hp := List.findIdx_getElem (w := hidx)
    refine ⟨(text.drop pos)[(text.drop pos).findIdx (fun c => delims.contains c)], ?_, ?_⟩
    · rw [List.getElem_drop]
      exact List.getElem?_eq_getElem _
    · simpa using hp
  · omega

/-- The specification gives at most one token for every two characters, rounded up. -/
theorem spaceTokensSpec_length_le (l : List Char) :
    (spaceTokensSpec l).length ≤ (l.length + 1) / 2 := by
  induction l using spaceTokens_induction with
  | step l ih =>
    have hlen : l.length = (l.takeWhile (fun c => !isSpaceOrTab c)).length +
        (l.dropWhile (fun c => !isSpaceOrTab c)).length := by
      rw [← List.length_append, List.takeWhile_append_dropWhile]
    rw [spaceTokensSpec_unfold, List.length_append]
    have hfirst : (if l.takeWhile (fun c => !isSpaceOrTab c) = [] then []
        else [l.takeWhile (fun c => !isSpaceOrTab c)]).length ≤
        (l.takeWhile (fun c => !isSpaceOrTab c)).length ∧
        (if l.takeWhile (fun c => !isSpaceOrTab c) = [] then []
        else [l.takeWhile (fun c => !isSpaceOrTab c)]).length ≤ 1 := by
      split_ifs with ht
      · simp
      · have := List.length_pos.2 ht
        simp only [List.length_singleton]
        omega
    cases hd : l.dropWhile (fun c => !isSpaceOrTab c) with
    | nil =>
      rw [hd] at hlen
      simp only [List.length_nil] at hlen ⊢
      omega
    | cons d rest =>
      rw [hd] at hlen
      have := ih d rest hd
      simp only [List.length_cons] at hlen ⊢
      omega

/-- The logged loop, entered at the positions computed from `start`: it returns the specified
tokens, runs its body once for each of them, and every execution makes progress. -/
theorem tokenize_loggedLoop_spec (text : List Char) (hsize : text.length < npos) :
    ∀ (fuel start : Nat) (tokens : List String) (log : List TokenizeIteration),
      text.length - start ≤ fuel →
      ∃ iterations,
        _local_strSpaceTokenize.loggedLoop text fuel (find_first_not_of text SPACE_DELIMS start)
            (find_first_of text SPACE_DELIMS (find_first_not_of text SPACE_DELIMS start))
            tokens log =
          some (tokens ++ (spaceTokensSpec (text.drop start)).map String.mk,
            log ++ iterations) ∧
        iterations.map (fun it => it.token) = spaceTokensSpec (text.drop start) ∧
        ∀ it ∈ iterations, TokenizeProgress it := by
  intro fuel
  induction fuel with
  | zero =>
    intro start tokens log hfuel
    have hle : text.length ≤ start := by omega
    have h1 : find_first_not_of text SPACE_DELIMS start = npos := by
      simp only [find_first_not_of]
      rw [if_pos hle]
    refine ⟨[], ?_, ?_, ?_⟩
    · rw [h1, find_first_of_npos text _ hsize, List.drop_eq_nil_of_le hle, spaceTokensSpec_nil]
      simp [_local_strSpaceTokenize.loggedLoop]
    · rw [List.drop_eq_nil_of_le hle, spaceTokensSpec_nil]
      rfl
    · intro it hit
      cases hit
  | succ fuel ih =>
    intro start tokens log hfuel
    rcases find_first_not_of_range text SPACE_DELIMS start with h1 | ⟨hge, hlt⟩
    · refine ⟨[], ?_, ?_, ?_⟩
      · rw [spaceTokensSpec_of_all_delims _ (find_first_not_of_none text start hsize h1)]
        rw [h1, find_first_of_npos text _ hsize]
        simp [_local_strSpaceTokenize.loggedLoop]
      · rw [spaceTokensSpec_of_all_delims _ (find_first_not_of_none text start hsize h1)]
        rfl
      · intro it hit
        cases hit
    · have hdrop := find_first_not_of_some text start hsize hlt
      obtain ⟨c, hc, hnot⟩ := find_first_not_of_hit text SPACE_DELIMS start hsize hlt
      generalize find_first_not_of text SPACE_DELIMS start = lastPos at hge hlt hdrop hc ⊢
      have hnot1 : isSpaceOrTab c = false := by rw [← contains_spaceDelims]; exact hnot
      have hhead : (text.drop lastPos).head? = some c := by
        rw [List.head?_drop]
        exact hc
      have hspec := spaceTokensSpec_token (text.drop lastPos) c hhead hnot1
      rw [← spaceTokensSpec_dropWhile (text.drop start), ← hdrop, hspec]
      have hcond : npos ≠ find_first_of text SPACE_DELIMS lastPos ∨ npos ≠ lastPos :=
        Or.inr (by omega)
      have hsub : substr text lastPos
          ((find_first_of text SPACE_DELIMS lastPos + 2 ^ 64 - lastPos) % 2 ^ 64) =
          some ((text.drop lastPos).takeWhile (fun c => !isSpaceOrTab c)) := by
        simp only [substr]
        rw [if_neg (Nat.not_lt.2 (Nat.le_of_lt hlt)), find_first_of_token text lastPos hsize]
      have hafter := find_first_of_after text SPACE_DELIMS lastPos c hc hnot
      have hfuel1 : text.length - find_first_of text SPACE_DELIMS lastPos ≤ fuel := by
        rcases hafter with h | ⟨h, -⟩
        · rw [h]
          omega
        · omega
      have hprogress : TokenizeProgress
          ⟨lastPos, find_first_of text SPACE_DELIMS lastPos,
            (text.drop lastPos).takeWhile (fun c => !isSpaceOrTab c),
            find_first_not_of text SPACE_DELIMS (find_first_of text SPACE_DELIMS lastPos),
            find_first_of text SPACE_DELIMS
              (find_first_not_of text SPACE_DELIMS (find_first_of text SPACE_DELIMS lastPos))⟩ := by
        simp only [TokenizeProgress]
        rcases hafter with h | ⟨h, h'⟩
        · left
          rw [h, find_first_not_of_npos text _ hsize, find_first_of_npos text _ hsize]
          exact ⟨rfl, rfl⟩
        · rcases find_first_not_of_range text SPACE_DELIMS
            (find_first_of text SPACE_DELIMS lastPos) with h2 | ⟨h2, h3⟩
          · left
            rw [h2, find_first_of_npos text _ hsize]
            exact ⟨rfl, rfl⟩
          · right
            obtain ⟨d, hd, hdelim⟩ := find_first_of_hit text SPACE_DELIMS lastPos hsize h'
            obtain ⟨e, he, hnodelim⟩ := find_first_not_of_hit text SPACE_DELIMS
              (find_first_of text SPACE_DELIMS lastPos) hsize h3
            have hne : find_first_of text SPACE_DELIMS lastPos ≠
                find_first_not_of text SPACE_DELIMS (find_first_of text SPACE_DELIMS lastPos) := by
              intro heq
              rw [← heq, hd] at he
              injection he with he
              rw [he, hnodelim] at hdelim
              cases hdelim
            have htoken : ((text.drop lastPos).takeWhile (fun c => !isSpaceOrTab c)).length =
                find_first_of text SPACE_DELIMS lastPos - lastPos := by
              rw [← find_first_of_token text lastPos hsize, List.length_take, List.length_drop]
              simp only [npos] at hsize
              omega
            rw [htoken]
            omega
      obtain ⟨iterations, hrun, hcount, hall⟩ := ih (find_first_of text SPACE_DELIMS lastPos)
        (tokens ++ [String.mk ((text.drop lastPos).takeWhile (fun c => !isSpaceOrTab c))])
        (log ++ [⟨lastPos, find_first_of text SPACE_DELIMS lastPos,
            (text.drop lastPos).takeWhile (fun c => !isSpaceOrTab c),
            find_first_not_of text SPACE_DELIMS (find_first_of text SPACE_DELIMS lastPos),
            find_first_of text SPACE_DELIMS
              (find_first_not_of text SPACE_DELIMS (find_first_of text SPACE_DELIMS lastPos))⟩])
        hfuel1
      refine ⟨(⟨lastPos, find_first_of text SPACE_DELIMS lastPos,
          (text.drop lastPos).takeWhile (fun c => !isSpaceOrTab c),
          find_first_not_of text SPACE_DELIMS (find_first_of text SPACE_DELIMS lastPos),
          find_first_of text SPACE_DELIMS
            (find_first_not_of text SPACE_DELIMS (find_first_of text SPACE_DELIMS lastPos))⟩ :
          TokenizeIteration) :: iterations, ?_, ?_, ?_⟩
      · rw [_local_strSpaceTokenize.loggedLoop]
        simp only [hcond, if_true, hsub]
        rw [hrun, find_first_of_rest text lastPos hsize]
        simp
      · rw [find_first_of_rest text lastPos hsize] at hcount
        simp only [List.map_cons, hcount]
      · intro it hit
        rcases List.mem_cons.1 hit with rfl | hit
        · exact hprogress
        · exact hall it hit

/-! ## Helper lemmas on `AIKillReloadActionExecutor::Execute` -/

theorem killReloadStep_pass {v w : KillReloadLocals} (h : KillReloadStep v w)
    (hb : w.badArgs = false) : w = v := by
  rcases h with h | ⟨line, h⟩
  · exact h
  · rw [h] at hb; cases hb

theorem killReloadStep_onlyLogs {v w : KillReloadLocals} (h : KillReloadStep v w)
    (hl : OnlyLogs v.effects) : OnlyLogs w.effects := by
  rcases h with h | ⟨line, h⟩
  · rw [h]; exact hl
  · rw [h]; exact onlyLogs_append_log _ _ hl

theorem killReloadStep_bad {v w : KillReloadLocals} (h : KillReloadStep v w)
    (hb : v.badArgs = true) : w.badArgs = true := by
  rcases h with h | ⟨line, h⟩
  · rw [h]; exact hb
  · rw [h]

theorem kr_luaCheck_ok (env : GameEnv) (v w : KillReloadLocals)
    (h : AIKillReloadActionExecutor.luaCheck env v = .ok w) :
    KillReloadStep v w ∧
      (w.badArgs = false →
        ∃ aiData, env.GetSkirmishAI v.skirmishAIId = some aiData ∧ aiData.isLuaAI = false) := by
  simp only [AIKillReloadActionExecutor.luaCheck] at h
  split at h
  · split at h
    · simp at h
    · rename_i aiData hget
      split at h
      · injection h with h; subst h
        exact ⟨Or.inr ⟨_, rfl⟩, fun hb => by simp at hb⟩
      · rename_i hlua
        injection h with h; subst h
        exact ⟨Or.inl rfl, fun _ => ⟨aiData, hget, by simpa using hlua⟩⟩
  · rename_i hb
    injection h with h; subst h
    exact ⟨Or.inl rfl, fun hb' => by simp [hb'] at hb⟩

theorem kr_luaCheck_error (env : GameEnv) (v : KillReloadLocals) (fault : Fault)
    (effects : List Effect)
    (h : AIKillReloadActionExecutor.luaCheck env v = .error (fault, effects)) :
    effects = v.effects := by
  simp only [AIKillReloadActionExecutor.luaCheck] at h
  split at h
  · split at h
    · injection h with h; injection h with _ h; exact h.symm
    · split at h <;> simp at h
  · simp at h

theorem kr_permissionCheck_ok (env : GameEnv) (fromPlayer : Option CPlayer) (fromTeamId : Int)
    (cheating singlePlayer : Bool) (v w : KillReloadLocals)
    (h : AIKillReloadActionExecutor.permissionCheck env fromPlayer fromTeamId cheating
      singlePlayer v = .ok w) :
    KillReloadStep v w ∧
      (w.badArgs = false →
        ∃ aiData teamToKill, env.GetSkirmishAI v.skirmishAIId = some aiData ∧
          v.teamToKill = some teamToKill ∧
          (decide (aiData.hostPlayer = env.myPlayerNum) ||
            decide (teamToKill.GetLeader = env.myPlayerNum) || singlePlayer ||
            (env.AlliedTeams fromTeamId v.teamToKillId && cheating)) = true) := by
  simp only [AIKillReloadActionExecutor.permissionCheck] at h
  split at h
  · split at h
    · simp at h
    · rename_i aiData hget
      split at h
      · simp at h
      · rename_i teamToKill hteam
        split at h
        · split at h
          · simp at h
          · injection h with h; subst h
            exact ⟨Or.inr ⟨_, rfl⟩, fun hb => by simp at hb⟩
        · rename_i hperm
          injection h with h; subst h
          rw [Bool.not_eq_true'] at hperm
          exact ⟨Or.inl rfl, fun _ =>
            ⟨aiData, teamToKill, hget, hteam, Bool.eq_true_of_not_eq_false hperm⟩⟩
  · rename_i hb
    injection h with h; subst h
    exact ⟨Or.inl rfl, fun hb' => by simp [hb'] at hb⟩

theorem kr_permissionCheck_error (env : GameEnv) (fromPlayer : Option CPlayer)
    (fromTeamId : Int) (cheating singlePlayer : Bool) (v : KillReloadLocals) (fault : Fault)
    (effects : List Effect)
    (h : AIKillReloadActionExecutor.permissionCheck env fromPlayer fromTeamId cheating
      singlePlayer v = .error (fault, effects)) :
    effects = v.effects := by
  simp only [AIKillReloadActionExecutor.permissionCheck] at h
  split at h
  · split at h
    · injection h with h; injection h with _ h; exact h.symm
    · split at h
      · injection h with h; injection h with _ h; exact h.symm
      · split at h
        · split at h
          · injection h with h; injection h with _ h; exact h.symm
          · simp at h
        · simp at h
  · simp at h

theorem kr_deadCheck_ok (v w : KillReloadLocals)
    (h : AIKillReloadActionExecutor.deadCheck v = .ok w) :
    KillReloadStep v w ∧
      (w.badArgs = false →
        ∃ teamToKill, v.teamToKill = some teamToKill ∧ teamToKill.isDead = false) := by
  simp only [AIKillReloadActionExecutor.deadCheck] at h
  split at h
  · split at h
    · simp at h
    · rename_i teamToKill hteam
      split at h
      · injection h with h; subst h
        exact ⟨Or.inr ⟨_, rfl⟩, fun hb => by simp at hb⟩
      · rename_i hdead
        injection h with h; subst h
        exact ⟨Or.inl rfl, fun _ => ⟨teamToKill, hteam, by simpa using hdead⟩⟩
  · rename_i hb
    injection h with h; subst h
    exact ⟨Or.inl rfl, fun hb' => by simp [hb'] at hb⟩

theorem kr_deadCheck_error (v : KillReloadLocals) (fault : Fault) (effects : List Effect)
    (h : AIKillReloadActionExecutor.deadCheck v = .error (fault, effects)) :
    effects = v.effects := by
  simp only [AIKillReloadActionExecutor.deadCheck] at h
  split at h
  · split at h
    · injection h with h; injection h with _ h; exact h.symm
    · split at h <;> simp at h
  · simp at h

/-- What `selectAI` leaves behind when it does not set `badArgs`: nothing is logged, the
team is active and the chosen id is the first local Skirmish AI of the team. -/
theorem selectAI_pass (kill : Bool) (env : GameEnv) (args : List String)
    (hb : (AIKillReloadActionExecutor.selectAI kill env args).badArgs = false) :
    (AIKillReloadActionExecutor.selectAI kill env args).effects = [] ∧
      (AIKillReloadActionExecutor.selectAI kill env args).share =
        (decide (2 ≤ args.length) && kill) ∧
      (AIKillReloadActionExecutor.selectAI kill env args).teamToKillId = atoi (args.getD 0 "") ∧
      (AIKillReloadActionExecutor.selectAI kill env args).teamToReceiveUnitsId =
        (if (decide (2 ≤ args.length) && kill) = true then atoi (args.getD 1 "") else -1) ∧
      (AIKillReloadActionExecutor.selectAI kill env args).teamToKill =
        some (env.Team (atoi (args.getD 0 ""))) ∧
      env.IsActiveTeam (atoi (args.getD 0 "")) = true ∧
      ((decide (2 ≤ args.length) && kill) = true →
        env.IsActiveTeam (atoi (args.getD 1 "")) = true) ∧
      env.GetSkirmishAIsInTeam (atoi (args.getD 0 "")) (-1) ≠ [] ∧
      ∃ rest, env.GetSkirmishAIsInTeam (atoi (args.getD 0 "")) env.myPlayerNum =
        (AIKillReloadActionExecutor.selectAI kill env args).skirmishAIId :: rest := by
  simp only [AIKillReloadActionExecutor.selectAI] at hb ⊢
  generalize atoi (args.getD 0 "") = t0 at hb ⊢
  generalize atoi (args.getD 1 "") = t1 at hb ⊢
  generalize (decide (2 ≤ args.length) && kill) = share at hb ⊢
  cases share <;> cases h0 : env.IsActiveTeam t0 <;> cases h1 : env.IsActiveTeam t1 <;>
    cases hm : env.IsActiveTeam (-1) <;>
    rcases hl : env.GetSkirmishAIsInTeam t0 (-1) with _ | ⟨a, as⟩ <;>
    rcases hlist : env.GetSkirmishAIsInTeam t0 env.myPlayerNum with _ | ⟨id, rest⟩ <;>
    simp_all

theorem killReload_usage_true (kill : Bool) :
    AIKillReloadActionExecutor.usage kill true =
      [Effect.log (if kill then LogLine.usageKill else LogLine.usageReload)] := by
  cases kill <;> rfl

/-- A validated command runs to the end: the effects are those of lines 677-693. -/
theorem killReload_validated_run (kill : Bool) (env : GameEnv) (actionArgs : String)
    (args : List String) (htok : _local_strSpaceTokenize actionArgs = some args)
    (hval : AIKillReloadActionExecutor.Validated kill env args) :
    AIKillReloadActionExecutor.Execute kill env actionArgs =
      .ok (AIKillReloadActionExecutor.act kill env
        (AIKillReloadActionExecutor.selectAI kill env args)).effects := by
  obtain ⟨hargs, hb, aiData, teamToKill, hget, hlua, hteam, hperm, hdead⟩ := hval
  have hempty : args.isEmpty = false := by
    cases args with
    | nil => exact absurd rfl hargs
    | cons a as => rfl
  simp only [GameEnv.fromTeamId] at hperm
  simp only [AIKillReloadActionExecutor.Execute, htok, hempty, Bool.not_false, if_true]
  generalize AIKillReloadActionExecutor.selectAI kill env args = v0 at hb hget hteam hperm ⊢
  have h1 : AIKillReloadActionExecutor.luaCheck env v0 = .ok v0 := by
    simp [AIKillReloadActionExecutor.luaCheck, hb, hget, hlua]
  have h2 : AIKillReloadActionExecutor.permissionCheck env (env.Player env.myPlayerNum)
      (match env.Player env.myPlayerNum with
        | some player => player.team
        | none => -1)
      env.cheatEnabled (decide (env.ActivePlayers ≤ 1)) v0 = .ok v0 := by
    simp only [AIKillReloadActionExecutor.permissionCheck, hb, hget, hteam, hperm]
    simp
  have h3 : AIKillReloadActionExecutor.deadCheck v0 = .ok v0 := by
    simp [AIKillReloadActionExecutor.deadCheck, hb, hteam, hdead]
  have h4 : (AIKillReloadActionExecutor.act kill env v0).badArgs = false := by
    simp [AIKillReloadActionExecutor.act, hb]
  simp only [h1, h2, h3, h4, bind, Except.bind, pure, Except.pure,
    AIKillReloadActionExecutor.usage, Bool.false_eq_true, if_false, List.append_nil]

/-- Every run of `AIKillReloadActionExecutor::Execute` is of one of two kinds: it only logs,
and prints the usage if it gets to the end; or its arguments are validated. -/
theorem killReload_run_cases (kill : Bool) (env : GameEnv) (actionArgs : String) :
    (OnlyLogs (AIKillReloadActionExecutor.Execute kill env actionArgs).effects ∧
      ∀ effects, AIKillReloadActionExecutor.Execute kill env actionArgs = .ok effects →
        Effect.log (if kill then LogLine.usageKill else LogLine.usageReload) ∈ effects) ∨
    ∃ args, _local_strSpaceTokenize actionArgs = some args ∧
      AIKillReloadActionExecutor.Validated kill env args := by
  rcases htok : _local_strSpaceTokenize actionArgs with _ | args
  · left
    simp only [AIKillReloadActionExecutor.Execute, htok, Trace.effects]
    exact ⟨onlyLogs_nil, fun effects h => by cases h⟩
  · by_cases hempty : args.isEmpty = true
    · left
      simp only [AIKillReloadActionExecutor.Execute, htok, hempty, Bool.not_true,
        Bool.false_eq_true, if_false, Trace.effects, killReload_usage_true]
      refine ⟨onlyLogs_append_log _ _ (onlyLogs_append_log _ _ onlyLogs_nil), ?_⟩
      intro effects h
      injection h with h
      rw [← h]
      simp
    · have hargs : args ≠ [] := by
        intro h0; rw [h0] at hempty; exact hempty rfl
      have hlogs0 := selectAI_onlyLogs kill env args
      by_cases hval : AIKillReloadActionExecutor.Validated kill env args
      · exact Or.inr ⟨args, rfl, hval⟩
      · left
        simp only [AIKillReloadActionExecutor.Validated, GameEnv.fromTeamId] at hval
        simp only [AIKillReloadActionExecutor.Execute, htok, hempty, Bool.not_false,
          Bool.false_eq_true, if_true, Bool.not_eq_true]
        generalize AIKillReloadActionExecutor.selectAI kill env args = v0 at hlogs0 hval ⊢
        rcases h1 : AIKillReloadActionExecutor.luaCheck env v0 with ⟨fault, l⟩ | v1
        · have hl := kr_luaCheck_error _ _ _ _ h1
          subst hl
          simp only [bind, Except.bind, Trace.effects]
          exact ⟨hlogs0, fun effects h => by cases h⟩
        · obtain ⟨s1, c1⟩ := kr_luaCheck_ok _ _ _ h1
          have hlogs1 := killReloadStep_onlyLogs s1 hlogs0
          simp only [bind, Except.bind]
          rcases h2 : AIKillReloadActionExecutor.permissionCheck env (env.Player env.myPlayerNum)
              (match env.Player env.myPlayerNum with
                | some player => player.team
                | none => -1)
              env.cheatEnabled (decide (env.ActivePlayers ≤ 1)) v1 with ⟨fault, l⟩ | v2
          · have hl := kr_permissionCheck_error _ _ _ _ _ _ _ _ h2
            subst hl
            simp only [Trace.effects]
            exact ⟨hlogs1, fun effects h => by cases h⟩
          · obtain ⟨s2, c2⟩ := kr_permissionCheck_ok _ _ _ _ _ _ _ h2
            have hlogs2 := killReloadStep_onlyLogs s2 hlogs1
            simp only []
            rcases h3 : AIKillReloadActionExecutor.deadCheck v2 with ⟨fault, l⟩ | v3
            · have hl := kr_deadCheck_error _ _ _ h3
              subst hl
              simp only [Trace.effects]
              exact ⟨hlogs2, fun effects h => by cases h⟩
            · obtain ⟨s3, c3⟩ := kr_deadCheck_ok _ _ h3
              have hlogs3 := killReloadStep_onlyLogs s3 hlogs2
              have hb3 : v3.badArgs = true := by
                by_contra hb
                have hb' : v3.badArgs = false := by simpa using hb
                have e3 := killReloadStep_pass s3 hb'
                subst e3
                have e2 := killReloadStep_pass s2 hb'
                subst e2
                have e1 := killReloadStep_pass s1 hb'
                subst e1
                obtain ⟨aiData, hget, hlua⟩ := c1 hb'
                obtain ⟨aiData2, teamToKill, hget2, hteam, hperm⟩ := c2 hb'
                obtain ⟨teamToKill3, hteam3, hdead⟩ := c3 hb'
                rw [hget] at hget2
                injection hget2 with hget2
                subst hget2
                rw [hteam] at hteam3
                injection hteam3 with hteam3
                subst hteam3
                exact hval ⟨hargs, hb', aiData, teamToKill, hget, hlua, hteam, hperm, hdead⟩
              have hact : AIKillReloadActionExecutor.act kill env v3 = v3 := by
                simp [AIKillReloadActionExecutor.act, hb3]
              simp only [hact, hb3, pure, Except.pure, Trace.effects, killReload_usage_true]
              refine ⟨onlyLogs_append_log _ _ hlogs3, ?_⟩
              intro effects h
              injection h with h
              rw [← h]
              simp

/-- The effects of lines 677-693 when they are reached with nothing logged before. -/
theorem act_effects (kill : Bool) (env : GameEnv) (v : KillReloadLocals)
    (hb : v.badArgs = false) (he : v.effects = []) :
    (AIKillReloadActionExecutor.act kill env v).effects =
      (if kill = true then
        if v.share = true then
          [Effect.SendGiveAwayEverything env.myPlayerNum v.teamToReceiveUnitsId v.teamToKillId]
        else if env.IsLocalSkirmishAI v.skirmishAIId = true then
          [Effect.SetLocalKillFlag v.skirmishAIId 3]
        else []
      else [Effect.SendAIStateChangedReloading env.myPlayerNum v.skirmishAIId]) ++
        [Effect.log LogLine.beeingKilledOrReloaded] := by
  simp only [AIKillReloadActionExecutor.act, hb, he, Bool.not_false, if_true]
  split_ifs <;> simp

/-! ## Helper lemmas on `AIControlActionExecutor::Execute` -/

theorem controlCheck_pass {v w : ControlLocals} (h : ControlCheck v w)
    (hb : w.badArgs = false) : w = v := by
  rcases h with h | ⟨line, h⟩
  · exact h
  · rw [h] at hb; cases hb

theorem controlCheck_onlyLogs {v w : ControlLocals} (h : ControlCheck v w)
    (hl : OnlyLogs v.effects) : OnlyLogs w.effects := by
  rcases h with h | ⟨line, h⟩
  · rw [h]; exact hl
  · rw [h]; exact onlyLogs_append_log _ _ hl

theorem c_permissionCheck_ok (env : GameEnv) (fromPlayer : Option CPlayer) (fromTeamId : Int)
    (cheating singlePlayer : Bool) (v w : ControlLocals)
    (h : AIControlActionExecutor.permissionCheck env fromPlayer fromTeamId cheating singlePlayer v
      = .ok w) :
    ControlCheck v w ∧
      (w.badArgs = false →
        ∃ teamToControl, v.teamToControl = some teamToControl ∧
          (decide (teamToControl.GetLeader = env.myPlayerNum) || singlePlayer ||
            (env.AlliedTeams fromTeamId v.teamToControlId &&
              (cheating || !teamToControl.HasLeader))) = true) := by
  simp only [AIControlActionExecutor.permissionCheck] at h
  split at h
  · split at h
    · simp at h
    · rename_i teamToControl hteam
      split at h
      · split at h
        · simp at h
        · injection h with h; subst h
          exact ⟨Or.inr ⟨_, rfl⟩, fun hb => by simp at hb⟩
      · rename_i hperm
        injection h with h; subst h
        rw [Bool.not_eq_true'] at hperm
        exact ⟨Or.inl rfl, fun _ => ⟨teamToControl, hteam, Bool.eq_true_of_not_eq_false hperm⟩⟩
  · rename_i hb
    injection h with h; subst h
    exact ⟨Or.inl rfl, fun hb' => by simp [hb'] at hb⟩

theorem c_deadCheck_ok (v w : ControlLocals)
    (h : AIControlActionExecutor.deadCheck v = .ok w) :
    ControlCheck v w ∧
      (w.badArgs = false →
        ∃ teamToControl, v.teamToControl = some teamToControl ∧ teamToControl.isDead = false) := by
  simp only [AIControlActionExecutor.deadCheck] at h
  split at h
  · split at h
    · simp at h
    · rename_i teamToControl hteam
      split at h
      · injection h with h; subst h
        exact ⟨Or.inr ⟨_, rfl⟩, fun hb => by simp at hb⟩
      · rename_i hdead
        injection h with h; subst h
        exact ⟨Or.inl rfl, fun _ => ⟨teamToControl, hteam, by simpa using hdead⟩⟩
  · rename_i hb
    injection h with h; subst h
    exact ⟨Or.inl rfl, fun hb' => by simp [hb'] at hb⟩

theorem c_controlledCheck (env : GameEnv) (v : ControlLocals) :
    ControlCheck v (AIControlActionExecutor.controlledCheck env v) ∧
      ((AIControlActionExecutor.controlledCheck env v).badArgs = false →
        env.GetSkirmishAIsInTeam v.teamToControlId (-1) = []) := by
  unfold AIControlActionExecutor.controlledCheck
  split
  · exact ⟨Or.inr ⟨_, rfl⟩, fun hb => by simp at hb⟩
  · rename_i hc
    refine ⟨Or.inl rfl, fun hb => ?_⟩
    simpa [hb, List.isEmpty_iff] using hc

theorem c_inCreationCheck (env : GameEnv) (v : ControlLocals) :
    ControlCheck v (AIControlActionExecutor.inCreationCheck env v) ∧
      ((AIControlActionExecutor.inCreationCheck env v).badArgs = false →
        env.GetLocalSkirmishAIInCreation v.teamToControlId = none) := by
  unfold AIControlActionExecutor.inCreationCheck
  split
  · exact ⟨Or.inr ⟨_, rfl⟩, fun hb => by simp at hb⟩
  · rename_i hc
    refine ⟨Or.inl rfl, fun hb => ?_⟩
    simpa [hb] using hc

theorem c_luaCheck (env : GameEnv) (v : ControlLocals) :
    ControlCheck v (AIControlActionExecutor.luaCheck env v) ∧
      ((AIControlActionExecutor.luaCheck env v).badArgs = false →
        env.GetLuaAIImplShortNames.contains v.aiShortName = false) := by
  unfold AIControlActionExecutor.luaCheck
  split
  · split
    · exact ⟨Or.inr ⟨_, rfl⟩, fun hb => by simp at hb⟩
    · rename_i hc
      exact ⟨Or.inl rfl, fun _ => by simpa using hc⟩
  · rename_i hb
    exact ⟨Or.inl rfl, fun hb' => by simp [hb'] at hb⟩

/-- The three ways in which lines 801-825 end without a fault. -/
theorem c_create_ok (env : GameEnv) (v w : ControlLocals)
    (h : AIControlActionExecutor.create env v = .ok w) :
    (v.badArgs = true ∧ w = v) ∨
    (v.badArgs = false ∧
      env.IsUnspecified (env.ResolveSkirmishAIKey
        { shortName := v.aiShortName, version := v.aiVersion }) = true ∧
      w = { v with badArgs := true,
                   effects := v.effects ++ [Effect.log LogLine.notAValidSkirmishAI] }) ∨
    (v.badArgs = false ∧
      env.IsUnspecified (env.ResolveSkirmishAIKey
        { shortName := v.aiShortName, version := v.aiVersion }) = false ∧
      ∃ aiLibInfo, env.GetSkirmishAIInfos (env.ResolveSkirmishAIKey
          { shortName := v.aiShortName, version := v.aiVersion }) = some aiLibInfo ∧
        w = { v with badArgs := false,
                     effects := v.effects ++ [Effect.CreateLocalSkirmishAI
                       (AIControlActionExecutor.makeAIData env v aiLibInfo)] }) := by
  simp only [AIControlActionExecutor.create] at h
  split at h
  · rename_i hb
    have hb' : v.badArgs = false := by simpa using hb
    split at h
    · rename_i hun
      injection h with h; subst h
      exact Or.inr (Or.inl ⟨hb', hun, rfl⟩)
    · rename_i hun
      split at h
      · simp at h
      · rename_i aiLibInfo hinfo
        injection h with h; subst h
        exact Or.inr (Or.inr ⟨hb', by simpa using hun, aiLibInfo, hinfo, rfl⟩)
  · rename_i hb
    injection h with h; subst h
    exact Or.inl ⟨by simpa using hb, rfl⟩

/-- An accepted command runs to the end: after what `readArgs` logged, the only effect is the
call of `CreateLocalSkirmishAI`. -/
theorem control_accepted_run (env : GameEnv) (actionArgs : String) (args : List String)
    (aiLibInfo : CSkirmishAILibraryInfo)
    (htok : _local_strSpaceTokenize actionArgs = some args)
    (hacc : AIControlActionExecutor.Accepted env args aiLibInfo) :
    AIControlActionExecutor.Execute env actionArgs =
      .ok ((AIControlActionExecutor.readArgs env args).effects ++
        [Effect.CreateLocalSkirmishAI
          (AIControlActionExecutor.makeAIData env (AIControlActionExecutor.readArgs env args)
            aiLibInfo)]) := by
  obtain ⟨hargs, hb, teamToControl, hteam, hperm, hdead, hfree, hpend, hlua, hspec, hinfo⟩ := hacc
  have hempty : args.isEmpty = false := by
    cases args with
    | nil => exact absurd rfl hargs
    | cons a as => rfl
  simp only [GameEnv.fromTeamId] at hperm
  simp only [AIControlActionExecutor.Execute, htok, hempty, Bool.not_false, if_true]
  generalize AIControlActionExecutor.readArgs env args = v0 at hb hteam hperm hfree hpend hlua hspec hinfo ⊢
  have h1 : AIControlActionExecutor.permissionCheck env (env.Player env.myPlayerNum)
      (match env.Player env.myPlayerNum with
        | some player => player.team
        | none => -1)
      env.cheatEnabled (decide (env.ActivePlayers ≤ 1)) v0 = .ok v0 := by
    simp only [AIControlActionExecutor.permissionCheck, hb, hteam, hperm]
    simp
  have h2 : AIControlActionExecutor.deadCheck v0 = .ok v0 := by
    simp [AIControlActionExecutor.deadCheck, hb, hteam, hdead]
  have h3 : AIControlActionExecutor.controlledCheck env v0 = v0 := by
    simp [AIControlActionExecutor.controlledCheck, hb, hfree]
  have h4 : AIControlActionExecutor.inCreationCheck env v0 = v0 := by
    simp [AIControlActionExecutor.inCreationCheck, hb, hpend]
  have h5 : AIControlActionExecutor.luaCheck env v0 = v0 := by
    simp only [AIControlActionExecutor.luaCheck, hb, hlua]
    simp
  have h6 : AIControlActionExecutor.create env v0 =
      .ok { v0 with
        badArgs := false
        effects := v0.effects ++
          [Effect.CreateLocalSkirmishAI (AIControlActionExecutor.makeAIData env v0 aiLibInfo)] } := by
    simp only [AIControlActionExecutor.create, hb, hspec, hinfo]
    simp
  simp only [h1, h2, h3, h4, h5, h6, bind, Except.bind, pure, Except.pure,
    AIControlActionExecutor.usage, Bool.false_eq_true, if_false, List.append_nil]

/-- Every run of `AIControlActionExecutor::Execute` is of one of two kinds: it only logs, and
prints the usage if it gets to the end; or its arguments are accepted. -/
theorem control_run_cases (env : GameEnv) (actionArgs : String) :
    (OnlyLogs (AIControlActionExecutor.Execute env actionArgs).effects ∧
      ∀ effects, AIControlActionExecutor.Execute env actionArgs = .ok effects →
        Effect.log LogLine.usageControl ∈ effects) ∨
    ∃ args aiLibInfo, _local_strSpaceTokenize actionArgs = some args ∧
      AIControlActionExecutor.Accepted env args aiLibInfo := by
  rcases htok : _local_strSpaceTokenize actionArgs with _ | args
  · left
    simp only [AIControlActionExecutor.Execute, htok, Trace.effects]
    exact ⟨onlyLogs_nil, fun effects h => by cases h⟩
  · by_cases hempty : args.isEmpty = true
    · left
      simp only [AIControlActionExecutor.Execute, htok, hempty, Bool.not_true,
        Bool.false_eq_true, if_false, Trace.effects, AIControlActionExecutor.usage, if_true]
      refine ⟨onlyLogs_append_log _ _ (onlyLogs_append_log _ _ onlyLogs_nil), ?_⟩
      intro effects h
      injection h with h
      rw [← h]
      simp
    · have hargs : args ≠ [] := by
        intro h0; rw [h0] at hempty; exact hempty rfl
      have hlogs0 := (readArgs_effects env args).2
      by_cases hacc : ∃ aiLibInfo, AIControlActionExecutor.Accepted env args aiLibInfo
      · obtain ⟨aiLibInfo, hacc⟩ := hacc
        exact Or.inr ⟨args, aiLibInfo, rfl, hacc⟩
      · left
        simp only [AIControlActionExecutor.Accepted, GameEnv.fromTeamId] at hacc
        simp only [AIControlActionExecutor.Execute, htok, hempty, Bool.not_false,
          Bool.false_eq_true, if_true, Bool.not_eq_true]
        generalize AIControlActionExecutor.readArgs env args = v0 at hlogs0 hacc ⊢
        rcases h1 : AIControlActionExecutor.permissionCheck env (env.Player env.myPlayerNum)
            (match env.Player env.myPlayerNum with
              | some player => player.team
              | none => -1)
            env.cheatEnabled (decide (env.ActivePlayers ≤ 1)) v0 with ⟨fault, l⟩ | v1
        · have hl := control_permissionCheck_error _ _ _ _ _ _ _ _ h1
          subst hl
          simp only [bind, Except.bind, Trace.effects]
          exact ⟨hlogs0, fun effects h => by cases h⟩
        · obtain ⟨s1, c1⟩ := c_permissionCheck_ok _ _ _ _ _ _ _ h1
          have hlogs1 := controlCheck_onlyLogs s1 hlogs0
          simp only [bind, Except.bind]
          rcases h2 : AIControlActionExecutor.deadCheck v1 with ⟨fault, l⟩ | v2
          · have hl := control_deadCheck_error _ _ _ h2
            subst hl
            simp only [Trace.effects]
            exact ⟨hlogs1, fun effects h => by cases h⟩
          · obtain ⟨s2, c2⟩ := c_deadCheck_ok _ _ h2
            have hlogs2 := controlCheck_onlyLogs s2 hlogs1
            obtain ⟨s3, c3⟩ := c_controlledCheck env v2
            have hlogs3 := controlCheck_onlyLogs s3 hlogs2
            obtain ⟨s4, c4⟩ := c_inCreationCheck env (AIControlActionExecutor.controlledCheck env v2)
            have hlogs4 := controlCheck_onlyLogs s4 hlogs3
            obtain ⟨s5, c5⟩ := c_luaCheck env
              (AIControlActionExecutor.inCreationCheck env
                (AIControlActionExecutor.controlledCheck env v2))
            have hlogs5 := controlCheck_onlyLogs s5 hlogs4
            simp only []
            generalize hv3 : AIControlActionExecutor.controlledCheck env v2 = v3 at *
            generalize hv4 : AIControlActionExecutor.inCreationCheck env v3 = v4 at *
            generalize hv5 : AIControlActionExecutor.luaCheck env v4 = v5 at *
            rcases h6 : AIControlActionExecutor.create env v5 with ⟨fault, l⟩ | v6
            · have hl := control_create_error _ _ _ _ h6
              subst hl
              simp only [Trace.effects]
              exact ⟨hlogs5, fun effects h => by cases h⟩
            · simp only [pure, Except.pure, Trace.effects]
              rcases c_create_ok env v5 v6 h6 with ⟨hb5, e6⟩ | ⟨hb5, hun, e6⟩ |
                ⟨hb5, hun, aiLibInfo, hinfo, e6⟩
              · subst e6
                simp only [hb5, AIControlActionExecutor.usage, if_true]
                refine ⟨onlyLogs_append_log _ _ hlogs5, fun effects h => ?_⟩
                injection h with h
                rw [← h]
                simp
              · subst e6
                simp only [AIControlActionExecutor.usage, if_true]
                refine ⟨onlyLogs_append_log _ _ (onlyLogs_append_log _ _ hlogs5),
                  fun effects h => ?_⟩
                injection h with h
                rw [← h]
                simp
              · exfalso
                have e5 := controlCheck_pass s5 hb5
                subst e5
                have e4 := controlCheck_pass s4 hb5
                subst e4
                have e3 := controlCheck_pass s3 hb5
                subst e3
                have e2 := controlCheck_pass s2 hb5
                subst e2
                have e1 := controlCheck_pass s1 hb5
                subst e1
                obtain ⟨teamToControl, hteam, hperm⟩ := c1 hb5
                obtain ⟨teamToControl2, hteam2, hdead⟩ := c2 hb5
                rw [hteam] at hteam2
                injection hteam2 with hteam2
                subst hteam2
                exact hacc ⟨aiLibInfo, hargs, hb5, teamToControl, hteam, hperm, hdead, c3 hb5,
                  c4 hb5, c5 hb5, hun, hinfo⟩

/-- What `readArgs` stores: the first four arguments, each empty when it is missing, no
options, and the team if it is active. -/
theorem readArgs_fields (env : GameEnv) (args : List String) :
    (AIControlActionExecutor.readArgs env args).aiShortName = args.getD 1 "" ∧
      (AIControlActionExecutor.readArgs env args).aiVersion = args.getD 2 "" ∧
      (AIControlActionExecutor.readArgs env args).aiName = args.getD 3 "" ∧
      (AIControlActionExecutor.readArgs env args).aiOptions = [] ∧
      (AIControlActionExecutor.readArgs env args).teamToControlId = atoi (args.getD 0 "") ∧
      (AIControlActionExecutor.readArgs env args).teamToControl =
        (if env.IsActiveTeam (atoi (args.getD 0 "")) = true then
          some (env.Team (atoi (args.getD 0 ""))) else none) := by
  have h1 : (if 2 ≤ args.length then args.getD 1 "" else "") = args.getD 1 "" := by
    split
    · rfl
    · rename_i h
      rw [List.getD_eq_default _ _ (by omega)]
  have h2 : (if 3 ≤ args.length then args.getD 2 "" else "") = args.getD 2 "" := by
    split
    · rfl
    · rename_i h
      rw [List.getD_eq_default _ _ (by omega)]
  have h3 : (if 4 ≤ args.length then args.getD 3 "" else "") = args.getD 3 "" := by
    split
    · rfl
    · rename_i h
      rw [List.getD_eq_default _ _ (by omega)]
  simp only [AIControlActionExecutor.readArgs, h1, h2, h3]
  split <;> exact ⟨rfl, rfl, rfl, rfl, rfl, rfl⟩

/-- Every call of `CreateLocalSkirmishAI` comes from an accepted command and hands over the
record of lines 810-821. -/
theorem control_create_inv (env : GameEnv) (actionArgs : String) (aiData : SkirmishAIData)
    (hcall : Effect.CreateLocalSkirmishAI aiData ∈
      (AIControlActionExecutor.Execute env actionArgs).effects) :
    ∃ args aiLibInfo, _local_strSpaceTokenize actionArgs = some args ∧
      AIControlActionExecutor.Accepted env args aiLibInfo ∧
      aiData = AIControlActionExecutor.makeAIData env
        (AIControlActionExecutor.readArgs env args) aiLibInfo := by
  rcases control_run_cases env actionArgs with ⟨hlogs, -⟩ | ⟨args, aiLibInfo, htok, hacc⟩
  · obtain ⟨line, hline⟩ := hlogs _ hcall
    cases hline
  · rw [control_accepted_run env actionArgs args aiLibInfo htok hacc] at hcall
    simp only [Trace.effects] at hcall
    rcases List.mem_append.1 hcall with h | h
    · obtain ⟨line, hline⟩ := (readArgs_effects env args).2 _ h
      cases hline
    · rw [List.mem_singleton] at h
      injection h with h
      exact ⟨args, aiLibInfo, htok, hacc, h⟩

/-- A command that is not accepted calls `CreateLocalSkirmishAI` in no run and prints the
usage in every run that gets to the end. -/
theorem control_rejected (env : GameEnv) (actionArgs : String)
    (hrej : ∀ args aiLibInfo, _local_strSpaceTokenize actionArgs = some args →
      ¬ AIControlActionExecutor.Accepted env args aiLibInfo) :
    (∀ aiData, Effect.CreateLocalSkirmishAI aiData ∉
        (AIControlActionExecutor.Execute env actionArgs).effects) ∧
      ∀ effects, AIControlActionExecutor.Execute env actionArgs = .ok effects →
        Effect.log LogLine.usageControl ∈ effects := by
  rcases control_run_cases env actionArgs with ⟨hlogs, husage⟩ | ⟨args, aiLibInfo, htok, hacc⟩
  · refine ⟨fun aiData hcall => ?_, husage⟩
    obtain ⟨line, hline⟩ := hlogs _ hcall
    cases hline
  · exact absurd hacc (hrej args aiLibInfo htok)

/-! ## Helper lemmas on the runs that get to the end -/

/-- `selectAI` never logs the "not allowed" warning. -/
theorem selectAI_no_killNotAllowed (kill : Bool) (env : GameEnv) (args : List String) :
    Effect.log LogLine.killNotAllowed ∉ (AIKillReloadActionExecutor.selectAI kill env args).effects := by
  simp only [AIKillReloadActionExecutor.selectAI]
  rcases env.GetSkirmishAIsInTeam (atoi (args.getD 0 "")) env.myPlayerNum with _ | ⟨id, rest⟩ <;>
    split_ifs <;> simp

/-- When `GetSkirmishAIsInTeam(team, myPlayerNum)` lists only instances that `GetSkirmishAI`
finds and that the local player hosts, every run of `AIKillReloadActionExecutor::Execute` on
a string that a `std::string` can hold gets to the end, and none logs the "not allowed"
warning. -/
theorem killReload_complete (kill : Bool) (env : GameEnv) (actionArgs : String)
    (hsize : actionArgs.data.length < npos)
    (hsound : ∀ team id, id ∈ env.GetSkirmishAIsInTeam team env.myPlayerNum →
      ∃ aiData, env.GetSkirmishAI id = some aiData ∧ aiData.hostPlayer = env.myPlayerNum) :
    (∃ effects, AIKillReloadActionExecutor.Execute kill env actionArgs = .ok effects) ∧
      Effect.log LogLine.killNotAllowed ∉
        (AIKillReloadActionExecutor.Execute kill env actionArgs).effects := by
  obtain ⟨args, htok⟩ := tokenize_isSome actionArgs hsize
  by_cases hempty : args.isEmpty = true
  · simp only [AIKillReloadActionExecutor.Execute, htok, hempty, Bool.not_true,
      Bool.false_eq_true, if_false, Trace.effects, killReload_usage_true]
    refine ⟨⟨_, rfl⟩, ?_⟩
    cases kill <;> simp
  · have hN0 := selectAI_no_killNotAllowed kill env args
    have hpass := selectAI_pass kill env args
    simp only [AIKillReloadActionExecutor.Execute, htok, hempty, Bool.not_false,
      Bool.false_eq_true, if_true, Bool.not_eq_true]
    by_cases hb : (AIKillReloadActionExecutor.selectAI kill env args).badArgs = true
    · have h1 : AIKillReloadActionExecutor.luaCheck env
          (AIKillReloadActionExecutor.selectAI kill env args) =
          .ok (AIKillReloadActionExecutor.selectAI kill env args) := by
        simp [AIKillReloadActionExecutor.luaCheck, hb]
      obtain ⟨h2, h3, h4⟩ := killReload_after_bad kill env (env.Player env.myPlayerNum)
        (match env.Player env.myPlayerNum with
          | some player => player.team
          | none => -1)
        env.cheatEnabled (decide (env.ActivePlayers ≤ 1))
        (AIKillReloadActionExecutor.selectAI kill env args) hb
      simp only [h1, h2, h3, h4, hb, bind, Except.bind, pure, Except.pure, Trace.effects,
        killReload_usage_true]
      refine ⟨⟨_, rfl⟩, ?_⟩
      intro hmem
      rcases List.mem_append.1 hmem with h | h
      · exact hN0 h
      · cases kill <;> simp at h
    · have hb' : (AIKillReloadActionExecutor.selectAI kill env args).badArgs = false := by
        simpa using hb
      obtain ⟨he0, -, -, -, hteam, -, -, -, rest, hlist⟩ := hpass hb'
      obtain ⟨aiData, hget, hhost⟩ := hsound (atoi (args.getD 0 ""))
        (AIKillReloadActionExecutor.selectAI kill env args).skirmishAIId
        (by rw [hlist]; exact List.mem_cons_self _ _)
      have hact := act_effects kill env (AIKillReloadActionExecutor.selectAI kill env args) hb' he0
      generalize AIKillReloadActionExecutor.selectAI kill env args = v0 at hN0 hb' he0 hteam hget hact ⊢
      generalize env.Team (atoi (args.getD 0 "")) = teamToKill at hteam
      by_cases hlua : aiData.isLuaAI = true
      · have h1 : AIKillReloadActionExecutor.luaCheck env v0 =
            .ok { v0 with badArgs := true,
                          effects := v0.effects ++ [Effect.log LogLine.luaAINotSupported] } := by
          simp [AIKillReloadActionExecutor.luaCheck, hb', hget, hlua]
        obtain ⟨h2, h3, h4⟩ := killReload_after_bad kill env (env.Player env.myPlayerNum)
          (match env.Player env.myPlayerNum with
            | some player => player.team
            | none => -1)
          env.cheatEnabled (decide (env.ActivePlayers ≤ 1))
          { v0 with badArgs := true,
                    effects := v0.effects ++ [Effect.log LogLine.luaAINotSupported] } rfl
        simp only [h1, h2, h3, h4, bind, Except.bind, pure, Except.pure, Trace.effects,
          killReload_usage_true]
        refine ⟨⟨_, rfl⟩, ?_⟩
        rw [he0]
        cases kill <;> simp
      · have hlua' : aiData.isLuaAI = false := by simpa using hlua
        have h1 : AIKillReloadActionExecutor.luaCheck env v0 = .ok v0 := by
          simp [AIKillReloadActionExecutor.luaCheck, hb', hget, hlua']
        have h2 : AIKillReloadActionExecutor.permissionCheck env (env.Player env.myPlayerNum)
            (match env.Player env.myPlayerNum with
              | some player => player.team
              | none => -1)
            env.cheatEnabled (decide (env.ActivePlayers ≤ 1)) v0 = .ok v0 := by
          simp [AIKillReloadActionExecutor.permissionCheck, hb', hget, hteam, hhost]
        by_cases hdead : teamToKill.isDead = true
        · have h3 : AIKillReloadActionExecutor.deadCheck v0 =
              .ok { v0 with badArgs := true,
                            effects := v0.effects ++ [Effect.log LogLine.teamToKillIsDead] } := by
            simp [AIKillReloadActionExecutor.deadCheck, hb', hteam, hdead]
          have h4 : AIKillReloadActionExecutor.act kill env
              { v0 with badArgs := true,
                        effects := v0.effects ++ [Effect.log LogLine.teamToKillIsDead] } =
              { v0 with badArgs := true,
                        effects := v0.effects ++ [Effect.log LogLine.teamToKillIsDead] } := by
            simp [AIKillReloadActionExecutor.act]
          simp only [h1, h2, h3, h4, bind, Except.bind, pure, Except.pure, Trace.effects,
            killReload_usage_true]
          refine ⟨⟨_, rfl⟩, ?_⟩
          rw [he0]
          cases kill <;> simp
        · have hdead' : teamToKill.isDead = false := by simpa using hdead
          have h3 : AIKillReloadActionExecutor.deadCheck v0 = .ok v0 := by
            simp [AIKillReloadActionExecutor.deadCheck, hb', hteam, hdead']
          have h4 : (AIKillReloadActionExecutor.act kill env v0).badArgs = false := by
            simp [AIKillReloadActionExecutor.act, hb']
          simp only [h1, h2, h3, h4, bind, Except.bind, pure, Except.pure, Trace.effects,
            AIKillReloadActionExecutor.usage, Bool.false_eq_true, if_false, List.append_nil]
          refine ⟨⟨_, rfl⟩, ?_⟩
          rw [hact]
          split_ifs <;> simp

/-- The lookups of `exampleEnv` are consistent. -/
theorem exampleEnv_soundLookup (h : CSkirmishAIHandler) (pending : Int → Option SkirmishAIData) :
    SoundLookup (exampleEnv h pending) := by
  intro team id hmem
  obtain ⟨aiData, hget, -, hhost⟩ := (mem_getSkirmishAIsInTeam 2 h team 0 id).1 hmem
  exact ⟨aiData, hget, hhost (by decide)⟩

/-! ## C1: the contract of `AddSkirmishAI` -/

/-- C1, refuted as stated: in a table of capacity 2 whose two ids are both active, id 2 is
not active and the record is well formed, yet `AddSkirmishAI` returns false and changes
nothing, because the table is at capacity. -/
theorem AddSkirmishAI_otherwise_fails_at_capacity :
    IsActiveSkirmishAI 2 fullTable2 2 = false ∧ (exampleAI 1 0).shortName ≠ "" ∧
      AddSkirmishAI 2 fullTable2 (exampleAI 1 0) 2 = (false, fullTable2) := by
  decide

/-- C1, amended: `AddSkirmishAI(data, id)` returns false and leaves the handler unchanged
whenever id is already active, `data.shortName` is empty, or the table is at capacity
(id has no slot, or `MAX_AIS` instances are counted); otherwise it returns true, id becomes
active with the given record, and `GetNumSkirmishAIs` increases by exactly one. -/
theorem AddSkirmishAI_contract (MAX_AIS : Nat) (hmax : MAX_AIS ≤ 255) (h : CSkirmishAIHandler)
    (hwf : h.WellFormed MAX_AIS) (data : SkirmishAIData) (id : Nat) :
    ((IsActiveSkirmishAI MAX_AIS h id = true ∨ data.shortName = "" ∨
        MAX_AIS ≤ id ∨ MAX_AIS ≤ GetNumSkirmishAIs h) →
      AddSkirmishAI MAX_AIS h data id = (false, h)) ∧
    (¬ (IsActiveSkirmishAI MAX_AIS h id = true ∨ data.shortName = "" ∨
        MAX_AIS ≤ id ∨ MAX_AIS ≤ GetNumSkirmishAIs h) →
      (AddSkirmishAI MAX_AIS h data id).1 = true ∧
      IsActiveSkirmishAI MAX_AIS (AddSkirmishAI MAX_AIS h data id).2 id = true ∧
      GetSkirmishAI MAX_AIS (AddSkirmishAI MAX_AIS h data id).2 id = some data ∧
      GetNumSkirmishAIs (AddSkirmishAI MAX_AIS h data id).2 = GetNumSkirmishAIs h + 1) := by
  constructor
  · intro hfail
    unfold AddSkirmishAI
    by_cases hact : IsActiveSkirmishAI MAX_AIS h id = true
    · simp [hact]
    · by_cases hcap : MAX_AIS ≤ id ∨ MAX_AIS ≤ h.numSkirmishAIs
      · simp [hact, hcap]
      · have hempty : data.shortName = "" := by
          rcases hfail with h1 | h2 | h3 | h4
          · exact absurd h1 hact
          · exact h2
          · exact absurd (Or.inl h3) hcap
          · exact absurd (Or.inr h4) hcap
        simp [hact, hcap, IsValidSkirmishAI, hempty]
  · intro hok
    simp only [not_or, GetNumSkirmishAIs] at hok
    obtain ⟨hact, hname, hid, hnum⟩ := hok
    have hid' : id < MAX_AIS := Nat.lt_of_not_le hid
    have hnum' : h.numSkirmishAIs < MAX_AIS := Nat.lt_of_not_le hnum
    have hcap : ¬ (MAX_AIS ≤ id ∨ MAX_AIS ≤ h.numSkirmishAIs) := by omega
    have hlen : id < h.aiInstanceData.length := by rw [hwf.1]; exact hid'
    have hvalid : IsValidSkirmishAI data = true := by simp [IsValidSkirmishAI, hname]
    have hadd : AddSkirmishAI MAX_AIS h data id =
        (true, { h with
          aiInstanceData := h.aiInstanceData.set id data
          skirmishAIDataMap := (id, data) :: h.skirmishAIDataMap.filter (fun p => p.1 ≠ id)
          numSkirmishAIs := (h.numSkirmishAIs + 1) % 256 }) := by
      unfold AddSkirmishAI
      simp [hact, hcap, hvalid]
    have hact' : IsActiveSkirmishAI MAX_AIS (AddSkirmishAI MAX_AIS h data id).2 id = true := by
      rw [hadd, isActive_iff]
      refine ⟨hid', ?_⟩
      show ((h.aiInstanceData.set id data).getD id SkirmishAIData.empty).shortName ≠ ""
      rw [getD_set_self _ _ _ _ hlen]
      exact hname
    refine ⟨by rw [hadd], hact', ?_, ?_⟩
    · unfold GetSkirmishAI
      rw [hact']
      rw [hadd]
      simp [List.getElem?_set, hlen]
    · rw [hadd]
      simp only [GetNumSkirmishAIs]
      omega

/-- The amended C1 at a concrete input: adding "RAI" as id 1 to the reset table of
capacity 2 succeeds, and adding it again fails without a change. -/
theorem AddSkirmishAI_contract_witness :
    ((AddSkirmishAI 2 (ResetState 2) (exampleAI 1 0) 1).1 = true ∧
      IsActiveSkirmishAI 2 (AddSkirmishAI 2 (ResetState 2) (exampleAI 1 0) 1).2 1 = true ∧
      GetSkirmishAI 2 (AddSkirmishAI 2 (ResetState 2) (exampleAI 1 0) 1).2 1 =
        some (exampleAI 1 0) ∧
      GetNumSkirmishAIs (AddSkirmishAI 2 (ResetState 2) (exampleAI 1 0) 1).2 =
        GetNumSkirmishAIs (ResetState 2) + 1) ∧
    AddSkirmishAI 2 (AddSkirmishAI 2 (ResetState 2) (exampleAI 1 0) 1).2 (exampleAI 1 0) 1 =
      (false, (AddSkirmishAI 2 (ResetState 2) (exampleAI 1 0) 1).2) :=
  ⟨(AddSkirmishAI_contract 2 (by decide) (ResetState 2) (by decide) (exampleAI 1 0) 1).2
      (by decide),
    (AddSkirmishAI_contract 2 (by decide) (AddSkirmishAI 2 (ResetState 2) (exampleAI 1 0) 1).2
      (by decide) (exampleAI 1 0) 1).1 (Or.inl (by decide))⟩

/-! ## C2: capacity -/

/-- C2: in every state reachable from `ResetState` by `AddSkirmishAI` and `RemoveSkirmishAI`
calls, the number of active instances is at most `MAX_AIS` and equals `GetNumSkirmishAIs()`;
an `AddSkirmishAI` call made while `MAX_AIS` instances are active fails and commits nothing.
(`MAX_AIS` fits the `uint8_t` counter and id, as `uint8_t currentAIId = MAX_AIS` requires.) -/
theorem reachable_capacity (MAX_AIS : Nat) (hmax : MAX_AIS ≤ 255) (h : CSkirmishAIHandler)
    (hr : Reachable MAX_AIS h) :
    numActive MAX_AIS h ≤ MAX_AIS ∧ numActive MAX_AIS h = GetNumSkirmishAIs h ∧
      (numActive MAX_AIS h = MAX_AIS →
        ∀ (data : SkirmishAIData) (id : Nat), AddSkirmishAI MAX_AIS h data id = (false, h)) := by
  obtain ⟨hwf, hnum⟩ := tableInv_of_reachable MAX_AIS hmax h hr
  have heq : numActive MAX_AIS h = GetNumSkirmishAIs h := by
    rw [numActive_eq_countP MAX_AIS h hwf, GetNumSkirmishAIs, hnum]
  refine ⟨numActive_le MAX_AIS h, heq, ?_⟩
  intro hfull data id
  have hcap : MAX_AIS ≤ h.numSkirmishAIs := by
    rw [GetNumSkirmishAIs] at heq
    omega
  unfold AddSkirmishAI
  by_cases hact : IsActiveSkirmishAI MAX_AIS h id = true
  · simp [hact]
  · simp [hact, hcap]

/-- C2 at a concrete reachable state: the table of capacity 2 with both ids occupied. -/
theorem reachable_capacity_witness :
    numActive 2 fullTable2 ≤ 2 ∧ numActive 2 fullTable2 = GetNumSkirmishAIs fullTable2 ∧
      (numActive 2 fullTable2 = 2 →
        ∀ (data : SkirmishAIData) (id : Nat), AddSkirmishAI 2 fullTable2 data id = (false, fullTable2)) :=
  reachable_capacity 2 (by decide) fullTable2
    (Reachable.add _ _ _ (Reachable.add _ _ _ Reachable.reset))

/-! ## C3: removal is idempotent -/

/-- C3: `RemoveSkirmishAI` is idempotent: for every state and every id, after one
`RemoveSkirmishAI(id)` a second `RemoveSkirmishAI(id)` returns false and leaves the handler
unchanged; and `RemoveSkirmishAI(id)` on an id that is not active returns false without
changing any state. -/
theorem RemoveSkirmishAI_idempotent (MAX_AIS : Nat) (h : CSkirmishAIHandler) (id : Nat) :
    RemoveSkirmishAI MAX_AIS (RemoveSkirmishAI MAX_AIS h id).2 id =
        (false, (RemoveSkirmishAI MAX_AIS h id).2) ∧
      (IsActiveSkirmishAI MAX_AIS h id = false → RemoveSkirmishAI MAX_AIS h id = (false, h)) := by
  have hinactive : ∀ g : CSkirmishAIHandler, IsActiveSkirmishAI MAX_AIS g id = false →
      RemoveSkirmishAI MAX_AIS g id = (false, g) := by
    intro g hg
    simp [RemoveSkirmishAI, hg]
  exact ⟨hinactive _ (isActive_remove_self MAX_AIS h id), hinactive h⟩

/-- C3 at a concrete input: id 1 of the full table of capacity 2 is removed once with
success, the second removal fails and changes nothing; id 5 was never active. -/
theorem RemoveSkirmishAI_idempotent_witness :
    (RemoveSkirmishAI 2 fullTable2 1).1 = true ∧
      RemoveSkirmishAI 2 (RemoveSkirmishAI 2 fullTable2 1).2 1 =
        (false, (RemoveSkirmishAI 2 fullTable2 1).2) ∧
      RemoveSkirmishAI 2 fullTable2 5 = (false, fullTable2) :=
  ⟨by decide, (RemoveSkirmishAI_idempotent 2 fullTable2 1).1,
    (RemoveSkirmishAI_idempotent 2 fullTable2 5).2 (by decide)⟩

/-! ## C4, C5: the local kill flag -/

/-- C4: after `SetLocalKillFlag(id, reason)` on an active local id followed by
`RemoveSkirmishAI(id)`, which succeeds, `GetLocalKillFlag(id)` is the sentinel -1,
`HasLocalKillFlag(id)` is false and `IsActiveSkirmishAI(id)` is false. -/
theorem killFlag_cleared_by_removal (MAX_AIS : Nat) (myPlayerNum : Int) (h : CSkirmishAIHandler)
    (hwf : h.WellFormed MAX_AIS) (id : Nat) (reason : Int)
    (hlocal : IsLocalSkirmishAI MAX_AIS myPlayerNum h id = true) :
    ∃ h1 req, SetLocalKillFlag MAX_AIS myPlayerNum h id reason = some (h1, req) ∧
      (RemoveSkirmishAI MAX_AIS h1 id).1 = true ∧
      GetLocalKillFlag (RemoveSkirmishAI MAX_AIS h1 id).2 id = some (-1) ∧
      HasLocalKillFlag (RemoveSkirmishAI MAX_AIS h1 id).2 id = some false ∧
      IsActiveSkirmishAI MAX_AIS (RemoveSkirmishAI MAX_AIS h1 id).2 id = false := by
  obtain ⟨hact, -⟩ := isLocal_unfold MAX_AIS myPlayerNum h id hlocal
  refine ⟨{ h with aiKillFlags := h.aiKillFlags.set id reason },
    { skirmishAIId := id, reason := reason }, by simp [SetLocalKillFlag, hlocal], ?_⟩
  have hact1 : IsActiveSkirmishAI MAX_AIS { h with aiKillFlags := h.aiKillFlags.set id reason } id
      = true :=
    (isActive_congr MAX_AIS h { h with aiKillFlags := h.aiKillFlags.set id reason } rfl id).trans
      hact
  have hlen : id < h.aiKillFlags.length := by rw [hwf.2.2]; exact isActive_lt hact
  have hflag : GetLocalKillFlag
      (RemoveSkirmishAI MAX_AIS { h with aiKillFlags := h.aiKillFlags.set id reason } id).2 id
      = some (-1) := by
    simp [RemoveSkirmishAI, hact1, GetLocalKillFlag, List.getElem?_set, hlen]
  refine ⟨by simp [RemoveSkirmishAI, hact1], hflag, ?_, isActive_remove_self MAX_AIS _ id⟩
  simp [HasLocalKillFlag, hflag]

/-- C4 at a concrete input: id 1 of the full table of capacity 2, hosted by player 0,
gets kill reason 3 and is then removed. -/
theorem killFlag_cleared_by_removal_witness :
    ∃ h1 req, SetLocalKillFlag 2 0 fullTable2 1 3 = some (h1, req) ∧
      (RemoveSkirmishAI 2 h1 1).1 = true ∧
      GetLocalKillFlag (RemoveSkirmishAI 2 h1 1).2 1 = some (-1) ∧
      HasLocalKillFlag (RemoveSkirmishAI 2 h1 1).2 1 = some false ∧
      IsActiveSkirmishAI 2 (RemoveSkirmishAI 2 h1 1).2 1 = false :=
  killFlag_cleared_by_removal 2 0 fullTable2 (by decide) 1 3 (by decide)

/-- C5: for every active local id and every reason, after `SetLocalKillFlag(id, reason)`
`GetLocalKillFlag(id)` equals reason, while the instance table is unchanged:
`IsActiveSkirmishAI`, `GetSkirmishAI`, `GetSkirmishAIsInTeam` and `GetNumSkirmishAIs` return
what they returned before, and the kill flags of all other ids are unchanged. -/
theorem SetLocalKillFlag_frame (MAX_AIS : Nat) (myPlayerNum : Int) (h : CSkirmishAIHandler)
    (hwf : h.WellFormed MAX_AIS) (id : Nat) (reason : Int)
    (hlocal : IsLocalSkirmishAI MAX_AIS myPlayerNum h id = true) :
    ∃ h1 req, SetLocalKillFlag MAX_AIS myPlayerNum h id reason = some (h1, req) ∧
      GetLocalKillFlag h1 id = some reason ∧
      h1.aiInstanceData = h.aiInstanceData ∧
      h1.skirmishAIDataMap = h.skirmishAIDataMap ∧
      (∀ j, IsActiveSkirmishAI MAX_AIS h1 j = IsActiveSkirmishAI MAX_AIS h j) ∧
      (∀ j, GetSkirmishAI MAX_AIS h1 j = GetSkirmishAI MAX_AIS h j) ∧
      (∀ teamId hostPlayerId, GetSkirmishAIsInTeam MAX_AIS h1 teamId hostPlayerId =
        GetSkirmishAIsInTeam MAX_AIS h teamId hostPlayerId) ∧
      GetNumSkirmishAIs h1 = GetNumSkirmishAIs h ∧
      (∀ j, j ≠ id → GetLocalKillFlag h1 j = GetLocalKillFlag h j) := by
  obtain ⟨hact, -⟩ := isLocal_unfold MAX_AIS myPlayerNum h id hlocal
  have hlen : id < h.aiKillFlags.length := by rw [hwf.2.2]; exact isActive_lt hact
  refine ⟨{ h with aiKillFlags := h.aiKillFlags.set id reason },
    { skirmishAIId := id, reason := reason }, by simp [SetLocalKillFlag, hlocal], ?_, rfl, rfl,
    fun j => isActive_congr MAX_AIS h { h with aiKillFlags := h.aiKillFlags.set id reason } rfl j,
    fun j => getSkirmishAI_congr MAX_AIS h { h with aiKillFlags := h.aiKillFlags.set id reason }
      rfl j,
    ?_, rfl, ?_⟩
  · simp [GetLocalKillFlag, List.getElem?_set, hlen]
  · intro teamId hostPlayerId
    exact getSkirmishAIsInTeam_loop_congr MAX_AIS h
      { h with aiKillFlags := h.aiKillFlags.set id reason } rfl teamId hostPlayerId
      (List.range MAX_AIS) []
  · intro j hj
    simp [GetLocalKillFlag, List.getElem?_set, Ne.symm hj]

/-- C5 at a concrete input: kill reason 3 for id 1 of the full table of capacity 2. -/
theorem SetLocalKillFlag_frame_witness :
    ∃ h1 req, SetLocalKillFlag 2 0 fullTable2 1 3 = some (h1, req) ∧
      GetLocalKillFlag h1 1 = some 3 ∧
      h1.aiInstanceData = fullTable2.aiInstanceData ∧
      h1.skirmishAIDataMap = fullTable2.skirmishAIDataMap ∧
      (∀ j, IsActiveSkirmishAI 2 h1 j = IsActiveSkirmishAI 2 fullTable2 j) ∧
      (∀ j, GetSkirmishAI 2 h1 j = GetSkirmishAI 2 fullTable2 j) ∧
      (∀ teamId hostPlayerId, GetSkirmishAIsInTeam 2 h1 teamId hostPlayerId =
        GetSkirmishAIsInTeam 2 fullTable2 teamId hostPlayerId) ∧
      GetNumSkirmishAIs h1 = GetNumSkirmishAIs fullTable2 ∧
      (∀ j, j ≠ 1 → GetLocalKillFlag h1 j = GetLocalKillFlag fullTable2 j) :=
  SetLocalKillFlag_frame 2 0 fullTable2 (by decide) 1 3 (by decide)

/-! ## C6: the by-team lookup -/

/-- C6: `GetSkirmishAIsInTeam(teamId, hostPlayerId)` returns exactly the ids of the currently
active instances whose team equals teamId and, when hostPlayerId is not -1, whose hostPlayer
equals hostPlayerId, each once and in ascending order; it is computed from the current
table: an id that `AddSkirmishAI` has just committed is returned exactly for the team and
host of its record, and an id that `RemoveSkirmishAI` was just called for is not returned. -/
theorem GetSkirmishAIsInTeam_exact (MAX_AIS : Nat) (h : CSkirmishAIHandler)
    (hwf : h.WellFormed MAX_AIS) (teamId hostPlayerId : Int) :
    (∀ id, id ∈ GetSkirmishAIsInTeam MAX_AIS h teamId hostPlayerId ↔
      IsActiveSkirmishAI MAX_AIS h id = true ∧
        ∃ aiData, GetSkirmishAI MAX_AIS h id = some aiData ∧ aiData.team = teamId ∧
          (hostPlayerId ≠ -1 → aiData.hostPlayer = hostPlayerId)) ∧
    (GetSkirmishAIsInTeam MAX_AIS h teamId hostPlayerId).Pairwise (fun a b => a < b) ∧
    (∀ data id, (AddSkirmishAI MAX_AIS h data id).1 = true →
      (id ∈ GetSkirmishAIsInTeam MAX_AIS (AddSkirmishAI MAX_AIS h data id).2 teamId hostPlayerId ↔
        data.team = teamId ∧ (hostPlayerId ≠ -1 → data.hostPlayer = hostPlayerId))) ∧
    (∀ id, id ∉ GetSkirmishAIsInTeam MAX_AIS (RemoveSkirmishAI MAX_AIS h id).2 teamId
      hostPlayerId) := by
  refine ⟨?_, ?_, ?_, ?_⟩
  · intro id
    rw [mem_getSkirmishAIsInTeam]
    constructor
    · rintro ⟨aiData, hget, hrest⟩
      exact ⟨((getSkirmishAI_eq_some_iff MAX_AIS h id aiData).1 hget).1, aiData, hget, hrest⟩
    · exact fun hx => hx.2
  · rw [getSkirmishAIsInTeam_eq_filter]
    exact (pairwise_lt_range MAX_AIS).filter _
  · intro data id hok
    rw [mem_getSkirmishAIsInTeam, getSkirmishAI_add_self MAX_AIS h hwf data id hok]
    simp
  · intro id hmem
    rw [mem_getSkirmishAIsInTeam] at hmem
    obtain ⟨aiData, hget, -⟩ := hmem
    have hact := ((getSkirmishAI_eq_some_iff MAX_AIS _ id aiData).1 hget).1
    rw [isActive_remove_self] at hact
    exact Bool.false_ne_true hact

/-- C6 at a concrete input: in the full table of capacity 2 (id 0 on team 0, id 1 on team 1,
both hosted by player 0) team 1 has exactly id 1, with and without the host filter, and
nothing for host 7. -/
theorem GetSkirmishAIsInTeam_exact_witness :
    GetSkirmishAIsInTeam 2 fullTable2 1 (-1) = [1] ∧ GetSkirmishAIsInTeam 2 fullTable2 1 0 = [1] ∧
      GetSkirmishAIsInTeam 2 fullTable2 1 7 = [] ∧
      (1 ∈ GetSkirmishAIsInTeam 2 fullTable2 1 (-1) ↔
        IsActiveSkirmishAI 2 fullTable2 1 = true ∧
          ∃ aiData, GetSkirmishAI 2 fullTable2 1 = some aiData ∧ aiData.team = 1 ∧
            ((-1 : Int) ≠ -1 → aiData.hostPlayer = -1)) :=
  ⟨by decide, by decide, by decide,
    (GetSkirmishAIsInTeam_exact 2 fullTable2 (by decide) 1 (-1)).1 1⟩

/-! ## C7: lookups by id never leave the table -/

/-- C7: for every id outside `[0, MAX_AIS)`, `IsActiveSkirmishAI(id)` is false and
`GetSkirmishAI(id)` reports not-found (a null result); for an id inside the range that is not
active `GetSkirmishAI(id)` likewise reports not-found. -/
theorem GetSkirmishAI_not_found (MAX_AIS : Nat) (h : CSkirmishAIHandler) (id : Nat) :
    (MAX_AIS ≤ id →
      IsActiveSkirmishAI MAX_AIS h id = false ∧ GetSkirmishAI MAX_AIS h id = none) ∧
    (id < MAX_AIS → IsActiveSkirmishAI MAX_AIS h id = false →
      GetSkirmishAI MAX_AIS h id = none) := by
  constructor
  · intro hout
    have hact : IsActiveSkirmishAI MAX_AIS h id = false := by
      simp [IsActiveSkirmishAI, Nat.not_lt.2 hout]
    exact ⟨hact, by simp [GetSkirmishAI, hact]⟩
  · intro _ hact
    simp [GetSkirmishAI, hact]

/-- C7 at concrete inputs: id 2 is outside a table of capacity 2, and id 1 of the reset
table is inside the range but not active. -/
theorem GetSkirmishAI_not_found_witness :
    (IsActiveSkirmishAI 2 fullTable2 2 = false ∧ GetSkirmishAI 2 fullTable2 2 = none) ∧
      GetSkirmishAI 2 (ResetState 2) 1 = none :=
  ⟨(GetSkirmishAI_not_found 2 fullTable2 2).1 (by decide),
    (GetSkirmishAI_not_found 2 (ResetState 2) 1).2 (by decide) (by decide)⟩

/-! ## C9: one creation per team -/

/-- C9: `AIControlActionExecutor::Execute` never calls `CreateLocalSkirmishAI` for a team that
already has an active Skirmish AI or that already has a pending local creation: whenever a
run, complete or not, calls `CreateLocalSkirmishAI(aiData)`, the team of the record is the
team parsed from the first argument, `GetSkirmishAIsInTeam(team)` is empty and
`GetLocalSkirmishAIInCreation(team)` is null. -/
theorem AIControl_creates_only_for_free_team (env : GameEnv) (actionArgs : String)
    (aiData : SkirmishAIData)
    (hcall : Effect.CreateLocalSkirmishAI aiData ∈
      (AIControlActionExecutor.Execute env actionArgs).effects) :
    (∃ args, _local_strSpaceTokenize actionArgs = some args ∧
        aiData.team = atoi (args.getD 0 "")) ∧
      env.GetSkirmishAIsInTeam aiData.team (-1) = [] ∧
      env.GetLocalSkirmishAIInCreation aiData.team = none := by
  have hnolog : ∀ l : List Effect, OnlyLogs l → Effect.CreateLocalSkirmishAI aiData ∈ l → False := by
    intro l hl hm
    obtain ⟨line, hline⟩ := hl _ hm
    cases hline
  rcases htok : _local_strSpaceTokenize actionArgs with _ | args
  · simp [AIControlActionExecutor.Execute, htok, Trace.effects] at hcall
  · simp only [AIControlActionExecutor.Execute, htok] at hcall
    by_cases hempty : args.isEmpty = true
    · simp [hempty, Trace.effects, AIControlActionExecutor.usage] at hcall
    · simp only [hempty, Bool.not_false, Bool.false_eq_true, if_true, Bool.not_eq_true,
        Bool.not_true, if_false] at hcall
      obtain ⟨hteam0, hlogs0⟩ := readArgs_effects env args
      generalize hv0 : AIControlActionExecutor.readArgs env args = v0 at hcall hteam0 hlogs0
      rcases h1 : AIControlActionExecutor.permissionCheck env (env.Player env.myPlayerNum)
          (match env.Player env.myPlayerNum with
            | some player => player.team
            | none => -1)
          env.cheatEnabled (decide (env.ActivePlayers ≤ 1)) v0 with ⟨fault, l⟩ | v1
      · rw [h1] at hcall
        have hl := control_permissionCheck_error _ _ _ _ _ _ _ _ h1
        subst hl
        exact (hnolog _ hlogs0 hcall).elim
      · rw [h1] at hcall
        have s1 := control_permissionCheck_ok _ _ _ _ _ _ _ h1
        have hlogs1 : OnlyLogs v1.effects := fun e he =>
          (s1.2.2 e he).elim (hlogs0 e) id
        rcases h2 : AIControlActionExecutor.deadCheck v1 with ⟨fault, l⟩ | v2
        · simp only [h2, bind, Except.bind, Trace.effects] at hcall
          have hl := control_deadCheck_error _ _ _ h2
          subst hl
          exact (hnolog _ hlogs1 hcall).elim
        · obtain ⟨s5, c5⟩ := control_checks _ _ _ _ _ v0 v1 v2 h1 h2
          simp only [h2, bind, Except.bind] at hcall
          generalize AIControlActionExecutor.luaCheck env
            (AIControlActionExecutor.inCreationCheck env
              (AIControlActionExecutor.controlledCheck env v2)) = v5 at hcall s5 c5
          have hlogs5 : OnlyLogs v5.effects := fun e he =>
            (s5.2.2 e he).elim (hlogs0 e) id
          rcases h6 : AIControlActionExecutor.create env v5 with ⟨fault, l⟩ | v6
          · simp only [h6, Trace.effects] at hcall
            have hl := control_create_error _ _ _ _ h6
            subst hl
            exact (hnolog _ hlogs5 hcall).elim
          · simp only [h6, Trace.effects, pure, Except.pure] at hcall
            rcases List.mem_append.1 hcall with hm | hm
            · rcases control_create_ok env v5 v6 h6 _ hm with h5 | ⟨line, hline⟩ | ⟨hb5, info, hinfo⟩
              · exact (hnolog _ hlogs5 h5).elim
              · cases hline
              · injection hinfo with hdata
                have hteam : aiData.team = v0.teamToControlId := by
                  rw [hdata]
                  exact s5.1
                refine ⟨⟨args, rfl, by rw [hteam, hteam0]⟩, ?_⟩
                rw [hteam]
                exact c5 hb5
            · exact (hnolog _ (mem_usage_control _) hm).elim

/-- C9 at concrete inputs: with no AI on team 1 and nothing pending, `/AIControl 1 RAI 0.601`
starts the creation, and the team of the record is free; with a creation pending for team 1
the same command only logs the rejection and the usage; and `/AIControl 4294967297 RAI 0.601`,
whose first argument the `int` of line 749 reads as 1, starts the creation for team 1. -/
theorem AIControl_creates_only_for_free_team_witness :
    Effect.CreateLocalSkirmishAI exampleCreated ∈
        (AIControlActionExecutor.Execute (exampleEnv (ResetState 2) (fun _ => none))
          "1 RAI 0.601").effects ∧
      ((∃ args, _local_strSpaceTokenize "1 RAI 0.601" = some args ∧
          exampleCreated.team = atoi (args.getD 0 "")) ∧
        (exampleEnv (ResetState 2) (fun _ => none)).GetSkirmishAIsInTeam exampleCreated.team (-1)
          = [] ∧
        (exampleEnv (ResetState 2) (fun _ => none)).GetLocalSkirmishAIInCreation
          exampleCreated.team = none) ∧
      (AIControlActionExecutor.Execute
          (exampleEnv (ResetState 2) (fun t => if t = 1 then some exampleCreated else none))
          "1 RAI 0.601").effects =
        [Effect.log LogLine.alreadyInCreation, Effect.log LogLine.usageControl] ∧
      (AIControlActionExecutor.Execute (exampleEnv (ResetState 2) (fun _ => none))
          "4294967297 RAI 0.601").effects = [Effect.CreateLocalSkirmishAI exampleCreated] ∧
      (∃ args, _local_strSpaceTokenize "4294967297 RAI 0.601" = some args ∧
        exampleCreated.team = atoi (args.getD 0 "")) :=
  ⟨by decide,
    AIControl_creates_only_for_free_team (exampleEnv (ResetState 2) (fun _ => none))
      "1 RAI 0.601" exampleCreated (by decide),
    by decide, by decide,
    (AIControl_creates_only_for_free_team (exampleEnv (ResetState 2) (fun _ => none))
      "4294967297 RAI 0.601" exampleCreated (by decide)).1⟩

/-! ## C10: Lua AIs are neither killed nor reloaded -/

/-- C10: whenever the Skirmish AI selected by the AIKill or AIReload command (the
`skirmishAIId` that lines 623-656 leave behind) has `isLuaAI = true`, the run completes
with log lines only: `SetLocalKillFlag` is not called and neither a give-away-everything
nor an AI-state-changed message is sent; the usage is printed, and when the validation got
as far as the Lua check the "not yet supported" warning is logged. -/
theorem AIKillReload_rejects_lua (kill : Bool) (env : GameEnv) (actionArgs : String)
    (args : List String) (aiData : SkirmishAIData)
    (htok : _local_strSpaceTokenize actionArgs = some args) (hargs : args ≠ [])
    (hget : env.GetSkirmishAI (AIKillReloadActionExecutor.selectAI kill env args).skirmishAIId
      = some aiData)
    (hlua : aiData.isLuaAI = true) :
    ∃ effects, AIKillReloadActionExecutor.Execute kill env actionArgs = .ok effects ∧
      (∀ e ∈ effects, ∃ line, e = Effect.log line) ∧
      Effect.log (if kill then LogLine.usageKill else LogLine.usageReload) ∈ effects ∧
      ((AIKillReloadActionExecutor.selectAI kill env args).badArgs = false →
        Effect.log LogLine.luaAINotSupported ∈ effects) := by
  have hempty : args.isEmpty = false := by
    cases args with
    | nil => exact absurd rfl hargs
    | cons a as => rfl
  have hlogs0 := selectAI_onlyLogs kill env args
  have husage : AIKillReloadActionExecutor.usage kill true =
      [Effect.log (if kill then LogLine.usageKill else LogLine.usageReload)] := by
    cases kill <;> rfl
  simp only [AIKillReloadActionExecutor.Execute, htok, hempty, Bool.not_false, if_true]
  generalize AIKillReloadActionExecutor.selectAI kill env args = v0 at hget hlogs0 ⊢
  by_cases hb : v0.badArgs = true
  · have h1 : AIKillReloadActionExecutor.luaCheck env v0 = .ok v0 := by
      simp [AIKillReloadActionExecutor.luaCheck, hb]
    obtain ⟨h2, h3, h4⟩ := killReload_after_bad kill env (env.Player env.myPlayerNum)
      (match env.Player env.myPlayerNum with
        | some player => player.team
        | none => -1)
      env.cheatEnabled (decide (env.ActivePlayers ≤ 1)) v0 hb
    refine ⟨v0.effects ++ AIKillReloadActionExecutor.usage kill true, ?_, ?_, ?_, ?_⟩
    · simp only [h1, h2, h3, h4, hb, bind, Except.bind, pure, Except.pure]
    · rw [husage]
      exact onlyLogs_append_log _ _ hlogs0
    · rw [husage]
      simp
    · intro hfalse
      rw [hb] at hfalse
      cases hfalse
  · have hb' : v0.badArgs = false := by simpa using hb
    have h1 : AIKillReloadActionExecutor.luaCheck env v0 =
        .ok { v0 with badArgs := true,
                      effects := v0.effects ++ [Effect.log LogLine.luaAINotSupported] } := by
      simp [AIKillReloadActionExecutor.luaCheck, hb', hget, hlua]
    obtain ⟨h2, h3, h4⟩ := killReload_after_bad kill env (env.Player env.myPlayerNum)
      (match env.Player env.myPlayerNum with
        | some player => player.team
        | none => -1)
      env.cheatEnabled (decide (env.ActivePlayers ≤ 1))
      { v0 with badArgs := true,
                effects := v0.effects ++ [Effect.log LogLine.luaAINotSupported] } rfl
    refine ⟨(v0.effects ++ [Effect.log LogLine.luaAINotSupported]) ++
      AIKillReloadActionExecutor.usage kill true, ?_, ?_, ?_, ?_⟩
    · simp only [h1, h2, h3, h4, bind, Except.bind, pure, Except.pure]
    · rw [husage]
      exact onlyLogs_append_log _ _ (onlyLogs_append_log _ _ hlogs0)
    · rw [husage]
      simp
    · intro _
      simp

/-- C10 at concrete inputs: `/AIKill 1` when team 1 is controlled by the local Lua AI
"LuaBot" is rejected.  With the Lua AI of id 0 on team 0 and the native AI of id 1 on team 1,
`/AIKill 0` is rejected with the warning and the usage, while `/AIKill 4294967297`, whose
argument the `int` of line 627 reads as 1, selects the native AI of id 1 and sets its kill
flag. -/
theorem AIKillReload_rejects_lua_witness :
    (∃ effects, AIKillReloadActionExecutor.Execute true (exampleEnv luaTable2 (fun _ => none)) "1"
        = .ok effects ∧
      (∀ e ∈ effects, ∃ line, e = Effect.log line) ∧
      Effect.log (if true then LogLine.usageKill else LogLine.usageReload) ∈ effects ∧
      ((AIKillReloadActionExecutor.selectAI true (exampleEnv luaTable2 (fun _ => none))
          ["1"]).badArgs = false →
        Effect.log LogLine.luaAINotSupported ∈ effects)) ∧
    (AIKillReloadActionExecutor.Execute true (exampleEnv mixedTable2 (fun _ => none))
        "0").effects
      = [Effect.log LogLine.luaAINotSupported, Effect.log LogLine.usageKill] ∧
    (AIKillReloadActionExecutor.selectAI true (exampleEnv mixedTable2 (fun _ => none))
        ["4294967297"]).skirmishAIId = 1 ∧
    (AIKillReloadActionExecutor.Execute true (exampleEnv mixedTable2 (fun _ => none))
        "4294967297").effects
      = [Effect.SetLocalKillFlag 1 3, Effect.log LogLine.beeingKilledOrReloaded] :=
  ⟨AIKillReload_rejects_lua true (exampleEnv luaTable2 (fun _ => none)) "1" ["1"] exampleLuaAI
    (by decide) (by decide) (by decide) (by decide),
    by decide, by decide, by decide⟩

/-! ## C11: Lua AIs are not created mid-game -/

/-- C11: for every AIControl invocation whose aiShortName (the second token; the empty name
when that token is missing) is a member of the Lua implementation registry
(`GetLuaAIImplShortNames`), `Execute` rejects the request: `CreateLocalSkirmishAI` is called
in no run, and every run that gets to the end prints the usage. -/
theorem AIControl_rejects_lua (env : GameEnv) (actionArgs : String) (args : List String)
    (htok : _local_strSpaceTokenize actionArgs = some args)
    (hlua : args.getD 1 "" ∈ env.GetLuaAIImplShortNames) :
    (∀ aiData, Effect.CreateLocalSkirmishAI aiData ∉
        (AIControlActionExecutor.Execute env actionArgs).effects) ∧
      ∀ effects, AIControlActionExecutor.Execute env actionArgs = .ok effects →
        Effect.log LogLine.usageControl ∈ effects := by
  apply control_rejected
  intro args1 aiLibInfo htok1 hacc
  rw [htok] at htok1
  injection htok1 with htok1
  subst htok1
  obtain ⟨-, -, teamToControl, -, -, -, -, -, hnot, -, -⟩ := hacc
  rw [(readArgs_fields env args).1] at hnot
  have hmem : env.GetLuaAIImplShortNames.contains (args.getD 1 "") = true :=
    List.elem_eq_true_of_mem hlua
  rw [hmem] at hnot
  cases hnot

/-- C11 at a concrete input: `/AIControl 1 LuaBot` while "LuaBot" is a registered Lua AI. -/
theorem AIControl_rejects_lua_witness :
    ((∀ aiData, Effect.CreateLocalSkirmishAI aiData ∉
        (AIControlActionExecutor.Execute (exampleEnv luaRegistry2 (fun _ => none))
          "1 LuaBot").effects) ∧
      ∀ effects, AIControlActionExecutor.Execute (exampleEnv luaRegistry2 (fun _ => none))
          "1 LuaBot" = .ok effects →
        Effect.log LogLine.usageControl ∈ effects) ∧
    (AIControlActionExecutor.Execute (exampleEnv luaRegistry2 (fun _ => none))
        "1 LuaBot").effects =
      [Effect.log LogLine.luaAIMidGame, Effect.log LogLine.usageControl] :=
  ⟨AIControl_rejects_lua (exampleEnv luaRegistry2 (fun _ => none)) "1 LuaBot" ["1", "LuaBot"]
    (by decide) (by decide), by decide⟩

/-! ## C12: reloading is left to the server -/

/-- C12: the reload command (`kill = false`) never mutates the handler: every effect of every
run, complete or not, is a log line or an AI-state-changed (reloading) message of the local
player, so none of `SetLocalKillFlag`, `CreateLocalSkirmishAI` (or any other handler call) is
made; and when the validation passes, the run consists of exactly one AI-state-changed
message, carrying the id chosen as `teamAIs[0]` and the state `SKIRMAISTATE_RELOADING`,
followed by the log line. -/
theorem AIReload_only_sends_state_changed (env : GameEnv) (actionArgs : String) :
    (∀ e ∈ (AIKillReloadActionExecutor.Execute false env actionArgs).effects,
      (∃ line, e = Effect.log line) ∨
        ∃ id, e = Effect.SendAIStateChangedReloading env.myPlayerNum id) ∧
    (∀ args, _local_strSpaceTokenize actionArgs = some args →
      AIKillReloadActionExecutor.Validated false env args →
      ∃ id rest, env.GetSkirmishAIsInTeam (atoi (args.getD 0 "")) env.myPlayerNum = id :: rest ∧
        AIKillReloadActionExecutor.Execute false env actionArgs =
          .ok [Effect.SendAIStateChangedReloading env.myPlayerNum id,
            Effect.log LogLine.beeingKilledOrReloaded]) := by
  have hrun : ∀ args, _local_strSpaceTokenize actionArgs = some args →
      AIKillReloadActionExecutor.Validated false env args →
      ∃ id rest, env.GetSkirmishAIsInTeam (atoi (args.getD 0 "")) env.myPlayerNum = id :: rest ∧
        AIKillReloadActionExecutor.Execute false env actionArgs =
          .ok [Effect.SendAIStateChangedReloading env.myPlayerNum id,
            Effect.log LogLine.beeingKilledOrReloaded] := by
    intro args htok hval
    have hexec := killReload_validated_run false env actionArgs args htok hval
    obtain ⟨he, -, -, -, -, -, -, -, rest, hlist⟩ := selectAI_pass false env args hval.2.1
    rw [act_effects false env _ hval.2.1 he] at hexec
    exact ⟨_, rest, hlist, hexec⟩
  refine ⟨?_, hrun⟩
  rcases killReload_run_cases false env actionArgs with ⟨hlogs, -⟩ | ⟨args, htok, hval⟩
  · exact fun e he => Or.inl (hlogs e he)
  · obtain ⟨id, rest, -, hexec⟩ := hrun args htok hval
    rw [hexec]
    intro e he
    simp only [Trace.effects, List.mem_cons, List.mem_singleton, List.not_mem_nil, or_false] at he
    rcases he with he | he
    · exact Or.inr ⟨id, he⟩
    · exact Or.inl ⟨_, he⟩

/-- C12 at a concrete input: `/AIReload 1` with team 1 controlled by the local AI of id 1. -/
theorem AIReload_only_sends_state_changed_witness :
    ∃ id rest, (exampleEnv fullTable2 (fun _ => none)).GetSkirmishAIsInTeam
          (atoi (["1"].getD 0 "")) (exampleEnv fullTable2 (fun _ => none)).myPlayerNum
        = id :: rest ∧
      AIKillReloadActionExecutor.Execute false (exampleEnv fullTable2 (fun _ => none)) "1" =
        .ok [Effect.SendAIStateChangedReloading (exampleEnv fullTable2 (fun _ => none)).myPlayerNum
            id,
          Effect.log LogLine.beeingKilledOrReloaded] :=
  (AIReload_only_sends_state_changed (exampleEnv fullTable2 (fun _ => none)) "1").2 ["1"]
    (by decide)
    ⟨by decide, by decide, exampleAI 1 0, { GetLeader := 0, HasLeader := true, isDead := false },
      by decide, by decide, by decide, by decide, by decide⟩

/-! ## C13: what a validated kill command does -/

/-- C13: for a validated AIKill command: if a second argument (the team to receive the units)
is given, `Execute` sends one give-away-everything message, from the killed team to the
receiving team, and sets no kill flag; if no second argument is given, `Execute` sends no
give-away message and calls `SetLocalKillFlag(skirmishAIId, 3)` exactly when
`IsLocalSkirmishAI(skirmishAIId)` holds. -/
theorem AIKill_validated_effects (env : GameEnv) (actionArgs : String) (args : List String)
    (htok : _local_strSpaceTokenize actionArgs = some args)
    (hval : AIKillReloadActionExecutor.Validated true env args) :
    ∃ id rest, env.GetSkirmishAIsInTeam (atoi (args.getD 0 "")) env.myPlayerNum = id :: rest ∧
      (2 ≤ args.length →
        AIKillReloadActionExecutor.Execute true env actionArgs =
          .ok [Effect.SendGiveAwayEverything env.myPlayerNum (atoi (args.getD 1 ""))
              (atoi (args.getD 0 "")),
            Effect.log LogLine.beeingKilledOrReloaded]) ∧
      (args.length < 2 →
        AIKillReloadActionExecutor.Execute true env actionArgs =
          .ok ((if env.IsLocalSkirmishAI id = true then [Effect.SetLocalKillFlag id 3] else []) ++
            [Effect.log LogLine.beeingKilledOrReloaded])) := by
  have hexec := killReload_validated_run true env actionArgs args htok hval
  obtain ⟨he, hshare, hkill, hrecv, -, -, -, -, rest, hlist⟩ :=
    selectAI_pass true env args hval.2.1
  rw [act_effects true env _ hval.2.1 he, hshare, hkill, hrecv] at hexec
  refine ⟨_, rest, hlist, ?_, ?_⟩
  · intro hlen
    simpa [hlen] using hexec
  · intro hlen
    have hlen' : ¬ 2 ≤ args.length := by omega
    simpa [hlen'] using hexec

/-- C13 at concrete inputs: `/AIKill 1 0` gives the units of team 1 to team 0, `/AIKill 1`
sets the kill flag of the local AI of id 1. -/
theorem AIKill_validated_effects_witness :
    (∃ id rest, (exampleEnv fullTable2 (fun _ => none)).GetSkirmishAIsInTeam
          (atoi (["1", "0"].getD 0 "")) (exampleEnv fullTable2 (fun _ => none)).myPlayerNum
        = id :: rest ∧
      (2 ≤ ["1", "0"].length →
        AIKillReloadActionExecutor.Execute true (exampleEnv fullTable2 (fun _ => none)) "1 0" =
          .ok [Effect.SendGiveAwayEverything (exampleEnv fullTable2 (fun _ => none)).myPlayerNum
              (atoi (["1", "0"].getD 1 "")) (atoi (["1", "0"].getD 0 "")),
            Effect.log LogLine.beeingKilledOrReloaded]) ∧
      (["1", "0"].length < 2 →
        AIKillReloadActionExecutor.Execute true (exampleEnv fullTable2 (fun _ => none)) "1 0" =
          .ok ((if (exampleEnv fullTable2 (fun _ => none)).IsLocalSkirmishAI id = true then
              [Effect.SetLocalKillFlag id 3] else []) ++
            [Effect.log LogLine.beeingKilledOrReloaded]))) ∧
    (AIKillReloadActionExecutor.Execute true (exampleEnv fullTable2 (fun _ => none)) "1 0").effects
      = [Effect.SendGiveAwayEverything 0 0 1, Effect.log LogLine.beeingKilledOrReloaded] ∧
    (AIKillReloadActionExecutor.Execute true (exampleEnv fullTable2 (fun _ => none)) "1").effects
      = [Effect.SetLocalKillFlag 1 3, Effect.log LogLine.beeingKilledOrReloaded] :=
  ⟨AIKill_validated_effects (exampleEnv fullTable2 (fun _ => none)) "1 0" ["1", "0"] (by decide)
    ⟨by decide, by decide, exampleAI 1 0, { GetLeader := 0, HasLeader := true, isDead := false },
      by decide, by decide, by decide, by decide, by decide⟩,
    by decide, by decide⟩

/-! ## C14: the kill flag and its sentinel -/

/-- C14, evaluated on the code: in the table of capacity 2 whose id 1 has the kill flag -2
(the state that `SetLocalKillFlag(1, -2)` leaves behind), `GetLocalKillFlag(1)` is the
negative value -2, which its documentation reads as "not dying", and yet
`HasLocalKillFlag(1)` is true, because it compares with -1 only. -/
theorem HasLocalKillFlag_true_for_negative_flag :
    (SetLocalKillFlag 2 0 fullTable2 1 (-2)).map Prod.fst = some negativeFlagTable2 ∧
      GetLocalKillFlag negativeFlagTable2 1 = some (-2) ∧
      HasLocalKillFlag negativeFlagTable2 1 = some true := by
  decide

/-! ## C15, C16: the record handed to `CreateLocalSkirmishAI` -/

/-- C15: every record that `AIControlActionExecutor::Execute` passes to
`CreateLocalSkirmishAI` has hostPlayer equal to the local player number and team equal to
the team id parsed from the first argument, and that team is an active, non-dead team. -/
theorem AIControl_record_host_and_team (env : GameEnv) (actionArgs : String)
    (aiData : SkirmishAIData)
    (hcall : Effect.CreateLocalSkirmishAI aiData ∈
      (AIControlActionExecutor.Execute env actionArgs).effects) :
    aiData.hostPlayer = env.myPlayerNum ∧
      (∃ args, _local_strSpaceTokenize actionArgs = some args ∧
        aiData.team = atoi (args.getD 0 "")) ∧
      env.IsActiveTeam aiData.team = true ∧ (env.Team aiData.team).isDead = false := by
  obtain ⟨args, aiLibInfo, htok, hacc, hdata⟩ := control_create_inv env actionArgs aiData hcall
  obtain ⟨-, -, teamToControl, hteam, -, hdead, -⟩ := hacc
  obtain ⟨-, -, -, -, hid, hptr⟩ := readArgs_fields env args
  have hteamId : aiData.team = atoi (args.getD 0 "") := by
    rw [hdata]
    exact hid
  rw [hptr] at hteam
  refine ⟨by rw [hdata]; rfl, ⟨args, htok, hteamId⟩, ?_, ?_⟩
  · rw [hteamId]
    by_cases hact : env.IsActiveTeam (atoi (args.getD 0 "")) = true
    · exact hact
    · rw [if_neg hact] at hteam
      cases hteam
  · rw [hteamId]
    by_cases hact : env.IsActiveTeam (atoi (args.getD 0 "")) = true
    · rw [if_pos hact] at hteam
      injection hteam with hteam
      rw [hteam]
      exact hdead
    · rw [if_neg hact] at hteam
      cases hteam

/-- C15 at concrete inputs: `/AIControl 1 RAI 0.601` by player 0, and
`/AIControl 4294967297 RAI 0.601`, whose first argument the `int` of line 749 reads as 1 and
which hands over the same record, for team 1. -/
theorem AIControl_record_host_and_team_witness :
    Effect.CreateLocalSkirmishAI exampleCreated ∈
        (AIControlActionExecutor.Execute (exampleEnv (ResetState 2) (fun _ => none))
          "1 RAI 0.601").effects ∧
      (exampleCreated.hostPlayer = (exampleEnv (ResetState 2) (fun _ => none)).myPlayerNum ∧
        (∃ args, _local_strSpaceTokenize "1 RAI 0.601" = some args ∧
          exampleCreated.team = atoi (args.getD 0 "")) ∧
        (exampleEnv (ResetState 2) (fun _ => none)).IsActiveTeam exampleCreated.team = true ∧
        ((exampleEnv (ResetState 2) (fun _ => none)).Team exampleCreated.team).isDead = false) ∧
      (AIControlActionExecutor.Execute (exampleEnv (ResetState 2) (fun _ => none))
          "4294967297 RAI 0.601").effects = [Effect.CreateLocalSkirmishAI exampleCreated] ∧
      (∃ args, _local_strSpaceTokenize "4294967297 RAI 0.601" = some args ∧
        exampleCreated.team = atoi (args.getD 0 "")) :=
  ⟨by decide,
    AIControl_record_host_and_team (exampleEnv (ResetState 2) (fun _ => none)) "1 RAI 0.601"
      exampleCreated (by decide),
    by decide,
    (AIControl_record_host_and_team (exampleEnv (ResetState 2) (fun _ => none))
      "4294967297 RAI 0.601" exampleCreated (by decide)).2.1⟩

/-- C16: in every record that AIControl passes to `CreateLocalSkirmishAI`, shortName is the
second argument, and name equals the fourth argument when one is given and non-empty, and
otherwise equals the short name; the name is therefore never empty when the short name is
non-empty. -/
theorem AIControl_record_name (env : GameEnv) (actionArgs : String) (aiData : SkirmishAIData)
    (hcall : Effect.CreateLocalSkirmishAI aiData ∈
      (AIControlActionExecutor.Execute env actionArgs).effects) :
    ∃ args, _local_strSpaceTokenize actionArgs = some args ∧
      aiData.shortName = args.getD 1 "" ∧
      (4 ≤ args.length → args.getD 3 "" ≠ "" → aiData.name = args.getD 3 "") ∧
      (args.length < 4 ∨ args.getD 3 "" = "" → aiData.name = aiData.shortName) ∧
      (aiData.shortName ≠ "" → aiData.name ≠ "") := by
  obtain ⟨args, aiLibInfo, htok, -, hdata⟩ := control_create_inv env actionArgs aiData hcall
  obtain ⟨hshort, -, hname, -, -, -⟩ := readArgs_fields env args
  have hs : aiData.shortName = args.getD 1 "" := by rw [hdata]; exact hshort
  have hn : aiData.name = if args.getD 3 "" ≠ "" then args.getD 3 "" else args.getD 1 "" := by
    rw [hdata]
    simp only [AIControlActionExecutor.makeAIData, hname, hshort]
  refine ⟨args, htok, hs, ?_, ?_, ?_⟩
  · intro _ hne
    rw [hn, if_pos hne]
  · intro hor
    have hempty : args.getD 3 "" = "" := by
      rcases hor with hlt | he
      · exact List.getD_eq_default _ _ (by omega)
      · exact he
    rw [hn, hs, if_neg (by simpa using hempty)]
  · intro hne
    rw [hn]
    split
    · assumption
    · rw [← hs]; exact hne

/-- C16 at concrete inputs: without a fourth argument the name is the short name "RAI", with
the fourth argument "my_RAI_Friend" it is that argument. -/
theorem AIControl_record_name_witness :
    (∃ args, _local_strSpaceTokenize "1 RAI 0.601" = some args ∧
      exampleCreated.shortName = args.getD 1 "" ∧
      (4 ≤ args.length → args.getD 3 "" ≠ "" → exampleCreated.name = args.getD 3 "") ∧
      (args.length < 4 ∨ args.getD 3 "" = "" → exampleCreated.name = exampleCreated.shortName) ∧
      (exampleCreated.shortName ≠ "" → exampleCreated.name ≠ "")) ∧
    (AIControlActionExecutor.Execute (exampleEnv (ResetState 2) (fun _ => none))
        "1 RAI 0.601 my_RAI_Friend").effects =
      [Effect.CreateLocalSkirmishAI exampleCreatedFriend] :=
  ⟨AIControl_record_name (exampleEnv (ResetState 2) (fun _ => none)) "1 RAI 0.601"
    exampleCreated (by decide), by decide⟩

/-! ## C17: only resolvable implementations are created -/

/-- C17: `CreateLocalSkirmishAI` is called only with a (shortName, version) that the resolver
reports as specified; and when the resolver returns an unspecified key for the
(aiShortName, aiVersion) given to AIControl, `Execute` treats the arguments as bad:
`CreateLocalSkirmishAI` is called in no run and every run that gets to the end prints the
usage. -/
theorem AIControl_requires_specified_key (env : GameEnv) (actionArgs : String) :
    (∀ aiData, Effect.CreateLocalSkirmishAI aiData ∈
        (AIControlActionExecutor.Execute env actionArgs).effects →
      env.IsUnspecified (env.ResolveSkirmishAIKey
        { shortName := aiData.shortName, version := aiData.version }) = false) ∧
    (∀ args, _local_strSpaceTokenize actionArgs = some args →
      env.IsUnspecified (env.ResolveSkirmishAIKey
        { shortName := args.getD 1 "", version := args.getD 2 "" }) = true →
      (∀ aiData, Effect.CreateLocalSkirmishAI aiData ∉
          (AIControlActionExecutor.Execute env actionArgs).effects) ∧
        ∀ effects, AIControlActionExecutor.Execute env actionArgs = .ok effects →
          Effect.log LogLine.usageControl ∈ effects) := by
  constructor
  · intro aiData hcall
    obtain ⟨args, aiLibInfo, -, hacc, hdata⟩ := control_create_inv env actionArgs aiData hcall
    obtain ⟨-, -, teamToControl, -, -, -, -, -, -, hspec, -⟩ := hacc
    rw [hdata]
    exact hspec
  · intro args htok hun
    apply control_rejected
    intro args1 aiLibInfo htok1 hacc
    rw [htok] at htok1
    injection htok1 with htok1
    subst htok1
    obtain ⟨-, -, teamToControl, -, -, -, -, -, -, hspec, -⟩ := hacc
    rw [(readArgs_fields env args).1, (readArgs_fields env args).2.1, hun] at hspec
    cases hspec

/-- C17 at concrete inputs: "RAI 0.601" resolves and is created; the key with the empty short
name does not resolve, and `/AIControl 1` is rejected. -/
theorem AIControl_requires_specified_key_witness :
    (exampleEnv (ResetState 2) (fun _ => none)).IsUnspecified
        ((exampleEnv (ResetState 2) (fun _ => none)).ResolveSkirmishAIKey
          { shortName := exampleCreated.shortName, version := exampleCreated.version }) = false ∧
    ((∀ aiData, Effect.CreateLocalSkirmishAI aiData ∉
        (AIControlActionExecutor.Execute (exampleEnv (ResetState 2) (fun _ => none))
          "1").effects) ∧
      ∀ effects, AIControlActionExecutor.Execute (exampleEnv (ResetState 2) (fun _ => none)) "1"
          = .ok effects →
        Effect.log LogLine.usageControl ∈ effects) :=
  ⟨(AIControl_requires_specified_key (exampleEnv (ResetState 2) (fun _ => none))
      "1 RAI 0.601").1 exampleCreated (by decide),
    (AIControl_requires_specified_key (exampleEnv (ResetState 2) (fun _ => none)) "1").2 ["1"]
      (by decide) (by decide)⟩

/-! ## C18: a missing aiShortName -/

/-- C18, evaluated on the code: `/AIControl 1` lacks the mandatory aiShortName.  Lines 753-757
log the warning and leave `badArgs` clear, so the outcome is left to the resolver: with a
library manager that resolves the empty short name to a default library, the run calls
`CreateLocalSkirmishAI` with a record whose shortName is empty and prints no usage. -/
theorem AIControl_creates_without_shortName :
    (AIControlActionExecutor.Execute (defaultingEnv (ResetState 2)) "1").effects =
        [Effect.log LogLine.missingAIShortName,
          Effect.CreateLocalSkirmishAI exampleCreatedUnnamed] ∧
      exampleCreatedUnnamed.shortName = "" ∧
      IsValidSkirmishAI exampleCreatedUnnamed = false := by
  decide

/-! ## C19: the options of the command line -/

/-- C19, evaluated on the code: every record that AIControl passes to `CreateLocalSkirmishAI`
has no options and no option keys, whatever follows the fourth argument: `aiOptions` is
declared in line 747 and never filled. -/
theorem AIControl_passes_no_options (env : GameEnv) (actionArgs : String)
    (aiData : SkirmishAIData)
    (hcall : Effect.CreateLocalSkirmishAI aiData ∈
      (AIControlActionExecutor.Execute env actionArgs).effects) :
    aiData.options = [] ∧ aiData.optionKeys = [] := by
  obtain ⟨args, aiLibInfo, -, -, hdata⟩ := control_create_inv env actionArgs aiData hcall
  have hopt := (readArgs_fields env args).2.2.2.1
  rw [hdata]
  simp only [AIControlActionExecutor.makeAIData, hopt, List.map_nil, and_self]

/-- C19 at the input of the usage text, `/AIControl 1 RAI 0.601 my_RAI_Friend difficulty=2
aggressiveness=3`: the record is created without the two options. -/
theorem AIControl_passes_no_options_witness :
    (AIControlActionExecutor.Execute (exampleEnv (ResetState 2) (fun _ => none))
        "1 RAI 0.601 my_RAI_Friend difficulty=2 aggressiveness=3").effects =
      [Effect.CreateLocalSkirmishAI exampleCreatedFriend] ∧
    (exampleCreatedFriend.options = [] ∧ exampleCreatedFriend.optionKeys = []) :=
  ⟨by decide,
    AIControl_passes_no_options (exampleEnv (ResetState 2) (fun _ => none))
      "1 RAI 0.601 my_RAI_Friend difficulty=2 aggressiveness=3" exampleCreatedFriend
      (by decide)⟩

/-! ## C20: the id of the AI that is executing -/

/-- C20: `GetCurrentAIID` returns the argument of the most recent `SetCurrentAIID` call (a
`uint8_t`), and `MAX_AIS`, the "no AI currently executing" sentinel, when no
`SetCurrentAIID` call has been made (after `ResetState` and any `AddSkirmishAI` and
`RemoveSkirmishAI` calls); `SetCurrentAIID` changes no other field of the handler. -/
theorem currentAIID_get_set (MAX_AIS : Nat) (hmax : MAX_AIS ≤ 255) (h : CSkirmishAIHandler)
    (id : Nat) (hid : id < 256) :
    GetCurrentAIID (SetCurrentAIID h id) = id ∧
      (∀ ids : List Nat, GetCurrentAIID ((ids ++ [id]).foldl SetCurrentAIID h) = id) ∧
      (∀ g, Reachable MAX_AIS g → GetCurrentAIID g = MAX_AIS) ∧
      SetCurrentAIID h id = { h with currentAIId := id } ∧
      (SetCurrentAIID h id).aiInstanceData = h.aiInstanceData ∧
      (SetCurrentAIID h id).localTeamAIs = h.localTeamAIs ∧
      (SetCurrentAIID h id).aiKillFlags = h.aiKillFlags ∧
      (SetCurrentAIID h id).skirmishAIDataMap = h.skirmishAIDataMap ∧
      (SetCurrentAIID h id).luaAIShortNames = h.luaAIShortNames ∧
      (SetCurrentAIID h id).numSkirmishAIs = h.numSkirmishAIs ∧
      (SetCurrentAIID h id).gameInitialized = h.gameInitialized := by
  have hmod : id % 256 = id := Nat.mod_eq_of_lt hid
  refine ⟨?_, ?_, ?_, ?_, rfl, rfl, rfl, rfl, rfl, rfl, rfl⟩
  · simp [GetCurrentAIID, SetCurrentAIID, hmod]
  · intro ids
    rw [List.foldl_append]
    simp [GetCurrentAIID, SetCurrentAIID, hmod]
  · intro g hg
    exact currentAIId_of_reachable MAX_AIS hmax g hg
  · simp [SetCurrentAIID, hmod]

/-- C20 at concrete inputs: in the full table of capacity 2 nobody has set the id, so it is
the sentinel 2; after `SetCurrentAIID(0)` and `SetCurrentAIID(1)` it is 1. -/
theorem currentAIID_get_set_witness :
    GetCurrentAIID fullTable2 = 2 ∧
      GetCurrentAIID (SetCurrentAIID (SetCurrentAIID fullTable2 0) 1) = 1 :=
  ⟨(currentAIID_get_set 2 (by decide) fullTable2 1 (by decide)).2.2.1 fullTable2
      (Reachable.add _ _ _ (Reachable.add _ _ _ Reachable.reset)),
    (currentAIID_get_set 2 (by decide) fullTable2 1 (by decide)).2.1 [0]⟩

/-! ## C21: well-formed records -/

/-- C21: `IsValidSkirmishAI(aiData)` is true if and only if `aiData.shortName` is non-empty;
it depends on no other field of the record: two records that agree on shortName get the
same answer. -/
theorem IsValidSkirmishAI_iff (aiData : SkirmishAIData) :
    (IsValidSkirmishAI aiData = true ↔ aiData.shortName ≠ "") ∧
      (IsValidSkirmishAI aiData = false ↔ aiData.shortName = "") ∧
      ∀ other : SkirmishAIData, other.shortName = aiData.shortName →
        IsValidSkirmishAI other = IsValidSkirmishAI aiData := by
  refine ⟨by simp [IsValidSkirmishAI], by simp [IsValidSkirmishAI], ?_⟩
  intro other hsame
  simp [IsValidSkirmishAI, hsame]

/-- C21 at concrete inputs: the record of "RAI" is valid, and so is every record with that
short name, here one on another team with another name; the unoccupied slot is not. -/
theorem IsValidSkirmishAI_iff_witness :
    IsValidSkirmishAI (exampleAI 1 0) = true ∧ IsValidSkirmishAI SkirmishAIData.empty = false ∧
      IsValidSkirmishAI exampleCreatedFriend = IsValidSkirmishAI (exampleAI 1 0) :=
  ⟨(IsValidSkirmishAI_iff (exampleAI 1 0)).1.2 (by decide),
    (IsValidSkirmishAI_iff SkirmishAIData.empty).2.1.2 (by decide),
    (IsValidSkirmishAI_iff (exampleAI 1 0)).2.2 exampleCreatedFriend (by decide)⟩

/-! ## C22: the rows of `/AIList` -/

/-- C22, evaluated on the code: the local player is "Alice" (number 0) and the Skirmish AI of
id 1 is hosted by "Bob" (number 1).  The row of that AI ends with "(Host:) Alice": line 871
looks up `gu->myPlayerNum` instead of the hostPlayer of the AI.  The row of the locally
hosted AI of id 0 ends with "(Key:)  ", its shortName, a space and its version. -/
theorem AIList_names_local_player_as_host :
    ((twoPlayerEnv (ResetState 2)).Player 1).map CPlayer.name = some "Bob" ∧
      AIListActionExecutor.lastPart (twoPlayerEnv (ResetState 2)) (1, exampleAI 1 1) =
        some "(Host:) Alice" ∧
      AIListActionExecutor.Execute (twoPlayerEnv (ResetState 2))
          [(0, exampleAI 0 0), (1, exampleAI 1 1)] =
        .ok (true,
          ["ID | Team | Local | Lua | Name | (Hosting player name) or (Short name & Version)",
            "0 | 0 | yes | no  | RAI | (Key:)  RAI 0.601",
            "1 | 1 | no  | no  | RAI | (Host:) Alice"]) :=
  ⟨by decide, by decide, by rfl⟩

/-! ## C23: `/save` -/

/-- C23, evaluated on the code: `/save -y mygame`, the documented syntax, saves to the file
"-y.ssf" ("-y.slsf" for LuaSave) in "Saves/" with overwriting disabled: the first token is
taken as the name and the second is compared with "-y".  `/save mygame -y` is what saves to
"Saves/mygame.ssf" with overwriting enabled; `/save mygame` saves there with overwriting
disabled, and three arguments save nothing and return false. -/
theorem Save_takes_flag_as_name :
    SaveActionExecutor.Execute true "-y mygame" =
        some (true, [{ path := "Saves/-y.ssf", overwrite := false, usecreg := true }]) ∧
      SaveActionExecutor.Execute false "-y mygame" =
        some (true, [{ path := "Saves/-y.slsf", overwrite := false, usecreg := false }]) ∧
      SaveActionExecutor.Execute true "mygame -y" =
        some (true, [{ path := "Saves/mygame.ssf", overwrite := true, usecreg := true }]) ∧
      SaveActionExecutor.Execute true "mygame" =
        some (true, [{ path := "Saves/mygame.ssf", overwrite := false, usecreg := true }]) ∧
      SaveActionExecutor.Execute true "-y my game" = some (false, []) := by
  decide

/-! ## C24: when a kill or reload command acts -/

/-- C25: assuming that `GetSkirmishAIsInTeam(team, myPlayerNum)` returns only ids of active
instances hosted by the local player, the AI chosen by `AIKillReloadActionExecutor::Execute`
(`teamAIs[0]`) is hosted by the local player whenever the validation gets past lines
623-656, so `weAreAIHost` is true in the permission check; the "player is not allowed"
branch is never taken (its warning is never logged, and every run gets to the end); and,
`IsLocalSkirmishAI` being true of every active instance hosted by the local player, the
guard before `SetLocalKillFlag` passes in every validated kill without a second argument. -/
theorem AIKillReload_host_is_local (kill : Bool) (env : GameEnv) (actionArgs : String)
    (hsize : actionArgs.data.length < npos) (hsound : SoundLookup env) :
    (∀ args, _local_strSpaceTokenize actionArgs = some args →
      (AIKillReloadActionExecutor.selectAI kill env args).badArgs = false →
      ∃ aiData,
        env.GetSkirmishAI (AIKillReloadActionExecutor.selectAI kill env args).skirmishAIId
          = some aiData ∧
        decide (aiData.hostPlayer = env.myPlayerNum) = true) ∧
    Effect.log LogLine.killNotAllowed ∉
      (AIKillReloadActionExecutor.Execute kill env actionArgs).effects ∧
    (∃ effects, AIKillReloadActionExecutor.Execute kill env actionArgs = .ok effects) ∧
    ((∀ id aiData, env.GetSkirmishAI id = some aiData → aiData.hostPlayer = env.myPlayerNum →
        env.IsLocalSkirmishAI id = true) →
      ∀ args, _local_strSpaceTokenize actionArgs = some args →
        AIKillReloadActionExecutor.Validated true env args → args.length < 2 →
        ∃ id rest, env.GetSkirmishAIsInTeam (atoi (args.getD 0 "")) env.myPlayerNum = id :: rest ∧
          AIKillReloadActionExecutor.Execute true env actionArgs =
            .ok [Effect.SetLocalKillFlag id 3, Effect.log LogLine.beeingKilledOrReloaded]) := by
  obtain ⟨hok, hnot⟩ := killReload_complete kill env actionArgs hsize hsound
  refine ⟨?_, hnot, hok, ?_⟩
  · intro args _ hb
    obtain ⟨-, -, -, -, -, -, -, -, rest, hlist⟩ := selectAI_pass kill env args hb
    obtain ⟨aiData, hget, hhost⟩ := hsound (atoi (args.getD 0 ""))
      (AIKillReloadActionExecutor.selectAI kill env args).skirmishAIId
      (by rw [hlist]; exact List.mem_cons_self _ _)
    exact ⟨aiData, hget, decide_eq_true hhost⟩
  · intro hlocal args htok hval hlen
    have hexec := killReload_validated_run true env actionArgs args htok hval
    obtain ⟨he, hshare, -, -, -, -, -, -, rest, hlist⟩ := selectAI_pass true env args hval.2.1
    obtain ⟨aiData, hget, hhost⟩ := hsound (atoi (args.getD 0 ""))
      (AIKillReloadActionExecutor.selectAI true env args).skirmishAIId
      (by rw [hlist]; exact List.mem_cons_self _ _)
    have hguard := hlocal _ aiData hget hhost
    have hlen' : ¬ 2 ≤ args.length := by omega
    rw [act_effects true env _ hval.2.1 he, hshare, hguard] at hexec
    refine ⟨_, rest, hlist, ?_⟩
    simpa [hlen'] using hexec

/-- C25 at a concrete input: `/AIKill 1` in a game whose handler lookups are consistent. -/
theorem AIKillReload_host_is_local_witness :
    Effect.log LogLine.killNotAllowed ∉
        (AIKillReloadActionExecutor.Execute true (exampleEnv fullTable2 (fun _ => none)) "1").effects ∧
      (AIKillReloadActionExecutor.Execute true (exampleEnv fullTable2 (fun _ => none)) "1").effects
        = [Effect.SetLocalKillFlag 1 3, Effect.log LogLine.beeingKilledOrReloaded] :=
  ⟨(AIKillReload_host_is_local true (exampleEnv fullTable2 (fun _ => none)) "1" (by decide)
      (exampleEnv_soundLookup fullTable2 (fun _ => none))).2.1,
    by decide⟩

/-! ## C26: who may hand a team to a Skirmish AI -/

/-- C26: `AIControlActionExecutor::Execute` calls `CreateLocalSkirmishAI` only if the local
player is the leader of the target team, or at most one player is active, or the local
player's team is allied with the target team and either cheating is enabled or the target
team has no leader. -/
theorem AIControl_creates_only_if_permitted (env : GameEnv) (actionArgs : String)
    (aiData : SkirmishAIData)
    (hcall : Effect.CreateLocalSkirmishAI aiData ∈
      (AIControlActionExecutor.Execute env actionArgs).effects) :
    (env.Team aiData.team).GetLeader = env.myPlayerNum ∨ env.ActivePlayers ≤ 1 ∨
      (env.AlliedTeams env.fromTeamId aiData.team = true ∧
        (env.cheatEnabled = true ∨ (env.Team aiData.team).HasLeader = false)) := by
  obtain ⟨args, aiLibInfo, -, hacc, hdata⟩ := control_create_inv env actionArgs aiData hcall
  obtain ⟨-, -, teamToControl, hteam, hperm, -⟩ := hacc
  obtain ⟨-, -, -, -, hid, hptr⟩ := readArgs_fields env args
  have hteamId : aiData.team = (AIControlActionExecutor.readArgs env args).teamToControlId := by
    rw [hdata]; rfl
  rw [hptr] at hteam
  have hT : env.Team aiData.team = teamToControl := by
    rw [hteamId, hid]
    by_cases hact : env.IsActiveTeam (atoi (args.getD 0 "")) = true
    · rw [if_pos hact] at hteam
      injection hteam
    · rw [if_neg hact] at hteam
      cases hteam
  rw [hT, hteamId]
  simp only [Bool.or_eq_true, Bool.and_eq_true, decide_eq_true_eq, Bool.not_eq_true'] at hperm
  rcases hperm with (h | h) | ⟨ha, hc⟩
  · exact Or.inl h
  · exact Or.inr (Or.inl h)
  · exact Or.inr (Or.inr ⟨ha, hc⟩)

/-- C26 at a concrete input: `/AIControl 1 RAI 0.601` by player 0, who leads team 1 and is
the only active player. -/
theorem AIControl_creates_only_if_permitted_witness :
    Effect.CreateLocalSkirmishAI exampleCreated ∈
        (AIControlActionExecutor.Execute (exampleEnv (ResetState 2) (fun _ => none))
          "1 RAI 0.601").effects ∧
      (((exampleEnv (ResetState 2) (fun _ => none)).Team exampleCreated.team).GetLeader =
          (exampleEnv (ResetState 2) (fun _ => none)).myPlayerNum ∨
        (exampleEnv (ResetState 2) (fun _ => none)).ActivePlayers ≤ 1 ∨
        ((exampleEnv (ResetState 2) (fun _ => none)).AlliedTeams
            (exampleEnv (ResetState 2) (fun _ => none)).fromTeamId exampleCreated.team = true ∧
          ((exampleEnv (ResetState 2) (fun _ => none)).cheatEnabled = true ∨
            ((exampleEnv (ResetState 2) (fun _ => none)).Team exampleCreated.team).HasLeader
              = false))) :=
  ⟨by decide,
    AIControl_creates_only_if_permitted (exampleEnv (ResetState 2) (fun _ => none))
      "1 RAI 0.601" exampleCreated (by decide)⟩

/-! ## C27: null pointers -/

/-- C27, evaluated on the code: when the lookup of the local player gives the null pointer
and the permission check of lines 769-779 fails (another player leads team 1, two players
are active, no alliance), `/AIControl 1 RAI` dereferences `fromPlayer` for the name in the
"not allowed" warning: the run ends in a null-pointer fault before anything is logged. -/
theorem AIControl_dereferences_null_player :
    (noPlayerEnv (ResetState 2)).Player (noPlayerEnv (ResetState 2)).myPlayerNum = none ∧
      AIControlActionExecutor.Execute (noPlayerEnv (ResetState 2)) "1 RAI" =
        .error (Fault.nullPointer, []) :=
  ⟨by decide, by rfl⟩

/-! ## C28: `HasSkirmishAIsInTeam` -/

/-- C28: `HasSkirmishAIsInTeam(teamId, hostPlayerId)` is true if and only if
`GetSkirmishAIsInTeam(teamId, hostPlayerId)` is non-empty, for every handler state, team id
and host filter, the default -1 included; that is, if and only if some active instance is
on the team and passes the host filter. -/
theorem HasSkirmishAIsInTeam_iff (MAX_AIS : Nat) (h : CSkirmishAIHandler)
    (teamId hostPlayerId : Int) :
    (HasSkirmishAIsInTeam MAX_AIS h teamId hostPlayerId = true ↔
      GetSkirmishAIsInTeam MAX_AIS h teamId hostPlayerId ≠ []) ∧
    (HasSkirmishAIsInTeam MAX_AIS h teamId (-1) = true ↔
      GetSkirmishAIsInTeam MAX_AIS h teamId (-1) ≠ []) ∧
    (HasSkirmishAIsInTeam MAX_AIS h teamId hostPlayerId = true ↔
      ∃ id aiData, GetSkirmishAI MAX_AIS h id = some aiData ∧ aiData.team = teamId ∧
        (hostPlayerId ≠ -1 → aiData.hostPlayer = hostPlayerId)) := by
  refine ⟨by simp [HasSkirmishAIsInTeam], by simp [HasSkirmishAIsInTeam], ?_⟩
  simp only [HasSkirmishAIsInTeam, decide_eq_true_eq]
  constructor
  · intro hne
    obtain ⟨id, hid⟩ := List.exists_mem_of_ne_nil _ hne
    exact ⟨id, (mem_getSkirmishAIsInTeam MAX_AIS h teamId hostPlayerId id).1 hid⟩
  · rintro ⟨id, hex⟩
    exact List.ne_nil_of_mem ((mem_getSkirmishAIsInTeam MAX_AIS h teamId hostPlayerId id).2 hex)

/-- C28 at concrete inputs: in the full table of capacity 2, team 1 has a Skirmish AI, for no
host filter and for host 0, and none hosted by player 7. -/
theorem HasSkirmishAIsInTeam_iff_witness :
    HasSkirmishAIsInTeam 2 fullTable2 1 (-1) = true ∧ HasSkirmishAIsInTeam 2 fullTable2 1 0 = true ∧
      HasSkirmishAIsInTeam 2 fullTable2 1 7 = false ∧
      GetSkirmishAIsInTeam 2 fullTable2 1 7 = [] :=
  ⟨(HasSkirmishAIsInTeam_iff 2 fullTable2 1 0).2.1.2 (by decide),
    (HasSkirmishAIsInTeam_iff 2 fullTable2 1 0).1.2 (by decide), by decide, by decide⟩

/-! ## C29: what `_local_strSpaceTokenize` returns -/

/-- C29: on every text that a `std::string` can hold, `_local_strSpaceTokenize` returns, in
their order, the pieces of the text split at every space and tab, the empty pieces dropped.
Hence every token is non-empty and holds neither a space nor a tab; every token lies in the
text between a space or tab, or the start of the text, and a space or tab, or the end of the
text; the tokens glued together are the text without its spaces and tabs, so that every other
character, a newline too, stays inside a token; and no token is returned exactly when the
text holds spaces and tabs only. -/
theorem strSpaceTokenize_splits_at_space_and_tab (text : String)
    (hsize : text.data.length < npos) :
    ∃ tokens, _local_strSpaceTokenize text = some tokens ∧
      tokens = (spaceTokensSpec text.data).map String.mk ∧
      (∀ token ∈ tokens, token.data ≠ [] ∧ ∀ c ∈ token.data, c ≠ ' ' ∧ c ≠ '\t') ∧
      (∀ token ∈ tokens, ∃ before after, text.data = before ++ token.data ++ after ∧
        (before = [] ∨ ∃ init d, before = init ++ [d] ∧ (d = ' ' ∨ d = '\t')) ∧
        (after = [] ∨ ∃ d tail, after = d :: tail ∧ (d = ' ' ∨ d = '\t'))) ∧
      (tokens.map String.data).flatten =
        text.data.filter (fun c => !(c == ' ' || c == '\t')) ∧
      (∀ c ∈ text.data, c ≠ ' ' → c ≠ '\t' → ∃ token ∈ tokens, c ∈ token.data) ∧
      (tokens = [] ↔ ∀ c ∈ text.data, c = ' ' ∨ c = '\t') := by
  have hdelim : ∀ c : Char, isSpaceOrTab c = true ↔ (c = ' ' ∨ c = '\t') := by
    intro c
    simp [isSpaceOrTab]
  have hnodelim : ∀ c : Char, isSpaceOrTab c = false ↔ (c ≠ ' ' ∧ c ≠ '\t') := by
    intro c
    simp [isSpaceOrTab]
  have hdata : ((spaceTokensSpec text.data).map String.mk).map String.data =
      spaceTokensSpec text.data := by
    rw [List.map_map]
    exact List.map_id _
  have hflat := spaceTokensSpec_flatten text.data
  refine ⟨_, tokenize_eq_spec text hsize, rfl, ?_, ?_, ?_, ?_, ?_⟩
  · intro token hmem
    obtain ⟨piece, hpiece, rfl⟩ := List.mem_map.1 hmem
    obtain ⟨hne, hfree⟩ := spaceTokensSpec_token_shape text.data piece hpiece
    exact ⟨hne, fun c hc => (hnodelim c).1 (hfree c hc)⟩
  · intro token hmem
    obtain ⟨piece, hpiece, rfl⟩ := List.mem_map.1 hmem
    obtain ⟨before, after, hsplit, hbefore, hafter⟩ :=
      spaceTokensSpec_maximal text.data piece hpiece
    refine ⟨before, after, hsplit, ?_, ?_⟩
    · rcases hbefore with h | ⟨init, d, h, hd⟩
      · exact Or.inl h
      · exact Or.inr ⟨init, d, h, (hdelim d).1 hd⟩
    · rcases hafter with h | ⟨d, tail, h, hd⟩
      · exact Or.inl h
      · exact Or.inr ⟨d, tail, h, (hdelim d).1 hd⟩
  · rw [hdata, hflat]
    rfl
  · intro c hc h1 h2
    have hmem : c ∈ (spaceTokensSpec text.data).flatten := by
      rw [hflat, List.mem_filter]
      exact ⟨hc, by rw [(hnodelim c).2 ⟨h1, h2⟩]; rfl⟩
    obtain ⟨piece, hpiece, hcp⟩ := List.mem_flatten.1 hmem
    exact ⟨String.mk piece, List.mem_map_of_mem _ hpiece, hcp⟩
  · rw [List.map_eq_nil_iff, spaceTokensSpec_eq_nil_iff]
    exact forall_congr' (fun c => imp_congr_right (fun _ => hdelim c))

/-- C29 at a concrete input: a text with leading, repeated and trailing delimiters and a
newline gives two tokens, the newline inside the first. -/
theorem strSpaceTokenize_splits_at_space_and_tab_witness :
    " a\nb \t c ".data.length < npos ∧
      _local_strSpaceTokenize " a\nb \t c " = some ["a\nb", "c"] ∧
      ∃ tokens, _local_strSpaceTokenize " a\nb \t c " = some tokens ∧
        tokens = (spaceTokensSpec " a\nb \t c ".data).map String.mk :=
  ⟨by decide, by decide,
    (strSpaceTokenize_splits_at_space_and_tab " a\nb \t c " (by decide)).imp
      (fun _ h => ⟨h.1, h.2.1⟩)⟩

/-! ## C30: the loop of `_local_strSpaceTokenize` ends -/

/-- C30: `_local_strSpaceTokenize` returns on every text that a `std::string` can hold, and so
does its loop with any fuel of at least `text.size()`.  The loop body runs once for each token
returned, which makes at most `(text.size() + 1) / 2` executions, and every execution either
sets `lastPos` and `pos` to `npos`, or moves `lastPos` strictly forward, beyond the end of the
token it pushed. -/
theorem strSpaceTokenize_terminates (text : String) (hsize : text.data.length < npos) :
    ∃ tokens iterations,
      _local_strSpaceTokenize text = some tokens ∧
      (∀ fuel, text.data.length ≤ fuel →
        _local_strSpaceTokenize.loop text.data fuel
          (find_first_not_of text.data SPACE_DELIMS 0)
          (find_first_of text.data SPACE_DELIMS (find_first_not_of text.data SPACE_DELIMS 0))
          [] = some tokens) ∧
      _local_strSpaceTokenize.logged text = some (tokens, iterations) ∧
      iterations.map (fun it => String.mk it.token) = tokens ∧
      iterations.length = tokens.length ∧
      tokens.length ≤ (text.data.length + 1) / 2 ∧
      ∀ it ∈ iterations,
        (it.newLastPos = npos ∧ it.newPos = npos) ∨
          (it.lastPos < it.newLastPos ∧ it.lastPos + it.token.length < it.newLastPos) := by
  obtain ⟨iterations, hrun, htokens, hall⟩ :=
    tokenize_loggedLoop_spec text.data hsize (text.data.length + 1) 0 [] [] (by omega)
  simp only [List.drop_zero, List.nil_append] at hrun htokens
  refine ⟨(spaceTokensSpec text.data).map String.mk, iterations, tokenize_eq_spec text hsize,
    ?_, hrun, ?_, ?_, ?_, hall⟩
  · intro fuel hfuel
    have := tokenize_loop_eq_spec text.data hsize fuel 0 [] (by omega)
    simpa using this
  · rw [← htokens, List.map_map]
    rfl
  · rw [← htokens, List.length_map, List.length_map]
  · rw [List.length_map]
    exact spaceTokensSpec_length_le text.data

/-- C30 at a concrete input: two tokens, two executions of the loop body, the first moving
`lastPos` from 1 to 7, the second setting both positions to `npos`. -/
theorem strSpaceTokenize_terminates_witness :
    " a\nb \t c ".data.length < npos ∧
      _local_strSpaceTokenize.logged " a\nb \t c " =
        some (["a\nb", "c"],
          [⟨1, 4, "a\nb".data, 7, 8⟩, ⟨7, 8, "c".data, npos, npos⟩]) ∧
      ∃ tokens iterations, _local_strSpaceTokenize.logged " a\nb \t c " =
          some (tokens, iterations) ∧ iterations.length = tokens.length ∧
        tokens.length ≤ (" a\nb \t c ".data.length + 1) / 2 :=
  ⟨by decide, by decide,
    (strSpaceTokenize_terminates " a\nb \t c " (by decide)).imp
      (fun _ h => h.imp (fun _ h => ⟨h.2.2.1, h.2.2.2.2.1, h.2.2.2.2.2.1⟩))⟩

end Spring
